import Mathlib

/-!
# eKuiper dataflow core: barrier handlers, window operator, unary operator

A shallow embedding of `internal/topo/checkpoint/barrier_handler.go`, of the
window operator of `internal/topo/node/window_op.go` and of the worker loop of
`internal/topo/node/operations.go`, with the properties their specification
states about them.

Conventions of the embedding.

* A Go `map[int64]int` is an association list read through `mapGet`; the order
  of the list carries no meaning, only the value found under each key does.
* A Go `map[string]bool` whose values are always `true` and which is only
  tested for key presence is a `Finset String`.
* `Responder.TriggerCheckpoint` is a collaborator: every function that calls it
  takes the answer as a function `accept` (`true` when the returned error is
  nil) and returns the list of ids it passed to the responder.
* `int64` checkpoint ids are only compared, never computed with; they are `Int`.
  The pending counts are Go `int`; they start at 1 and grow by one per call, so
  the addition `c + 1` is the mathematical one (a wrap needs 2^63 calls).
-/

namespace Checkpoint

/-! ## Envelopes -/

/-- Modelled from the spec: the declaration of `Barrier` is in a file of the
package that is not among the sources; the record is
`{checkpoint_id: int64, op_id: string}`. -/
structure Barrier where
  CheckpointId : Int
  OpId : String
deriving DecidableEq, Repr

/-- Modelled from the spec: the payload of an envelope is a tagged variant; the
handlers only distinguish a barrier from everything else, so the other
payloads are kept as a value of an arbitrary type. -/
inductive Payload (α : Type) where
  | barrier (b : Barrier)
  | data (d : α)
deriving DecidableEq, Repr

/-- Modelled from the spec: the declaration of `BufferOrEvent` is in a file of
the package that is not among the sources; it wraps `{payload, channel_id}`. -/
structure BufferOrEvent (α : Type) where
  Data : Payload α
  Channel : String
deriving DecidableEq, Repr

/-! ## Go maps `map[int64]int` -/

/-- Map read `c, ok := m[k]`: `some c` when the key is present. -/
def mapGet : List (Int × Int) → Int → Option Int
  | [], _ => none
  | (j, c) :: rest, k => if j = k then some c else mapGet rest k

/-- Builtin `delete(m, k)`. -/
def mapDelete (m : List (Int × Int)) (k : Int) : List (Int × Int) :=
  m.filter (fun e => decide (e.1 ≠ k))

/-- Map write `m[k] = v`. -/
def mapSet (m : List (Int × Int)) (k v : Int) : List (Int × Int) :=
  (k, v) :: mapDelete m k

/-- The loop `for cid := range m { if cid < k { delete(m, cid) } }`. -/
def mapDeleteBelow (m : List (Int × Int)) (k : Int) : List (Int × Int) :=
  m.filter (fun e => !decide (e.1 < k))

/-! ## BarrierTracker -/

/-- The tracker of `barrier_handler.go` (qos 1). -/
structure BarrierTracker where
  inputCount : Int
  pendingCheckpoints : List (Int × Int)
deriving DecidableEq, Repr

/-- Constructor `NewBarrierTracker`: an empty pending map. -/
def NewBarrierTracker (inputCount : Int) : BarrierTracker :=
  { inputCount := inputCount, pendingCheckpoints := [] }

/-- Method `BarrierTracker.processBarrier`. Returns the tracker after the call
and the ids passed to `TriggerCheckpoint` during the call, in order. -/
def BarrierTracker.processBarrier (h : BarrierTracker) (accept : Int → Bool)
    (b : Barrier) : BarrierTracker × List Int :=
  if h.inputCount = 1 then
    (h, [b.CheckpointId])
  else
    match mapGet h.pendingCheckpoints b.CheckpointId with
    | some c =>
      let c := c + 1
      if c = h.inputCount then
        if accept b.CheckpointId then
          ({ h with pendingCheckpoints :=
              mapDeleteBelow (mapDelete h.pendingCheckpoints b.CheckpointId) b.CheckpointId },
            [b.CheckpointId])
        else
          (h, [b.CheckpointId])
      else
        ({ h with pendingCheckpoints := mapSet h.pendingCheckpoints b.CheckpointId c }, [])
    | none =>
      ({ h with pendingCheckpoints := mapSet h.pendingCheckpoints b.CheckpointId 1 }, [])

/-- Method `BarrierTracker.Process`: the tracker after the call, the returned
flag and the ids passed to `TriggerCheckpoint`. -/
def BarrierTracker.Process {α : Type} (h : BarrierTracker) (accept : Int → Bool)
    (data : BufferOrEvent α) : BarrierTracker × Bool × List Int :=
  match data.Data with
  | .barrier b =>
    let r := h.processBarrier accept b
    (r.1, true, r.2)
  | .data _ => (h, false, [])

/-- Every stored count is at least one: the counts are created as 1 and only
incremented. -/
def BarrierTracker.WF (h : BarrierTracker) : Prop :=
  ∀ e ∈ h.pendingCheckpoints, 1 ≤ e.2

instance (h : BarrierTracker) : Decidable h.WF := by
  unfold BarrierTracker.WF; infer_instance

/-- A run of the tracker over a sequence of envelopes. The responder may answer
differently at each call: `resp log k` is its answer to `TriggerCheckpoint k`
when `log` lists the ids it was asked before. Returns the final tracker and the
complete log of ids passed to `TriggerCheckpoint`. -/
def BarrierTracker.run {α : Type} (resp : List Int → Int → Bool) :
    BarrierTracker → List Int → List (BufferOrEvent α) → BarrierTracker × List Int
  | h, log, [] => (h, log)
  | h, log, d :: ds =>
    let r := h.Process (resp log) d
    BarrierTracker.run resp r.1 (log ++ r.2.2) ds

/-- Number of barriers with checkpoint id `k` in a sequence of envelopes. -/
def barrierCount {α : Type} (k : Int) (ds : List (BufferOrEvent α)) : Nat :=
  (ds.filter (fun d =>
    match d.Data with
    | .barrier b => decide (b.CheckpointId = k)
    | .data _ => false)).length

/-- The pending count of `k`, zero when the map has no entry for it. -/
def BarrierTracker.pendingCount (h : BarrierTracker) (k : Int) : Int :=
  (mapGet h.pendingCheckpoints k).getD 0

/-- The invariant of the pending map, read through `mapGet`: every count is at
least one and, with two inputs or more, below the input count. -/
def BarrierTracker.Inv (h : BarrierTracker) : Prop :=
  ∀ j c, mapGet h.pendingCheckpoints j = some c → 1 ≤ c ∧ (2 ≤ h.inputCount → c < h.inputCount)

/-! ## BarrierAligner -/

/-- The aligner of `barrier_handler.go` (qos 2). The `responder` and the
`output` channel are collaborators: what is sent to them is returned by the
methods below. -/
structure BarrierAligner (α : Type) where
  inputCount : Int
  currentCheckpointId : Int
  blockedChannels : Finset String
  buffer : List (BufferOrEvent α)
deriving DecidableEq

/-- Constructor `NewBarrierAligner`: zero checkpoint id, nothing blocked, nil
buffer. -/
def NewBarrierAligner {α : Type} (inputCount : Int) : BarrierAligner α :=
  { inputCount := inputCount, currentCheckpointId := 0, blockedChannels := ∅, buffer := [] }

/-- Method `BarrierAligner.onBarrier`. -/
def BarrierAligner.onBarrier {α : Type} (h : BarrierAligner α) (name : String) :
    BarrierAligner α :=
  if name ∈ h.blockedChannels then h
  else { h with blockedChannels := insert name h.blockedChannels }

/-- Method `BarrierAligner.releaseBlocksAndResetBarriers`. -/
def BarrierAligner.releaseBlocksAndResetBarriers {α : Type} (h : BarrierAligner α) :
    BarrierAligner α :=
  { h with blockedChannels := ∅ }

/-- Method `BarrierAligner.beginNewAlignment`. -/
def BarrierAligner.beginNewAlignment {α : Type} (h : BarrierAligner α) (barrier : Barrier) :
    BarrierAligner α :=
  ({ h with currentCheckpointId := barrier.CheckpointId }).onBarrier barrier.OpId

/-- What one step of the barrier state machine produces: the aligner after the
step, the ids passed to `TriggerCheckpoint`, and whether control reaches the
completion check (`false` when the method has returned). -/
structure Transition (α : Type) where
  aligner : BarrierAligner α
  triggered : List Int
  proceed : Bool
deriving DecidableEq

/-- First half of `BarrierAligner.processBarrier`: the `if`/`else` cascade that
ends just before the test `len(h.blockedChannels) == h.inputCount`. With one
input the responder's answer is only logged, so it does not appear here. -/
def BarrierAligner.transition {α : Type} (h : BarrierAligner α) (b : Barrier) :
    Transition α :=
  if h.inputCount = 1 then
    if b.CheckpointId > h.currentCheckpointId then
      { aligner := { h with currentCheckpointId := b.CheckpointId },
        triggered := [b.CheckpointId], proceed := false }
    else
      { aligner := h, triggered := [], proceed := false }
  else if h.blockedChannels.card > 0 then
    if b.CheckpointId = h.currentCheckpointId then
      { aligner := h.onBarrier b.OpId, triggered := [], proceed := true }
    else if b.CheckpointId > h.currentCheckpointId then
      { aligner := h.releaseBlocksAndResetBarriers.beginNewAlignment b,
        triggered := [], proceed := true }
    else
      { aligner := h, triggered := [], proceed := false }
  else if b.CheckpointId > h.currentCheckpointId then
    { aligner := h.beginNewAlignment b, triggered := [], proceed := true }
  else
    { aligner := h, triggered := [], proceed := false }

/-- Result of a call on the aligner: the aligner after the call, the ids passed
to `TriggerCheckpoint`, and the envelopes handed to `output`, in the order in
which the flushing goroutine sends them. -/
structure Outcome (α : Type) where
  aligner : BarrierAligner α
  triggered : List Int
  flushed : List (BufferOrEvent α)
deriving DecidableEq

/-- Second half of `BarrierAligner.processBarrier`: the completion check. The
copy `temp` of the buffer is what the goroutine sends to `output`. -/
def BarrierAligner.complete {α : Type} (h : BarrierAligner α) (accept : Int → Bool)
    (b : Barrier) : Outcome α :=
  if (h.blockedChannels.card : Int) = h.inputCount then
    if accept b.CheckpointId then
      { aligner := { h.releaseBlocksAndResetBarriers with buffer := [] },
        triggered := [b.CheckpointId], flushed := h.buffer }
    else
      { aligner := h, triggered := [b.CheckpointId], flushed := [] }
  else
    { aligner := h, triggered := [], flushed := [] }

/-- Method `BarrierAligner.processBarrier`. -/
def BarrierAligner.processBarrier {α : Type} (h : BarrierAligner α) (accept : Int → Bool)
    (b : Barrier) : Outcome α :=
  let t := h.transition b
  if t.proceed then
    let c := t.aligner.complete accept b
    { aligner := c.aligner, triggered := t.triggered ++ c.triggered, flushed := c.flushed }
  else
    { aligner := t.aligner, triggered := t.triggered, flushed := [] }

/-- Method `BarrierAligner.Process`: the outcome and the returned flag. -/
def BarrierAligner.Process {α : Type} (h : BarrierAligner α) (accept : Int → Bool)
    (data : BufferOrEvent α) : Outcome α × Bool :=
  match data.Data with
  | .barrier b => (h.processBarrier accept b, true)
  | .data _ =>
    if h.inputCount > 1 ∧ h.blockedChannels.card > 0 then
      if data.Channel ∈ h.blockedChannels then
        ({ aligner := { h with buffer := h.buffer ++ [data] }, triggered := [], flushed := [] },
          true)
      else
        ({ aligner := h, triggered := [], flushed := [] }, false)
    else
      ({ aligner := h, triggered := [], flushed := [] }, false)

/-- An aligner at work: the handler, the log of ids passed to
`TriggerCheckpoint`, and what has reached downstream so far. -/
structure AlignerRun (α : Type) where
  aligner : BarrierAligner α
  triggered : List Int
  downstream : List (BufferOrEvent α)
deriving DecidableEq

/-- One envelope through the aligner. An envelope for which `Process` returns
false is passed on by the caller; the envelopes flushed from the buffer follow
whatever was passed on before. `resp log k` is the responder's answer to
`TriggerCheckpoint k` after the calls in `log`. -/
def AlignerRun.step {α : Type} (resp : List Int → Int → Bool) (r : AlignerRun α)
    (d : BufferOrEvent α) : AlignerRun α :=
  let p := r.aligner.Process (resp r.triggered) d
  { aligner := p.1.aligner,
    triggered := r.triggered ++ p.1.triggered,
    downstream := r.downstream ++ (if p.2 then [] else [d]) ++ p.1.flushed }

/-- A sequence of envelopes through the aligner, in arrival order. -/
def AlignerRun.run {α : Type} (resp : List Int → Int → Bool) (r : AlignerRun α)
    (ds : List (BufferOrEvent α)) : AlignerRun α :=
  ds.foldl (AlignerRun.step resp) r

/-- The run that starts from `NewBarrierAligner`. -/
def AlignerRun.init {α : Type} (inputCount : Int) : AlignerRun α :=
  { aligner := NewBarrierAligner inputCount, triggered := [], downstream := [] }

/-- What the caller of `Process` has seen over a sequence of calls: the handler,
the log of ids passed to `TriggerCheckpoint`, the envelopes that are not
barriers and for which `Process` returned true, in order of arrival, and the
envelopes handed to `output`, batch after batch. -/
structure AlignerTrace (α : Type) where
  aligner : BarrierAligner α
  triggered : List Int
  consumed : List (BufferOrEvent α)
  flushed : List (BufferOrEvent α)
deriving DecidableEq

/-- One call of `Process` in a trace. `resp log k` is the responder's answer to
`TriggerCheckpoint k` after the calls in `log`. -/
def AlignerTrace.step {α : Type} (resp : List Int → Int → Bool) (r : AlignerTrace α)
    (d : BufferOrEvent α) : AlignerTrace α :=
  let p := r.aligner.Process (resp r.triggered) d
  { aligner := p.1.aligner,
    triggered := r.triggered ++ p.1.triggered,
    consumed := r.consumed ++
      (match d.Data with
        | .barrier _ => []
        | .data _ => if p.2 then [d] else []),
    flushed := r.flushed ++ p.1.flushed }

/-- A sequence of calls of `Process`, in arrival order. -/
def AlignerTrace.run {α : Type} (resp : List Int → Int → Bool) (r : AlignerTrace α)
    (ds : List (BufferOrEvent α)) : AlignerTrace α :=
  ds.foldl (AlignerTrace.step resp) r

/-- The trace that starts from `NewBarrierAligner`. -/
def AlignerTrace.init {α : Type} (inputCount : Int) : AlignerTrace α :=
  { aligner := NewBarrierAligner inputCount, triggered := [], consumed := [], flushed := [] }

/-- The ids triggered so far are in strictly increasing order and none exceeds
the current checkpoint id; while an alignment is in progress they are all below
it. -/
def AlignerRun.Increasing {α : Type} (r : AlignerRun α) : Prop :=
  List.Pairwise (fun a b => a < b) r.triggered ∧
  (∀ k ∈ r.triggered, k ≤ r.aligner.currentCheckpointId) ∧
  (r.aligner.inputCount ≠ 1 → r.aligner.blockedChannels.card > 0 →
    ∀ k ∈ r.triggered, k < r.aligner.currentCheckpointId)

end Checkpoint

namespace Node

/-! ## Window operator: the scan of `window_op.go` -/

/-- Two's complement wrap of a mathematical integer into the `int64` range, the
result of Go's `int64` addition and subtraction. -/
def wrap64 (x : Int) : Int :=
  (x + 9223372036854775808) % 18446744073709551616 - 9223372036854775808

/-- Modelled from the spec: `ast.WindowType` is declared in a file that is not
among the sources; the window types are tumbling, hopping, sliding, session,
count and none. The names are those the operator uses. -/
inductive WindowType where
  | NOT_WINDOW
  | TUMBLING_WINDOW
  | HOPPING_WINDOW
  | SLIDING_WINDOW
  | SESSION_WINDOW
  | COUNT_WINDOW
deriving DecidableEq, Repr

/-- Struct `WindowConfig`; the field `Type` is spelled `WType`. -/
structure WindowConfig where
  WType : WindowType
  Length : Int
  Interval : Int
deriving DecidableEq, Repr

/-- Modelled from the spec: `xsql.Tuple` is declared outside the sources; of the
record `{emitter, message, metadata, timestamp}` the message and metadata are
kept as one uninterpreted string. -/
structure Tuple where
  Emitter : String
  Message : String
  Timestamp : Int
deriving DecidableEq, Repr

/-- Modelled from the spec: `xsql.WindowTuplesSet` with its `WindowRange` is
declared outside the sources; the window-result set is
`{content: ordered sequence of tuples, window_start, window_end}`. -/
structure WindowTuplesSet where
  Content : List Tuple
  WindowStart : Int
  WindowEnd : Int
deriving DecidableEq, Repr

/-- Modelled from the spec: `WindowTuplesSet.AddTuple` is defined outside the
sources; it adds the tuple at the end of the ordered content. -/
def WindowTuplesSet.AddTuple (w : WindowTuplesSet) (tuple : Tuple) : WindowTuplesSet :=
  { w with Content := w.Content ++ [tuple] }

/-- Modelled from the spec: `WindowTuplesSet.Sort` is defined outside the
sources; it sorts the result by timestamp. -/
def WindowTuplesSet.Sort (w : WindowTuplesSet) : WindowTuplesSet :=
  { w with Content := w.Content.insertionSort (fun a b => a.Timestamp ≤ b.Timestamp) }

/-- The fields of `WindowOperator` that the scan reads and writes. `recordsOut`
is the counter behind `statManager.IncTotalRecordsOut`. -/
structure WindowOperator where
  window : WindowConfig
  isEventTime : Bool
  triggerTime : Int
  msgCount : Int
  recordsOut : Nat
deriving DecidableEq, Repr

/-- Method `WindowOperator.calDelta`; `math.MaxInt16` is 32767. The warning it
logs is not modelled. -/
def WindowOperator.calDelta (o : WindowOperator) (triggerTime : Int) (_delta : Int) : Int :=
  let lastTriggerTime := o.triggerTime
  if lastTriggerTime ≤ 0 then
    32767
  else if !o.isEventTime ∧ o.window.Interval > 0 then
    wrap64 (wrap64 (triggerTime - lastTriggerTime) - o.window.Interval)
  else
    0

/-- The variables of the scan loop: the backing array of `inputs`, which the
loop overwrites in place, the write index `i` and the result set. -/
structure ScanLoop where
  inputs : List Tuple
  i : Nat
  results : WindowTuplesSet
deriving DecidableEq, Repr

/-- Body of the loop `for _, tuple := range inputs` of `scan`, for the tuple
read at the current position. -/
def WindowOperator.scanBody (o : WindowOperator) (triggerTime delta : Int) (st : ScanLoop)
    (tuple : Tuple) : ScanLoop :=
  if o.window.WType = .HOPPING_WINDOW ∨ o.window.WType = .SLIDING_WINDOW then
    let diff := wrap64 (triggerTime - tuple.Timestamp)
    if diff > wrap64 (o.window.Length + delta) then
      st
    else
      let st1 := { st with inputs := st.inputs.set st.i tuple, i := st.i + 1 }
      if tuple.Timestamp ≤ triggerTime then
        { st1 with results := st1.results.AddTuple tuple }
      else st1
  else
    let st1 :=
      if tuple.Timestamp > triggerTime then
        { st with inputs := st.inputs.set st.i tuple, i := st.i + 1 }
      else st
    if tuple.Timestamp ≤ triggerTime then
      { st1 with results := st1.results.AddTuple tuple }
    else st1

/-- The loop of `scan`: `n` iterations remain and the next one reads position
`j` of the backing array as it is then. -/
def WindowOperator.scanLoop (o : WindowOperator) (triggerTime delta : Int) :
    Nat → Nat → ScanLoop → ScanLoop
  | 0, _, st => st
  | n + 1, j, st =>
    match st.inputs.get? j with
    | none => st
    | some tuple => WindowOperator.scanLoop o triggerTime delta n (j + 1)
        (o.scanBody triggerTime delta st tuple)

/-- What `scan` returns and does: the returned slice and flag, the operator
afterwards, and the result sets it broadcast. -/
structure ScanResult where
  inputs : List Tuple
  triggered : Bool
  op : WindowOperator
  broadcast : List WindowTuplesSet
deriving DecidableEq, Repr

/-- Method `WindowOperator.scan`. -/
def WindowOperator.scan (o : WindowOperator) (inputs : List Tuple) (triggerTime : Int) :
    ScanResult :=
  let delta : Int :=
    if o.window.WType = .HOPPING_WINDOW ∨ o.window.WType = .SLIDING_WINDOW then
      o.calDelta triggerTime 0
    else 0
  let results : WindowTuplesSet := { Content := [], WindowStart := 0, WindowEnd := triggerTime }
  let st := o.scanLoop triggerTime delta inputs.length 0
    { inputs := inputs, i := 0, results := results }
  if st.results.Content.length > 0 then
    let results :=
      match o.window.WType with
      | .TUMBLING_WINDOW | .SESSION_WINDOW =>
        { st.results with WindowStart := o.triggerTime }
      | .HOPPING_WINDOW =>
        { st.results with WindowStart := wrap64 (o.triggerTime - o.window.Interval) }
      | .SLIDING_WINDOW =>
        { st.results with WindowStart := wrap64 (triggerTime - o.window.Length) }
      | _ => st.results
    let results := if o.isEventTime then results.Sort else results
    { inputs := st.inputs.take st.i, triggered := true,
      op := { o with triggerTime := triggerTime, recordsOut := o.recordsOut + 1 },
      broadcast := [results] }
  else
    { inputs := st.inputs.take st.i, triggered := false, op := o, broadcast := [] }

/-- The value of `delta` with which the loop of `scan` runs. -/
def WindowOperator.scanDelta (o : WindowOperator) (triggerTime : Int) : Int :=
  if o.window.WType = .HOPPING_WINDOW ∨ o.window.WType = .SLIDING_WINDOW then
    o.calDelta triggerTime 0
  else 0

/-- Path condition of the loop body of `scan` under which the tuple is written
back into the buffer (`inputs[i] = tuple`). -/
def WindowOperator.retained (o : WindowOperator) (triggerTime delta : Int) (tuple : Tuple) :
    Bool :=
  if o.window.WType = .HOPPING_WINDOW ∨ o.window.WType = .SLIDING_WINDOW then
    decide (¬ wrap64 (triggerTime - tuple.Timestamp) > wrap64 (o.window.Length + delta))
  else
    decide (tuple.Timestamp > triggerTime)

/-- Path condition of the loop body of `scan` under which the tuple reaches
`results.AddTuple`: an expired tuple of a hopping or sliding window leaves the
iteration by `continue` before the test on its timestamp. -/
def WindowOperator.included (o : WindowOperator) (triggerTime delta : Int) (tuple : Tuple) :
    Bool :=
  if o.window.WType = .HOPPING_WINDOW ∨ o.window.WType = .SLIDING_WINDOW then
    decide (¬ wrap64 (triggerTime - tuple.Timestamp) > wrap64 (o.window.Length + delta)) &&
      decide (tuple.Timestamp ≤ triggerTime)
  else
    decide (tuple.Timestamp ≤ triggerTime)

/-- The `WindowStart` that the switch of `scan` gives a non-empty result. -/
def WindowOperator.windowStart (o : WindowOperator) (triggerTime : Int) : Int :=
  match o.window.WType with
  | .TUMBLING_WINDOW | .SESSION_WINDOW => o.triggerTime
  | .HOPPING_WINDOW => wrap64 (o.triggerTime - o.window.Interval)
  | .SLIDING_WINDOW => wrap64 (triggerTime - o.window.Length)
  | _ => 0

/-! ## Count windows: `TupleList` and the tuple case of `execProcessingWindow` -/

/-- Struct `TupleList`. -/
structure TupleList where
  tuples : List Tuple
  index : Int
  size : Int
deriving DecidableEq, Repr

/-- Function `NewTupleList`; `none` stands for the returned error. -/
def NewTupleList (tuples : List Tuple) (windowSize : Int) : Option TupleList :=
  if windowSize ≤ 0 then
    none
  else if tuples.length = 0 then
    none
  else
    some { tuples := tuples, index := 0, size := windowSize }

/-- Method `TupleList.hasMoreCountWindow`. -/
def TupleList.hasMoreCountWindow (tl : TupleList) : Bool :=
  if (tl.tuples.length : Int) < tl.size then
    false
  else
    decide (tl.index = 0)

/-- Method `TupleList.count`. -/
def TupleList.count (tl : TupleList) : Int :=
  if (tl.tuples.length : Int) < tl.size then 0 else 1

/-- Method `TupleList.nextCountWindow`: the result set and the list with its
index advanced. The slice `tl.tuples[len-size : len]` is taken with the lower
bound as a natural number; the method is only called under
`hasMoreCountWindow`, where `size <= len`. A count window carries no window
range; the two bounds of the result are left at zero. -/
def TupleList.nextCountWindow (tl : TupleList) : WindowTuplesSet × TupleList :=
  let subT := tl.tuples.drop ((tl.tuples.length : Int) - tl.size).toNat
  (subT.foldl WindowTuplesSet.AddTuple { Content := [], WindowStart := 0, WindowEnd := 0 },
    { tl with index := tl.index + 1 })

/-- Method `TupleList.getRestTuples`; the slice `tl.tuples[len-size+1:]`. -/
def TupleList.getRestTuples (tl : TupleList) : List Tuple :=
  if (tl.tuples.length : Int) < tl.size then
    tl.tuples
  else
    tl.tuples.drop ((tl.tuples.length : Int) - tl.size + 1).toNat

/-- The loop `for tl.hasMoreCountWindow() { tsets := tl.nextCountWindow(); ... }`
with a bound on its iterations: the result sets in the order they are broadcast
and the list afterwards, or `none` when the bound is used up while the
condition of the loop still holds. -/
def TupleList.drain : Nat → TupleList → Option (List WindowTuplesSet × TupleList)
  | 0, tl => if tl.hasMoreCountWindow then none else some ([], tl)
  | fuel + 1, tl =>
    if tl.hasMoreCountWindow then
      match TupleList.drain fuel tl.nextCountWindow.2 with
      | none => none
      | some r => some (tl.nextCountWindow.1 :: r.1, r.2)
    else
      some ([], tl)

/-- Go's `a % b` on `int`: the remainder of the truncated division, and a
run-time panic (`none`) when `b` is zero. -/
def goRem (a b : Int) : Option Int :=
  if b = 0 then none else some (Int.tmod a b)

/-- What the arrival of one tuple does in the `COUNT_WINDOW` case of
`execProcessingWindow`: the loop variable `inputs` and the operator afterwards,
the result sets broadcast, whether `NewTupleList` failed (its error goes to
`errCh`), and the values put under `WINDOW_INPUTS_KEY` and `MSG_COUNT_KEY`,
which is `none` when the iteration ends at `continue` and never reaches
`ctx.PutState`. -/
structure Arrival where
  inputs : List Tuple
  op : WindowOperator
  broadcast : List WindowTuplesSet
  failed : Bool
  putState : Option (List Tuple × Int)
deriving DecidableEq, Repr

/-- The `*xsql.Tuple` case of the loop of `execProcessingWindow` for a count
window. `none` is a run-time panic (zero interval) or the loop bound of
`TupleList.drain` used up; the bound is one more than the number of tuples, more
than the windows a buffer can hold. -/
def WindowOperator.countArrival (o : WindowOperator) (inputs : List Tuple) (d : Tuple) :
    Option Arrival :=
  let inputs := inputs ++ [d]
  let msgCount := o.msgCount + 1
  match goRem msgCount o.window.Interval with
  | none => none
  | some r =>
    if r ≠ 0 then
      some { inputs := inputs, op := { o with msgCount := msgCount }, broadcast := [],
             failed := false, putState := none }
    else
      match NewTupleList inputs o.window.Length with
      | none =>
        some { inputs := inputs, op := { o with msgCount := 0 }, broadcast := [],
               failed := true, putState := some (inputs, 0) }
      | some tl =>
        match tl.drain (tl.tuples.length + 1) with
        | none => none
        | some r =>
          some { inputs := r.2.getRestTuples,
                 op := { o with msgCount := 0, recordsOut := o.recordsOut + r.1.length },
                 broadcast := r.1, failed := false,
                 putState := some (r.2.getRestTuples, 0) }

/-! ## State store and the restore of `Exec` -/

/-- Constant `WINDOW_INPUTS_KEY`. -/
def WINDOW_INPUTS_KEY : String := "$$windowInputs"

/-- Constant `TRIGGER_TIME_KEY`. -/
def TRIGGER_TIME_KEY : String := "$$triggerTime"

/-- Constant `MSG_COUNT_KEY`. -/
def MSG_COUNT_KEY : String := "$$msgCount"

/-- The dynamic type of a value held in the state store, as far as the type
switches of `Exec` tell them apart: a tuple slice, an `int64`, an `int`, or
anything else. -/
inductive StateValue where
  | tuples (v : List Tuple)
  | int64 (v : Int)
  | int (v : Int)
  | other (v : String)
deriving DecidableEq, Repr

/-- Modelled from the spec: the state store is a collaborator with
`put(key, value)` and `get(key) → value|null|error`; this is a store whose get
returns the last value put under the key and null for a key never put. -/
structure Store where
  get : String → Option StateValue

/-- The store in which nothing has been put. -/
def Store.empty : Store := { get := fun _ => none }

/-- Modelled from the spec: `put(key, value)`. -/
def Store.put (s : Store) (key : String) (value : StateValue) : Store :=
  { get := fun k => if k = key then some value else s.get k }

/-- Modelled from the spec: `ctx.GetState` over this store; it never fails. -/
def Store.getState (s : Store) (key : String) : Except String (Option StateValue) :=
  .ok (s.get key)

/-- What the restore at the start of `Exec` yields: the buffer, the trigger time
and the message count, and the errors sent to `errCh`, named by the state they
are about. -/
structure Restored where
  inputs : List Tuple
  triggerTime : Int
  msgCount : Int
  errors : List String
deriving DecidableEq, Repr

/-- The restore of `Exec` (the three `ctx.GetState` blocks); `now` is
`conf.GetNowInMilli()`. A failing `GetState` is only logged. -/
def restoreState (getState : String → Except String (Option StateValue)) (now : Int) :
    Restored :=
  let r1 : List Tuple × List String :=
    match getState WINDOW_INPUTS_KEY with
    | .ok (some (.tuples st)) => (st, [])
    | .ok none => ([], [])
    | .ok (some _) => ([], ["inputs"])
    | .error _ => ([], [])
  let r2 : Int × List String :=
    match getState TRIGGER_TIME_KEY with
    | .ok (some (.int64 si)) => (si, [])
    | .ok (some _) => (now, ["triggerTime"])
    | _ => (now, [])
  let r3 : Int × List String :=
    match getState MSG_COUNT_KEY with
    | .ok (some (.int si)) => (si, [])
    | .ok (some _) => (0, ["msgCount"])
    | _ => (0, [])
  { inputs := r1.1, triggerTime := r2.1, msgCount := r3.1, errors := r1.2 ++ r2.2 ++ r3.2 }

/-- A processing-time count window at work: the loop variable `inputs`, the
operator, the state store, and the result sets broadcast so far. -/
structure CountRun where
  inputs : List Tuple
  op : WindowOperator
  store : Store
  emitted : List WindowTuplesSet

/-- Start of the operator (`Exec`): the state is restored from the store. -/
def CountRun.start (w : WindowConfig) (store : Store) (now : Int) : CountRun :=
  let r := restoreState store.getState now
  { inputs := r.inputs,
    op := { window := w, isEventTime := false, triggerTime := r.triggerTime,
            msgCount := r.msgCount, recordsOut := 0 },
    store := store, emitted := [] }

/-- One tuple arrives; the two `ctx.PutState` at the end of the iteration write
to the store when they are reached. -/
def CountRun.arrive (r : CountRun) (d : Tuple) : Option CountRun :=
  match r.op.countArrival r.inputs d with
  | none => none
  | some a =>
    some { inputs := a.inputs, op := a.op,
           store :=
             match a.putState with
             | none => r.store
             | some p => (r.store.put WINDOW_INPUTS_KEY (.tuples p.1)).put MSG_COUNT_KEY
                 (.int p.2),
           emitted := r.emitted ++ a.broadcast }

/-- The tuples of a stream arrive one after the other. -/
def CountRun.run : CountRun → List Tuple → Option CountRun
  | r, [] => some r
  | r, d :: ds =>
    match r.arrive d with
    | none => none
    | some r1 => CountRun.run r1 ds

/-- Where the buffer of a count window of length `l` and interval `i` starts in
the stream once `m` tuples have arrived: with `q` the last multiple of `i` up
to `m`, at `q - l + 1` when a window was emitted at arrival `q`, at the first
tuple otherwise. -/
def countBufferStart (l i m : Nat) : Nat :=
  if l ≤ m - m % i then m - m % i - l + 1 else 0

/-- What holds of a count window of length `l` and interval `i` once the tuples
of `P` have arrived from the empty buffer: the message count is the number of
arrivals modulo `i` and the buffer is the stream from `countBufferStart` on. -/
def CountInv (l i : Nat) (P : List Tuple) (inputs : List Tuple) (op : WindowOperator) : Prop :=
  op.window.Length = (l : Int) ∧ op.window.Interval = (i : Int) ∧
  op.msgCount = ((P.length % i : Nat) : Int) ∧
  inputs = P.drop (countBufferStart l i P.length)

/-- A count window that is stopped when the tuples of `fed` have arrived and
started again (`Exec`) on the store as it then is, to receive the tuples of
`rest`: the result sets broadcast before the stop followed by those broadcast
after the restart. -/
def CountRun.crashRestart (w : WindowConfig) (now1 now2 : Int) (fed rest : List Tuple) :
    Option (List WindowTuplesSet) :=
  match (CountRun.start w Store.empty now1).run fed with
  | none => none
  | some r1 =>
    match (CountRun.start w r1.store now2).run rest with
    | none => none
    | some r2 => some (r1.emitted ++ r2.emitted)

/-! ## The timers and the loop of `execProcessingWindow` -/

/-- Function `NewWindowOp`, as far as the window is concerned: the fields it
leaves at their zero value and the window it stores. The watermark generator
of an event-time operator is created outside the sources; `watermark` is
whether that creation succeeds, and `none` is the returned error. -/
def NewWindowOp (w : WindowConfig) (isEventTime : Bool) (watermark : Bool) :
    Option WindowOperator :=
  let window : WindowConfig :=
    if w.Interval = 0 ∧ w.WType = .COUNT_WINDOW then { w with Interval := w.Length } else w
  if isEventTime then
    if watermark then
      some { window := window, isEventTime := isEventTime, triggerTime := 0, msgCount := 0,
             recordsOut := 0 }
    else none
  else
    some { window := window, isEventTime := isEventTime, triggerTime := 0, msgCount := 0,
           recordsOut := 0 }

/-- The switch on the window type at the start of `execProcessingWindow`: the
argument of `conf.GetTicker` when a ticker is created (its period in
milliseconds), `none` when `o.ticker` is left nil. -/
def WindowOperator.tickerPeriod (o : WindowOperator) : Option Int :=
  match o.window.WType with
  | .NOT_WINDOW => none
  | .TUMBLING_WINDOW => some o.window.Length
  | .HOPPING_WINDOW => some o.window.Interval
  | .SLIDING_WINDOW => none
  | .SESSION_WINDOW => some o.window.Length
  | .COUNT_WINDOW => none

/-- The same switch: the value it gives the field `o.interval`, which is zero
before. -/
def WindowOperator.interval (o : WindowOperator) : Int :=
  match o.window.WType with
  | .NOT_WINDOW => 0
  | .TUMBLING_WINDOW => o.window.Length
  | .HOPPING_WINDOW => o.window.Interval
  | .SLIDING_WINDOW => o.window.Length
  | .SESSION_WINDOW => o.window.Interval
  | .COUNT_WINDOW => o.window.Interval

/-- Modelled from the spec: the one-shot timer of the clock library
(`conf.GetTimer`, `Timer.Reset`) is outside the sources; a timer armed at a
time with a duration in milliseconds fires once, that long after it was armed,
unless it is armed again before. -/
structure Timer where
  armedAt : Int
  duration : Int
deriving DecidableEq, Repr

/-- Modelled from the spec: the time at which an armed timer fires. -/
def Timer.firesAt (t : Timer) : Int := t.armedAt + t.duration

/-- What one case of the `select` of `execProcessingWindow` does: the loop
variables `inputs` and `timeoutTicker` and the operator afterwards, the trigger
times with which `scan` was called, the result sets broadcast, and the calls of
`ctx.PutState` in order. -/
structure Step where
  inputs : List Tuple
  op : WindowOperator
  timeoutTicker : Option Timer
  scans : List Int
  broadcast : List WindowTuplesSet
  puts : List (String × StateValue)
deriving DecidableEq, Repr

/-- The `*xsql.Tuple` case of `execProcessingWindow`; `clock` is the time at
which the iteration runs, at which a timer is armed. `none` is a run-time panic
of the count window case. -/
def WindowOperator.tupleArrival (o : WindowOperator) (inputs : List Tuple)
    (timeoutTicker : Option Timer) (d : Tuple) (clock : Int) : Option Step :=
  let appended := inputs ++ [d]
  match o.window.WType with
  | .NOT_WINDOW | .SLIDING_WINDOW =>
    let s := o.scan appended d.Timestamp
    some { inputs := s.inputs, op := s.op, timeoutTicker := timeoutTicker,
           scans := [d.Timestamp], broadcast := s.broadcast,
           puts := [(WINDOW_INPUTS_KEY, .tuples s.inputs), (MSG_COUNT_KEY, .int s.op.msgCount)] }
  | .SESSION_WINDOW =>
    match timeoutTicker with
    | some _ =>
      some { inputs := appended, op := o,
             timeoutTicker := some { armedAt := clock, duration := o.window.Interval },
             scans := [], broadcast := [],
             puts := [(WINDOW_INPUTS_KEY, .tuples appended), (MSG_COUNT_KEY, .int o.msgCount)] }
    | none =>
      some { inputs := appended, op := { o with triggerTime := d.Timestamp },
             timeoutTicker := some { armedAt := clock, duration := o.window.Interval },
             scans := [], broadcast := [],
             puts := [(TRIGGER_TIME_KEY, .int64 d.Timestamp),
                      (WINDOW_INPUTS_KEY, .tuples appended), (MSG_COUNT_KEY, .int o.msgCount)] }
  | .COUNT_WINDOW =>
    match o.countArrival inputs d with
    | none => none
    | some a =>
      some { inputs := a.inputs, op := a.op, timeoutTicker := timeoutTicker, scans := [],
             broadcast := a.broadcast,
             puts := match a.putState with
               | none => []
               | some p => [(WINDOW_INPUTS_KEY, .tuples p.1), (MSG_COUNT_KEY, .int p.2)] }
  | .TUMBLING_WINDOW | .HOPPING_WINDOW =>
    some { inputs := appended, op := o, timeoutTicker := timeoutTicker, scans := [],
           broadcast := [],
           puts := [(WINDOW_INPUTS_KEY, .tuples appended), (MSG_COUNT_KEY, .int o.msgCount)] }

/-- The case `now := <-c` of `execProcessingWindow`: the ticker fires and `n` is
the time it carries, in milliseconds. -/
def WindowOperator.onTicker (o : WindowOperator) (inputs : List Tuple)
    (timeoutTicker : Option Timer) (n : Int) : Step :=
  let idle : Step :=
    { inputs := inputs, op := o, timeoutTicker := timeoutTicker, scans := [], broadcast := [],
      puts := [] }
  let fire : Step :=
    if inputs.length > 0 then
      let s := o.scan inputs n
      { inputs := s.inputs, op := s.op, timeoutTicker := timeoutTicker, scans := [n],
        broadcast := s.broadcast,
        puts := [(WINDOW_INPUTS_KEY, .tuples s.inputs), (TRIGGER_TIME_KEY, .int64 s.op.triggerTime)] }
    else idle
  if o.window.WType = .SESSION_WINDOW then
    match inputs with
    | [] => idle
    | first :: _ =>
      if wrap64 (n - o.window.Length) < first.Timestamp then idle else fire
  else fire

/-- The case `now := <-timeout` of `execProcessingWindow`: the one-shot timer
fires and `n` is the time it carries, in milliseconds. -/
def WindowOperator.onTimeout (o : WindowOperator) (inputs : List Tuple)
    (timeoutTicker : Option Timer) (n : Int) : Step :=
  if inputs.length > 0 then
    let s := o.scan inputs n
    { inputs := [], op := s.op, timeoutTicker := none, scans := [n], broadcast := s.broadcast,
      puts := [(WINDOW_INPUTS_KEY, .tuples []), (TRIGGER_TIME_KEY, .int64 s.op.triggerTime)] }
  else
    { inputs := inputs, op := o, timeoutTicker := timeoutTicker, scans := [], broadcast := [],
      puts := [] }

/-- What the `select` of `execProcessingWindow` receives: a tuple from the input
channel, at the time `clock`; the ticker firing with time `n`; the one-shot
timer firing with time `n`. -/
inductive Event where
  | tuple (d : Tuple) (clock : Int)
  | tick (n : Int)
  | timeout (n : Int)
deriving DecidableEq, Repr

/-- The loop of `execProcessingWindow` at work: its variables, the time and
content of what it has broadcast, in order. -/
structure ProcRun where
  inputs : List Tuple
  op : WindowOperator
  timeoutTicker : Option Timer
  emitted : List WindowTuplesSet
deriving DecidableEq, Repr

/-- One iteration of the loop of `execProcessingWindow`. -/
def ProcRun.step (r : ProcRun) (e : Event) : Option ProcRun :=
  let s : Option Step :=
    match e with
    | .tuple d clock => r.op.tupleArrival r.inputs r.timeoutTicker d clock
    | .tick n => some (r.op.onTicker r.inputs r.timeoutTicker n)
    | .timeout n => some (r.op.onTimeout r.inputs r.timeoutTicker n)
  s.map (fun s =>
    { inputs := s.inputs, op := s.op, timeoutTicker := s.timeoutTicker,
      emitted := r.emitted ++ s.broadcast })

/-- The loop of `execProcessingWindow` over a sequence of cases taken by its
`select`, whatever their schedule; `ProcRun.drive` is the loop with the timeout
firing when it is due. -/
def ProcRun.run : ProcRun → List Event → Option ProcRun
  | r, [] => some r
  | r, e :: es =>
    match r.step e with
    | none => none
    | some r1 => ProcRun.run r1 es

/-- Modelled from the spec: what reaches the `select` of `execProcessingWindow`
from outside the operator: a tuple on the input channel, received at the time
`clock`, or the ticker firing with time `n`. -/
inductive Incoming where
  | tuple (d : Tuple) (clock : Int)
  | tick (n : Int)
deriving DecidableEq, Repr

/-- The time at which an arrival reaches the loop. -/
def Incoming.time : Incoming → Int
  | .tuple _ clock => clock
  | .tick n => n

/-- Modelled from the spec: the one-shot timer fires when it is due. A timeout
that is armed and due at `clock` or before has fired, and the case
`now := <-timeout` has run with the time at which it was due, before the loop
takes what arrives at `clock`. That case changes nothing when the buffer is
empty, so a timer that has fired on an empty buffer and is still held in
`timeoutTicker` has no further effect until a tuple arms it again. -/
def ProcRun.fireDue (r : ProcRun) (clock : Int) : Option ProcRun :=
  match r.timeoutTicker with
  | none => some r
  | some t => if t.firesAt ≤ clock then r.step (.timeout t.firesAt) else some r

/-- The loop of `execProcessingWindow` driven by what arrives, in order of
time, the timeout firing when it is due. The ticker channel `c` is nil when the
operator has no ticker, so that a tick is never received then. -/
def ProcRun.drive : ProcRun → List Incoming → Option ProcRun
  | r, [] => some r
  | r, a :: rest =>
    match r.fireDue a.time with
    | none => none
    | some r1 =>
      match a with
      | .tuple d clock =>
        match r1.step (.tuple d clock) with
        | none => none
        | some r2 => ProcRun.drive r2 rest
      | .tick n =>
        if r1.op.tickerPeriod.isSome then
          match r1.step (.tick n) with
          | none => none
          | some r2 => ProcRun.drive r2 rest
        else ProcRun.drive r1 rest

/-- The driven loop followed by silence up to the time `horizon`. -/
def ProcRun.driveUntil (r : ProcRun) (arrivals : List Incoming) (horizon : Int) :
    Option ProcRun :=
  (r.drive arrivals).bind (fun r1 => r1.fireDue horizon)

/-! ## Resuming the previous window at start -/

/-- The variables of the block `//resume previous window`: the buffer, the
operator, the variable `next`, the trigger times with which `scan` was called
and the result sets broadcast, in order. -/
structure Replay where
  inputs : List Tuple
  op : WindowOperator
  next : Int
  scans : List Int
  broadcast : List WindowTuplesSet
deriving DecidableEq, Repr

/-- How the block `//resume previous window` ends: it is left with these
variables, it stops in a run-time panic, or the bound given to the model on the
iterations of its loop is used up while the loop still runs. -/
inductive Resume where
  | done (r : Replay)
  | panic
  | running
deriving DecidableEq, Repr

/-- The loop of the case `TUMBLING_WINDOW, HOPPING_WINDOW` of the resume block,
with a bound on its iterations. -/
def replayPeriodic (interval nextTick : Int) : Nat → Replay → Resume
  | 0, _ => .running
  | fuel + 1, r =>
    let next := wrap64 (r.next + interval)
    if next > nextTick then
      .done { r with next := next }
    else
      let s := r.op.scan r.inputs next
      replayPeriodic interval nextTick fuel
        { inputs := s.inputs, op := s.op, next := next, scans := r.scans ++ [next],
          broadcast := r.broadcast ++ s.broadcast }

/-- The constant `math.MaxInt64`. -/
def maxInt64 : Int := 9223372036854775807

/-- The loop `for _, tuple := range inputs` of the session case of the resume
block, from the values of `tick` and `p` on: the value assigned to `next` when
the loop is left by `break`, `none` when it runs to its end. -/
def sessionNext (timeout duration et : Int) : List Tuple → Int → Int → Option Int
  | [], _, _ => none
  | tuple :: rest, tick, p =>
    let r1 : Int :=
      if p > 0 ∧ wrap64 (tuple.Timestamp - p) > timeout then wrap64 (p + timeout)
      else maxInt64
    let r2 : Int :=
      if tuple.Timestamp > tick ∧ wrap64 (tick - duration) > et ∧ tick < r1 then tick else r1
    let tick2 : Int := if tuple.Timestamp > tick then wrap64 (tick + duration) else tick
    if r2 < maxInt64 then some r2 else sessionNext timeout duration et rest tick2 tuple.Timestamp

/-- The loop of the case `SESSION_WINDOW` of the resume block, with a bound on
its iterations. Reading `inputs[0]` of an empty buffer and a zero `duration` in
`et%duration` are run-time panics. -/
def replaySession (timeout duration nextTick : Int) : Nat → Replay → Resume
  | 0, _ => .running
  | fuel + 1, r =>
    match r.inputs with
    | [] => .panic
    | first :: _ =>
      let et := first.Timestamp
      match goRem et duration with
      | none => .panic
      | some m =>
        let tick : Int := if m = 0 then et else wrap64 (et + wrap64 (duration - m))
        let next : Int :=
          match sessionNext timeout duration et r.inputs tick 0 with
          | some x => x
          | none => r.next
        if next > nextTick then
          .done { r with next := next }
        else
          let s := r.op.scan r.inputs next
          replaySession timeout duration nextTick fuel
            { inputs := s.inputs, op := s.op, next := next, scans := r.scans ++ [next],
              broadcast := r.broadcast ++ s.broadcast }

/-- The block `//resume previous window` of `execProcessingWindow`, entered
with the restored buffer; `now` is `conf.GetNowInMilli()` and `fuel` bounds the
iterations of the replay loop. -/
def WindowOperator.resume (o : WindowOperator) (inputs : List Tuple) (now : Int) (fuel : Nat) :
    Resume :=
  let start : Replay :=
    { inputs := inputs, op := o, next := o.triggerTime, scans := [], broadcast := [] }
  match o.tickerPeriod with
  | none => .done start
  | some _ =>
    if inputs.length > 0 ∧ o.triggerTime > 0 then
      let nextTick := wrap64 (now + o.interval)
      match o.window.WType with
      | .TUMBLING_WINDOW | .HOPPING_WINDOW => replayPeriodic o.interval nextTick fuel start
      | .SESSION_WINDOW =>
        replaySession o.window.Interval o.window.Length nextTick fuel start
      | _ => .done start
    else .done start

/-- The trigger times with which the resume block called `scan`, when it is
left normally. -/
def Resume.scans : Resume → Option (List Int)
  | .done r => some r.scans
  | .panic => none
  | .running => none

/-! ## Unary operator: the loop of `doOp` in `operations.go` -/

/-- The dynamic type of what `UnOperation.Apply` returns, as the type switch of
`doOp` tells it apart: nil, an error, or any other value. -/
inductive ApplyResult (β : Type) where
  | nil
  | error (e : String)
  | value (v : β)
deriving DecidableEq, Repr

/-- What a unary operator sends downstream with `Broadcast`. -/
inductive Sent (β : Type) where
  | error (e : String)
  | value (v : β)
deriving DecidableEq, Repr

/-- Modelled from the spec: the stat manager is outside the sources; of it the
counters records-in, records-out and exceptions are kept, each incremented by
one by `IncTotalRecordsIn`, `IncTotalRecordsOut` and `IncTotalExceptions`. -/
structure Stats where
  recordsIn : Nat
  recordsOut : Nat
  exceptions : Nat
deriving DecidableEq, Repr

/-- A worker of a unary operator: its counters and what it has broadcast, in
order. -/
structure UnaryRun (β : Type) where
  stats : Stats
  sent : List (Sent β)
deriving DecidableEq, Repr

/-- One iteration of the case `item := <-o.input` of `doOp`. `preprocess` is
the method of the sink node, outside the sources: it returns the item to
process, or `none` when it has consumed the item (`processed` is true). -/
def doOpItem {α β : Type} (preprocess : α → Option α) (apply : α → ApplyResult β)
    (r : UnaryRun β) (item : α) : UnaryRun β :=
  match preprocess item with
  | none => r
  | some item =>
    let stats := { r.stats with recordsIn := r.stats.recordsIn + 1 }
    match apply item with
    | .nil => { r with stats := stats }
    | .error e =>
      { stats := { stats with exceptions := stats.exceptions + 1 },
        sent := r.sent ++ [.error e] }
    | .value v =>
      { stats := { stats with recordsOut := stats.recordsOut + 1 },
        sent := r.sent ++ [.value v] }

end Node

/-! # Properties of the barrier tracker -/

namespace Checkpoint

/-! ## Lemmas on the map operations -/

theorem mapGet_filter_key (p : Int → Bool) (m : List (Int × Int)) (j : Int) :
    mapGet (m.filter (fun e => p e.1)) j = if p j then mapGet m j else none := by
  induction m with
  | nil => simp [mapGet]
  | cons e rest ih =>
    obtain ⟨a, c⟩ := e
    by_cases hp : p a = true
    · by_cases ha : a = j
      · subst ha; simp [List.filter_cons, hp, mapGet]
      · simp [List.filter_cons, hp, mapGet, ha, ih]
    · by_cases ha : a = j
      · subst ha; simp [List.filter_cons, hp, mapGet, ih]
      · simp [List.filter_cons, hp, mapGet, ha, ih]

theorem mapGet_mapDelete (m : List (Int × Int)) (k j : Int) :
    mapGet (mapDelete m k) j = if j = k then none else mapGet m j := by
  unfold mapDelete
  rw [mapGet_filter_key (fun a => decide (a ≠ k)) m j]
  by_cases hj : j = k <;> simp [hj]

theorem mapGet_mapDeleteBelow (m : List (Int × Int)) (k j : Int) :
    mapGet (mapDeleteBelow m k) j = if j < k then none else mapGet m j := by
  unfold mapDeleteBelow
  rw [mapGet_filter_key (fun a => !decide (a < k)) m j]
  by_cases hj : j < k <;> simp [hj]

theorem mapGet_mapSet (m : List (Int × Int)) (k v j : Int) :
    mapGet (mapSet m k v) j = if j = k then some v else mapGet m j := by
  unfold mapSet
  by_cases hj : j = k
  · subst hj; simp [mapGet]
  · have hk : ¬ k = j := fun h => hj h.symm
    simp [mapGet, hk, hj, mapGet_mapDelete]

theorem mapGet_mem {m : List (Int × Int)} {k c : Int} (h : mapGet m k = some c) :
    (k, c) ∈ m := by
  induction m with
  | nil => simp [mapGet] at h
  | cons e rest ih =>
    obtain ⟨a, d⟩ := e
    by_cases ha : a = k
    · subst ha; simp [mapGet] at h; subst h; simp
    · simp [mapGet, ha] at h; exact List.mem_cons_of_mem _ (ih h)

theorem NewBarrierTracker_WF (n : Int) : (NewBarrierTracker n).WF := by
  intro e he
  simp [NewBarrierTracker] at he

/-- The counts stay at least one through every call of Process, so the
well-formedness assumed of a tracker holds in every state reached from
`NewBarrierTracker`. -/
theorem process_WF {α : Type} (h : BarrierTracker) (accept : Int → Bool)
    (d : BufferOrEvent α) (wf : h.WF) : (h.Process accept d).1.WF := by
  obtain ⟨p, ch⟩ := d
  cases p with
  | data x => simpa [BarrierTracker.Process] using wf
  | barrier b =>
    simp only [BarrierTracker.Process, BarrierTracker.processBarrier]
    by_cases h1 : h.inputCount = 1
    · simpa [h1] using wf
    · cases hg : mapGet h.pendingCheckpoints b.CheckpointId with
      | none =>
        simp only [h1, if_false]
        intro e he
        simp only [mapSet, mapDelete, List.mem_cons, List.mem_filter] at he
        rcases he with he | ⟨he, _⟩
        · subst he; exact le_refl _
        · exact wf e he
      | some c0 =>
        have hc0 : 1 ≤ c0 := wf _ (mapGet_mem hg)
        by_cases hn : c0 + 1 = h.inputCount
        · by_cases ha : accept b.CheckpointId = true
          · simp only [h1, hn, ha, if_true, if_false]
            intro e he
            simp only [mapDeleteBelow, mapDelete, List.mem_filter] at he
            exact wf e he.1.1
          · have hr : accept b.CheckpointId = false := by simpa using ha
            simp only [h1, hn, hr, if_true, if_false, Bool.false_eq_true]
            exact wf
        · simp only [h1, hn, if_false]
          intro e he
          simp only [mapSet, mapDelete, List.mem_cons, List.mem_filter] at he
          rcases he with he | ⟨he, _⟩
          · subst he; show 1 ≤ c0 + 1; omega
          · exact wf e he

/-- C1: on a barrier with id k, Process invokes TriggerCheckpoint k if and only
if inputCount is 1, or inputCount is at least 2 and the pending count of k before
the call is inputCount - 1; then it is invoked exactly once. In every other case
nothing is triggered, the count of k becomes 1 (when absent) or one more than
before, and no other entry changes. With two inputs the first barrier for id 1
triggers nothing and the second triggers exactly once. -/
theorem tracker_process_trigger_iff {α : Type} (h : BarrierTracker) (accept : Int → Bool)
    (b : Barrier) (ch : String) (wf : h.WF) :
    (b.CheckpointId ∈ (h.Process accept (⟨.barrier b, ch⟩ : BufferOrEvent α)).2.2 ↔
      (h.inputCount = 1 ∨ (2 ≤ h.inputCount ∧
        mapGet h.pendingCheckpoints b.CheckpointId = some (h.inputCount - 1)))) ∧
    ((h.inputCount = 1 ∨ (2 ≤ h.inputCount ∧
        mapGet h.pendingCheckpoints b.CheckpointId = some (h.inputCount - 1))) →
      (h.Process accept (⟨.barrier b, ch⟩ : BufferOrEvent α)).2.2 = [b.CheckpointId]) ∧
    (¬ (h.inputCount = 1 ∨ (2 ≤ h.inputCount ∧
        mapGet h.pendingCheckpoints b.CheckpointId = some (h.inputCount - 1))) →
      (h.Process accept (⟨.barrier b, ch⟩ : BufferOrEvent α)).2.2 = [] ∧
      (h.Process accept (⟨.barrier b, ch⟩ : BufferOrEvent α)).1.inputCount = h.inputCount ∧
      mapGet (h.Process accept (⟨.barrier b, ch⟩ : BufferOrEvent α)).1.pendingCheckpoints
          b.CheckpointId =
        some (match mapGet h.pendingCheckpoints b.CheckpointId with
          | none => 1
          | some c => c + 1) ∧
      ∀ j, j ≠ b.CheckpointId →
        mapGet (h.Process accept (⟨.barrier b, ch⟩ : BufferOrEvent α)).1.pendingCheckpoints j =
          mapGet h.pendingCheckpoints j) ∧
    ((NewBarrierTracker 2).Process accept (⟨.barrier ⟨1, "A"⟩, "A"⟩ : BufferOrEvent α) =
        (⟨2, [(1, 1)]⟩, true, []) ∧
      (BarrierTracker.mk 2 [(1, 1)]).Process (fun _ => true)
          (⟨.barrier ⟨1, "B"⟩, "B"⟩ : BufferOrEvent α) = (⟨2, []⟩, true, [1])) := by
  have key : ∀ c, mapGet h.pendingCheckpoints b.CheckpointId = some c → 1 ≤ c :=
    fun c hc => wf _ (mapGet_mem hc)
  refine ⟨?_, ?_, ?_, ?_, ?_⟩
  · simp only [BarrierTracker.Process, BarrierTracker.processBarrier]
    by_cases h1 : h.inputCount = 1
    · simp [h1]
    · cases hg : mapGet h.pendingCheckpoints b.CheckpointId with
      | none => simp [h1]
      | some c =>
        have hc := key c hg
        by_cases hn : c + 1 = h.inputCount
        · have h2 : 2 ≤ h.inputCount := by omega
          have h3 : c = h.inputCount - 1 := by omega
          by_cases ha : accept b.CheckpointId = true <;> simp [h1, hn, ha, h2, h3]
        · have h3 : ¬ c = h.inputCount - 1 := by omega
          simp [h1, hn, h3]
  · rintro (h1 | ⟨h2, hg⟩)
    · simp [BarrierTracker.Process, BarrierTracker.processBarrier, h1]
    · have h1 : ¬ h.inputCount = 1 := by omega
      by_cases ha : accept b.CheckpointId = true <;>
        simp [BarrierTracker.Process, BarrierTracker.processBarrier, h1, hg, ha]
  · intro hcond
    have h1 : ¬ h.inputCount = 1 := fun e => hcond (Or.inl e)
    simp only [BarrierTracker.Process, BarrierTracker.processBarrier]
    cases hg : mapGet h.pendingCheckpoints b.CheckpointId with
    | none =>
      simp only [h1, if_false]
      refine ⟨trivial, trivial, ?_, ?_⟩
      · simp [mapGet_mapSet]
      · intro j hj; simp [mapGet_mapSet, hj]
    | some c =>
      have hc := key c hg
      have hn : ¬ c + 1 = h.inputCount := by
        intro e
        apply hcond
        right
        refine ⟨by omega, ?_⟩
        rw [hg]; congr 1; omega
      simp only [h1, hn, if_false]
      refine ⟨trivial, trivial, ?_, ?_⟩
      · simp [mapGet_mapSet]
      · intro j hj; simp [mapGet_mapSet, hj]
  · rfl
  · rfl

/-- Witness of C1: a tracker with two inputs that holds one barrier for id 1. -/
theorem tracker_process_trigger_iff_witness :
    (BarrierTracker.mk 2 [(1, 1)]).WF ∧
    ((BarrierTracker.mk 2 [(1, 1)]).Process (fun _ => true)
      (⟨.barrier ⟨1, "B"⟩, "B"⟩ : BufferOrEvent String)).2.2 = [1] :=
  ⟨by decide,
    (@tracker_process_trigger_iff String (BarrierTracker.mk 2 [(1, 1)]) (fun _ => true)
      ⟨1, "B"⟩ "B" (by decide)).2.1 (Or.inr ⟨by decide, by decide⟩)⟩

theorem NewBarrierTracker_inv (n : Int) : (NewBarrierTracker n).Inv := by
  intro j c hc
  simp [NewBarrierTracker, mapGet] at hc

/-- The invariant is kept by `processBarrier`, whatever the responder answers. -/
theorem processBarrier_inv (h : BarrierTracker) (accept : Int → Bool) (b : Barrier)
    (hi : h.Inv) : (h.processBarrier accept b).1.Inv := by
  unfold BarrierTracker.processBarrier
  by_cases h1 : h.inputCount = 1
  · simpa [h1] using hi
  · cases hg : mapGet h.pendingCheckpoints b.CheckpointId with
    | none =>
      simp only [h1, if_false]
      intro j c hc
      simp only [mapGet_mapSet] at hc
      by_cases hj : j = b.CheckpointId
      · simp only [hj, if_true, Option.some.injEq] at hc
        subst hc
        refine ⟨le_refl _, fun h2 => ?_⟩
        have h2c : 2 ≤ h.inputCount := h2
        show (1 : Int) < h.inputCount
        omega
      · simp only [hj, if_false] at hc
        exact hi j c hc
    | some c0 =>
      obtain ⟨hc1, hc2⟩ := hi _ _ hg
      by_cases hn : c0 + 1 = h.inputCount
      · by_cases ha : accept b.CheckpointId = true
        · simp only [h1, hn, ha, if_true, if_false]
          intro j c hc
          simp only [mapGet_mapDeleteBelow, mapGet_mapDelete] at hc
          by_cases hlt : j < b.CheckpointId
          · simp [hlt] at hc
          · by_cases hj : j = b.CheckpointId
            · simp [hlt, hj] at hc
            · simp only [hlt, hj, if_false] at hc
              exact hi j c hc
        · simp only [h1, hn, ha, if_true, if_false]
          exact hi
      · simp only [h1, hn, if_false]
        intro j c hc
        simp only [mapGet_mapSet] at hc
        by_cases hj : j = b.CheckpointId
        · simp only [hj, if_true, Option.some.injEq] at hc
          subst hc
          refine ⟨by omega, fun h2 => ?_⟩
          have h2c : 2 ≤ h.inputCount := h2
          have := hc2 h2c
          show c0 + 1 < h.inputCount
          omega
        · simp only [hj, if_false] at hc
          exact hi j c hc

theorem processBarrier_inputCount (h : BarrierTracker) (accept : Int → Bool) (b : Barrier) :
    (h.processBarrier accept b).1.inputCount = h.inputCount := by
  unfold BarrierTracker.processBarrier
  by_cases h1 : h.inputCount = 1
  · simp [h1]
  · cases hg : mapGet h.pendingCheckpoints b.CheckpointId with
    | none => simp [h1]
    | some c0 =>
      by_cases hn : c0 + 1 = h.inputCount
      · by_cases ha : accept b.CheckpointId = true <;> simp [h1, hn, ha]
      · simp [h1, hn]

theorem pendingCount_nonneg (h : BarrierTracker) (hi : h.Inv) (k : Int) :
    0 ≤ h.pendingCount k := by
  unfold BarrierTracker.pendingCount
  cases hg : mapGet h.pendingCheckpoints k with
  | none => simp
  | some c => have := (hi k c hg).1; simp; omega

theorem count_singleton_int (j k : Int) :
    (([j] : List Int).count k : Int) = if j = k then 1 else 0 := by
  by_cases hj : j = k
  · subst hj; simp
  · have hne : ¬ (j == k) = true := by simpa using hj
    simp [List.count_cons, hj, hne]

/-- One barrier through the tracker: the invocations for `k` it causes, plus the
invocations that `x` further barriers for `k` can still cause afterwards, stay
within what `x` barriers and this one could cause before the call. -/
theorem processBarrier_budget (h : BarrierTracker) (accept : Int → Bool) (b : Barrier)
    (k : Int) (x : Int) (hx : 0 ≤ x) (hi : h.Inv) :
    ((h.processBarrier accept b).2.count k : Int) +
        max 0 (x + (h.processBarrier accept b).1.pendingCount k + 1 - h.inputCount) ≤
      max 0 (x + (if b.CheckpointId = k then 1 else 0) + h.pendingCount k + 1 - h.inputCount) := by
  have hk0 := pendingCount_nonneg h hi k
  unfold BarrierTracker.processBarrier
  by_cases h1 : h.inputCount = 1
  · simp only [h1, if_true, count_singleton_int]
    by_cases hj : b.CheckpointId = k
    · simp only [hj, if_true]; omega
    · simp only [hj, if_false]; omega
  · cases hg : mapGet h.pendingCheckpoints b.CheckpointId with
    | none =>
      simp only [h1, if_false, List.count_nil, Nat.cast_zero, BarrierTracker.pendingCount,
        mapGet_mapSet]
      by_cases hj : b.CheckpointId = k
      · subst hj
        simp only [if_true, hg, Option.getD_some, Option.getD_none]; omega
      · have hj2 : ¬ k = b.CheckpointId := fun e => hj e.symm
        simp only [hj, hj2, if_false]; omega
    | some c0 =>
      obtain ⟨hc1, hc2⟩ := hi _ _ hg
      by_cases hn : c0 + 1 = h.inputCount
      · by_cases ha : accept b.CheckpointId = true
        · simp only [h1, hn, ha, if_true, if_false, count_singleton_int,
            BarrierTracker.pendingCount, mapGet_mapDeleteBelow, mapGet_mapDelete]
          by_cases hj : b.CheckpointId = k
          · subst hj
            simp only [if_true, hg, Option.getD_some, lt_irrefl, if_false, Option.getD_none]
            omega
          · have hj2 : ¬ k = b.CheckpointId := fun e => hj e.symm
            simp only [hj, hj2, if_false]
            by_cases hlt : k < b.CheckpointId
            · simp only [hlt, if_true, Option.getD_none]
              have := hk0
              unfold BarrierTracker.pendingCount at this
              omega
            · simp only [hlt, if_false]; omega
        · have hr : accept b.CheckpointId = false := by simpa using ha
          simp only [h1, hn, hr, if_true, if_false, Bool.false_eq_true, count_singleton_int]
          by_cases hj : b.CheckpointId = k
          · subst hj
            simp only [if_true, BarrierTracker.pendingCount, hg, Option.getD_some]
            omega
          · simp only [hj, if_false]; omega
      · simp only [h1, hn, if_false, List.count_nil, Nat.cast_zero, BarrierTracker.pendingCount,
          mapGet_mapSet]
        by_cases hj : b.CheckpointId = k
        · subst hj
          simp only [if_true, hg, Option.getD_some]; omega
        · have hj2 : ¬ k = b.CheckpointId := fun e => hj e.symm
          simp only [hj, hj2, if_false]; omega

theorem barrierCount_cons_barrier {α : Type} (k : Int) (b : Barrier) (ch : String)
    (ds : List (BufferOrEvent α)) :
    (barrierCount k ((⟨.barrier b, ch⟩ : BufferOrEvent α) :: ds) : Int) =
      barrierCount k ds + (if b.CheckpointId = k then 1 else 0) := by
  unfold barrierCount
  by_cases hj : b.CheckpointId = k <;> simp [List.filter_cons, hj]

theorem barrierCount_cons_data {α : Type} (k : Int) (x : α) (ch : String)
    (ds : List (BufferOrEvent α)) :
    barrierCount k ((⟨.data x, ch⟩ : BufferOrEvent α) :: ds) = barrierCount k ds := by
  unfold barrierCount
  simp [List.filter_cons]

/-- The invocations for `k` over a whole run, from any state that satisfies the
invariant. -/
theorem run_budget {α : Type} (resp : List Int → Int → Bool) (k : Int)
    (ds : List (BufferOrEvent α)) :
    ∀ (h : BarrierTracker) (log : List Int), h.Inv →
      ((BarrierTracker.run resp h log ds).2.count k : Int) ≤
        log.count k + max 0 (barrierCount k ds + h.pendingCount k + 1 - h.inputCount) := by
  induction ds with
  | nil =>
    intro h log _
    simp only [BarrierTracker.run]
    omega
  | cons d ds ih =>
    intro h log hi
    obtain ⟨p, ch⟩ := d
    cases p with
    | data x =>
      simp only [BarrierTracker.run, BarrierTracker.Process, barrierCount_cons_data]
      simpa using ih h log hi
    | barrier b =>
      simp only [BarrierTracker.run, BarrierTracker.Process]
      have hstep := processBarrier_budget h (resp log) b k (barrierCount k ds)
        (Int.ofNat_nonneg _) hi
      have hrec := ih (h.processBarrier (resp log) b).1 (log ++ (h.processBarrier (resp log) b).2)
        (processBarrier_inv h (resp log) b hi)
      rw [processBarrier_inputCount] at hrec
      rw [barrierCount_cons_barrier]
      rw [List.count_append] at hrec
      push_cast at hrec
      omega

/-- C2 as stated fails: a tracker with one input that receives the barrier for
checkpoint 1 twice passes 1 to TriggerCheckpoint twice. -/
theorem tracker_trigger_twice :
    (BarrierTracker.run (fun _ _ => true) (NewBarrierTracker 1) []
      [(⟨.barrier ⟨1, "A"⟩, "A"⟩ : BufferOrEvent String), ⟨.barrier ⟨1, "A"⟩, "A"⟩]).2 = [1, 1] ∧
    ¬ (BarrierTracker.run (fun _ _ => true) (NewBarrierTracker 1) []
      [(⟨.barrier ⟨1, "A"⟩, "A"⟩ : BufferOrEvent String), ⟨.barrier ⟨1, "A"⟩, "A"⟩]).2.count 1
        ≤ 1 := by
  decide

/-- C2, amended: for every input count n, every responder and every sequence of
envelopes processed from the initial state, if the sequence holds at most n
barriers for checkpoint k, TriggerCheckpoint k is invoked at most once. -/
theorem tracker_trigger_at_most_once {α : Type} (n : Int) (resp : List Int → Int → Bool)
    (ds : List (BufferOrEvent α)) (k : Int) (hb : (barrierCount k ds : Int) ≤ n) :
    (BarrierTracker.run resp (NewBarrierTracker n) [] ds).2.count k ≤ 1 := by
  have h := run_budget resp k ds (NewBarrierTracker n) [] (NewBarrierTracker_inv n)
  have h0 : (NewBarrierTracker n).pendingCount k = 0 := by
    simp [BarrierTracker.pendingCount, NewBarrierTracker, mapGet]
  have hn : (NewBarrierTracker n).inputCount = n := rfl
  rw [h0, hn] at h
  simp only [List.count_nil, Nat.cast_zero] at h
  omega

/-- Witness of amended C2: two inputs, one barrier for checkpoint 1 from each. -/
theorem tracker_trigger_at_most_once_witness :
    (barrierCount 1
      [(⟨.barrier ⟨1, "A"⟩, "A"⟩ : BufferOrEvent String), ⟨.barrier ⟨1, "B"⟩, "B"⟩] : Int) ≤ 2 ∧
    (BarrierTracker.run (fun _ _ => true) (NewBarrierTracker 2) []
      [(⟨.barrier ⟨1, "A"⟩, "A"⟩ : BufferOrEvent String), ⟨.barrier ⟨1, "B"⟩, "B"⟩]).2.count 1
        ≤ 1 :=
  ⟨by decide,
    tracker_trigger_at_most_once 2 (fun _ _ => true)
      [(⟨.barrier ⟨1, "A"⟩, "A"⟩ : BufferOrEvent String), ⟨.barrier ⟨1, "B"⟩, "B"⟩] 1
      (by decide)⟩

/-- C3 as stated fails: with three inputs, the barrier for checkpoint 1 from
input A processed twice leaves the pending count at 2, not at the 1 it was after
the first call; with two inputs the same two calls invoke TriggerCheckpoint 1
although no barrier came from the second input. -/
theorem tracker_same_barrier_counted_twice :
    (((NewBarrierTracker 3).Process (fun _ => true)
        (⟨.barrier ⟨1, "A"⟩, "A"⟩ : BufferOrEvent String)).1.pendingCount 1 = 1) ∧
    ((((NewBarrierTracker 3).Process (fun _ => true)
        (⟨.barrier ⟨1, "A"⟩, "A"⟩ : BufferOrEvent String)).1.Process (fun _ => true)
        (⟨.barrier ⟨1, "A"⟩, "A"⟩ : BufferOrEvent String)).1.pendingCount 1 = 2) ∧
    (BarrierTracker.run (fun _ _ => true) (NewBarrierTracker 2) []
      [(⟨.barrier ⟨1, "A"⟩, "A"⟩ : BufferOrEvent String), ⟨.barrier ⟨1, "A"⟩, "A"⟩]).2 = [1] := by
  decide

theorem process_barrier_inv {α : Type} (h : BarrierTracker) (accept : Int → Bool)
    (d : BufferOrEvent α) (hi : h.Inv) : (h.Process accept d).1.Inv := by
  obtain ⟨p, ch⟩ := d
  cases p with
  | data x => simpa [BarrierTracker.Process] using hi
  | barrier b => simpa [BarrierTracker.Process] using processBarrier_inv h accept b hi

/-- A call that does not complete the checkpoint adds one to the count. -/
theorem process_increments {α : Type} (h : BarrierTracker) (accept : Int → Bool) (b : Barrier)
    (ch : String) (hi : h.Inv) (hlt : h.pendingCount b.CheckpointId + 1 < h.inputCount) :
    (h.Process accept (⟨.barrier b, ch⟩ : BufferOrEvent α)).2.2 = [] ∧
    (h.Process accept (⟨.barrier b, ch⟩ : BufferOrEvent α)).1.pendingCount b.CheckpointId =
      h.pendingCount b.CheckpointId + 1 := by
  have hk0 := pendingCount_nonneg h hi b.CheckpointId
  have h1 : ¬ h.inputCount = 1 := by omega
  simp only [BarrierTracker.Process, BarrierTracker.processBarrier]
  unfold BarrierTracker.pendingCount at hlt ⊢
  cases hg : mapGet h.pendingCheckpoints b.CheckpointId with
  | none =>
    simp [h1, mapGet_mapSet]
  | some c0 =>
    rw [hg] at hlt
    simp only [Option.getD_some] at hlt
    have hn : ¬ c0 + 1 = h.inputCount := by omega
    simp [h1, hn, mapGet_mapSet]

/-- C3, amended: the tracker does not look at the input a barrier came from and
counts every Process call. For n inputs, when the pending count of k is
below n - 2, a second Process call with the same barrier leaves the count one
above what it was after the first call, and neither call triggers. Over a run
from the initial state TriggerCheckpoint k is invoked only after n barriers for
k have been processed, from whichever inputs. -/
theorem tracker_counts_calls {α : Type} (n : Int) :
    (∀ (h : BarrierTracker) (accept : Int → Bool) (k : Int) (op op2 ch ch2 : String),
      h.Process accept (⟨.barrier ⟨k, op⟩, ch⟩ : BufferOrEvent α) =
        h.Process accept (⟨.barrier ⟨k, op2⟩, ch2⟩ : BufferOrEvent α)) ∧
    (∀ (h : BarrierTracker) (accept accept2 : Int → Bool) (b : Barrier) (ch : String),
      h.inputCount = n → h.Inv → h.pendingCount b.CheckpointId + 2 < n →
      (h.Process accept (⟨.barrier b, ch⟩ : BufferOrEvent α)).2.2 = [] ∧
      ((h.Process accept (⟨.barrier b, ch⟩ : BufferOrEvent α)).1.Process accept2
        (⟨.barrier b, ch⟩ : BufferOrEvent α)).2.2 = [] ∧
      ((h.Process accept (⟨.barrier b, ch⟩ : BufferOrEvent α)).1.Process accept2
        (⟨.barrier b, ch⟩ : BufferOrEvent α)).1.pendingCount b.CheckpointId =
        (h.Process accept (⟨.barrier b, ch⟩ : BufferOrEvent α)).1.pendingCount b.CheckpointId
          + 1) ∧
    (∀ (resp : List Int → Int → Bool) (ds : List (BufferOrEvent α)) (k : Int),
      k ∈ (BarrierTracker.run resp (NewBarrierTracker n) [] ds).2 →
        n ≤ (barrierCount k ds : Int)) := by
  refine ⟨?_, ?_, ?_⟩
  · intro h accept k op op2 ch ch2
    simp [BarrierTracker.Process, BarrierTracker.processBarrier]
  · intro h accept accept2 b ch hcount hi hlt
    have hfirst := @process_increments α h accept b ch hi (by omega)
    have hi1 := process_barrier_inv h accept (⟨.barrier b, ch⟩ : BufferOrEvent α) hi
    have hc1 : (h.Process accept (⟨.barrier b, ch⟩ : BufferOrEvent α)).1.inputCount = n := by
      simp only [BarrierTracker.Process]
      rw [processBarrier_inputCount]; exact hcount
    have hsecond := @process_increments α
      (h.Process accept (⟨.barrier b, ch⟩ : BufferOrEvent α)).1 accept2 b ch hi1
      (by rw [hfirst.2, hc1]; omega)
    exact ⟨hfirst.1, hsecond.1, hsecond.2⟩
  · intro resp ds k hk
    have h := run_budget resp k ds (NewBarrierTracker n) [] (NewBarrierTracker_inv n)
    have h0 : (NewBarrierTracker n).pendingCount k = 0 := by
      simp [BarrierTracker.pendingCount, NewBarrierTracker, mapGet]
    have hc : (NewBarrierTracker n).inputCount = n := rfl
    rw [h0, hc] at h
    simp only [List.count_nil, Nat.cast_zero] at h
    have hpos : 0 < (BarrierTracker.run resp (NewBarrierTracker n) [] ds).2.count k :=
      List.count_pos_iff.mpr hk
    omega

/-- Witness of amended C3: four inputs, the barrier for checkpoint 1 from input
A processed twice. -/
theorem tracker_counts_calls_witness :
    (NewBarrierTracker 4).pendingCount 1 + 2 < 4 ∧
    (((NewBarrierTracker 4).Process (fun _ => true)
        (⟨.barrier ⟨1, "A"⟩, "A"⟩ : BufferOrEvent String)).1.Process (fun _ => true)
        (⟨.barrier ⟨1, "A"⟩, "A"⟩ : BufferOrEvent String)).1.pendingCount 1 =
      ((NewBarrierTracker 4).Process (fun _ => true)
        (⟨.barrier ⟨1, "A"⟩, "A"⟩ : BufferOrEvent String)).1.pendingCount 1 + 1 :=
  ⟨by decide,
    ((@tracker_counts_calls String 4).2.1 (NewBarrierTracker 4) (fun _ => true)
      (fun _ => true) ⟨1, "A"⟩ "A" rfl (NewBarrierTracker_inv 4) (by decide)).2.2⟩

theorem mapDeleteBelow_mapDelete (m : List (Int × Int)) (k : Int) :
    mapDeleteBelow (mapDelete m k) k = m.filter (fun e => decide (k < e.1)) := by
  unfold mapDeleteBelow mapDelete
  rw [List.filter_filter]
  apply List.filter_congr
  intro e _
  by_cases h1 : e.1 < k
  · have h2 : ¬ k < e.1 := by omega
    simp [h1, h2]
  · by_cases h2 : e.1 = k
    · have h3 : ¬ k < e.1 := by omega
      simp [h2]
    · have h3 : k < e.1 := by omega
      simp [h1, h2, h3]

/-- C4: for a tracker with at least two inputs, after a Process call in which
TriggerCheckpoint k is invoked and accepted, the pending map holds exactly the
entries it held before whose id is greater than k, with their counts: the entry
for k and every entry with a smaller id are gone. Barriers 1 from A, 2 from A
and 2 from B trigger checkpoint 2 and leave the pending map empty. -/
theorem tracker_gc_after_trigger {α : Type} (h : BarrierTracker) (accept : Int → Bool)
    (b : Barrier) (ch : String) (hn : 2 ≤ h.inputCount)
    (hinv : b.CheckpointId ∈ (h.Process accept (⟨.barrier b, ch⟩ : BufferOrEvent α)).2.2)
    (hacc : accept b.CheckpointId = true) :
    (h.Process accept (⟨.barrier b, ch⟩ : BufferOrEvent α)).1.pendingCheckpoints =
      h.pendingCheckpoints.filter (fun e => decide (b.CheckpointId < e.1)) ∧
    (∀ j, mapGet (h.Process accept (⟨.barrier b, ch⟩ : BufferOrEvent α)).1.pendingCheckpoints j =
      if b.CheckpointId < j then mapGet h.pendingCheckpoints j else none) ∧
    (h.Process accept (⟨.barrier b, ch⟩ : BufferOrEvent α)).1.inputCount = h.inputCount ∧
    BarrierTracker.run (fun _ _ => true) (NewBarrierTracker 2) []
      [(⟨.barrier ⟨1, "A"⟩, "A"⟩ : BufferOrEvent α), ⟨.barrier ⟨2, "A"⟩, "A"⟩,
        ⟨.barrier ⟨2, "B"⟩, "B"⟩] = (⟨2, []⟩, [2]) := by
  have h1 : ¬ h.inputCount = 1 := by omega
  have hstate : (h.Process accept (⟨.barrier b, ch⟩ : BufferOrEvent α)).1 =
      { h with pendingCheckpoints :=
          h.pendingCheckpoints.filter (fun e => decide (b.CheckpointId < e.1)) } := by
    simp only [BarrierTracker.Process, BarrierTracker.processBarrier] at hinv ⊢
    cases hg : mapGet h.pendingCheckpoints b.CheckpointId with
    | none => simp [h1, hg] at hinv
    | some c0 =>
      by_cases hc : c0 + 1 = h.inputCount
      · simp [h1, hc, hacc, mapDeleteBelow_mapDelete]
      · simp [h1, hg, hc] at hinv
  refine ⟨by rw [hstate], ?_, by rw [hstate], rfl⟩
  intro j
  rw [hstate]
  have := mapGet_filter_key (fun a => decide (b.CheckpointId < a)) h.pendingCheckpoints j
  simpa using this

/-- Witness of C4: two inputs, one barrier pending for each of the checkpoints 1
and 2, and the second barrier for checkpoint 2 arrives. -/
theorem tracker_gc_after_trigger_witness :
    ((BarrierTracker.mk 2 [(2, 1), (1, 1)]).Process (fun _ => true)
      (⟨.barrier ⟨2, "B"⟩, "B"⟩ : BufferOrEvent String)).1.pendingCheckpoints = [] :=
  (@tracker_gc_after_trigger String (BarrierTracker.mk 2 [(2, 1), (1, 1)]) (fun _ => true)
    ⟨2, "B"⟩ "B" (by decide) (by decide) rfl).1

/-! # Properties of the barrier aligner -/

theorem onBarrier_blocked {α : Type} (h : BarrierAligner α) (name : String) :
    h.onBarrier name = { h with blockedChannels := insert name h.blockedChannels } := by
  unfold BarrierAligner.onBarrier
  by_cases hm : name ∈ h.blockedChannels
  · simp [hm, Finset.insert_eq_of_mem]
  · simp [hm]

theorem beginNewAlignment_released {α : Type} (h : BarrierAligner α) (b : Barrier) :
    h.releaseBlocksAndResetBarriers.beginNewAlignment b =
      { h with currentCheckpointId := b.CheckpointId, blockedChannels := {b.OpId} } := by
  simp [BarrierAligner.beginNewAlignment, BarrierAligner.releaseBlocksAndResetBarriers,
    onBarrier_blocked]

theorem beginNewAlignment_of_empty {α : Type} (h : BarrierAligner α) (b : Barrier)
    (he : h.blockedChannels.card = 0) :
    h.beginNewAlignment b =
      { h with currentCheckpointId := b.CheckpointId, blockedChannels := {b.OpId} } := by
  have he2 : h.blockedChannels = ∅ := Finset.card_eq_zero.mp he
  simp [BarrierAligner.beginNewAlignment, onBarrier_blocked, he2]

/-- C5: the first half of processBarrier is the state machine of the
specification. With one input, a barrier with k > current sets current to k and
passes k to TriggerCheckpoint, any other barrier changes nothing, and blocked is
never touched. Otherwise, with B the size of blocked: B > 0 and k = current adds
op to blocked (nothing changes when op is already there); k > current, with
B > 0 or B = 0, sets current to k and blocked to the singleton of op; in every
other case (k < current, or B = 0 and k <= current) the whole state is unchanged,
nothing is triggered and the method returns. -/
theorem aligner_transition_cases {α : Type} (h : BarrierAligner α) (b : Barrier) :
    (h.inputCount = 1 → b.CheckpointId > h.currentCheckpointId →
      h.transition b = { aligner := { h with currentCheckpointId := b.CheckpointId },
                         triggered := [b.CheckpointId], proceed := false }) ∧
    (h.inputCount = 1 → ¬ b.CheckpointId > h.currentCheckpointId →
      h.transition b = { aligner := h, triggered := [], proceed := false }) ∧
    (h.inputCount = 1 →
      (h.transition b).aligner.blockedChannels = h.blockedChannels ∧
      (b.CheckpointId ∈ (h.transition b).triggered ↔
        b.CheckpointId > h.currentCheckpointId)) ∧
    (h.inputCount ≠ 1 → h.blockedChannels.card > 0 →
      b.CheckpointId = h.currentCheckpointId →
      h.transition b =
        { aligner := { h with blockedChannels := insert b.OpId h.blockedChannels },
          triggered := [], proceed := true } ∧
      (b.OpId ∈ h.blockedChannels → (h.transition b).aligner = h)) ∧
    (h.inputCount ≠ 1 → h.blockedChannels.card > 0 →
      b.CheckpointId > h.currentCheckpointId →
      h.transition b =
        { aligner := { h with currentCheckpointId := b.CheckpointId,
                              blockedChannels := {b.OpId} },
          triggered := [], proceed := true }) ∧
    (h.inputCount ≠ 1 → h.blockedChannels.card = 0 →
      b.CheckpointId > h.currentCheckpointId →
      h.transition b =
        { aligner := { h with currentCheckpointId := b.CheckpointId,
                              blockedChannels := {b.OpId} },
          triggered := [], proceed := true }) ∧
    (h.inputCount ≠ 1 →
      (b.CheckpointId < h.currentCheckpointId ∨
        (h.blockedChannels.card = 0 ∧ b.CheckpointId ≤ h.currentCheckpointId)) →
      h.transition b = { aligner := h, triggered := [], proceed := false }) := by
  refine ⟨?_, ?_, ?_, ?_, ?_, ?_, ?_⟩
  · intro h1 hk
    simp [BarrierAligner.transition, h1, hk]
  · intro h1 hk
    simp [BarrierAligner.transition, h1, hk]
  · intro h1
    by_cases hk : b.CheckpointId > h.currentCheckpointId
    · simp [BarrierAligner.transition, h1, hk]
    · simp [BarrierAligner.transition, h1, hk]
  · intro h1 hB hk
    have ht : h.transition b =
        { aligner := { h with blockedChannels := insert b.OpId h.blockedChannels },
          triggered := [], proceed := true } := by
      simp [BarrierAligner.transition, h1, hB, hk, onBarrier_blocked]
    refine ⟨ht, fun hm => ?_⟩
    rw [ht]
    simp [Finset.insert_eq_of_mem hm]
  · intro h1 hB hk
    have hne : ¬ b.CheckpointId = h.currentCheckpointId := by omega
    simp [BarrierAligner.transition, h1, hB, hk, hne, beginNewAlignment_released]
  · intro h1 hB hk
    have hB2 : ¬ h.blockedChannels.card > 0 := by omega
    have hk2 : h.currentCheckpointId < b.CheckpointId := hk
    rw [← beginNewAlignment_of_empty h b hB]
    simp only [BarrierAligner.transition, h1, hB2, hk, if_true, if_false]
  · intro h1 hcase
    rcases hcase with hlt | ⟨hB, hle⟩
    · have hne : ¬ b.CheckpointId = h.currentCheckpointId := by omega
      have hgt : ¬ b.CheckpointId > h.currentCheckpointId := by omega
      by_cases hB : h.blockedChannels.card > 0
      · simp only [BarrierAligner.transition, h1, hB, hne, hgt, if_true, if_false]
      · simp only [BarrierAligner.transition, h1, hB, hgt, if_false]
    · have hB2 : ¬ h.blockedChannels.card > 0 := by omega
      have hgt : ¬ b.CheckpointId > h.currentCheckpointId := by omega
      simp only [BarrierAligner.transition, h1, hB2, hgt, if_false]

/-- Witness of C5: two inputs, channel A blocked for checkpoint 1, and the
barrier for checkpoint 1 arrives from B. -/
theorem aligner_transition_cases_witness :
    (BarrierAligner.mk 2 1 {"A"} ([] : List (BufferOrEvent String))).transition ⟨1, "B"⟩ =
      { aligner := BarrierAligner.mk 2 1 (insert "B" {"A"}) [],
        triggered := [], proceed := true } :=
  ((@aligner_transition_cases String (BarrierAligner.mk 2 1 {"A"} []) ⟨1, "B"⟩).2.2.2.1
    (by decide) (by decide) rfl).1

theorem transition_buffer {α : Type} (h : BarrierAligner α) (b : Barrier) :
    (h.transition b).aligner.buffer = h.buffer ∧
    (h.transition b).aligner.inputCount = h.inputCount := by
  unfold BarrierAligner.transition
  split_ifs <;>
    simp [onBarrier_blocked, BarrierAligner.beginNewAlignment,
      BarrierAligner.releaseBlocksAndResetBarriers]

theorem transition_proceed_current {α : Type} (h : BarrierAligner α) (b : Barrier)
    (hp : (h.transition b).proceed = true) :
    (h.transition b).aligner.currentCheckpointId = b.CheckpointId ∧
    (h.transition b).triggered = [] := by
  unfold BarrierAligner.transition at hp ⊢
  split_ifs at hp ⊢ with h1 h2 h3 h4 h5 <;>
    simp_all [onBarrier_blocked, BarrierAligner.beginNewAlignment,
      BarrierAligner.releaseBlocksAndResetBarriers]

theorem transition_triggered_nil {α : Type} (h : BarrierAligner α) (b : Barrier)
    (hn : h.inputCount ≠ 1) : (h.transition b).triggered = [] := by
  unfold BarrierAligner.transition
  split_ifs <;> simp_all

/-- C6: with at least two inputs, when the transition of a barrier (one that is
not ignored) leaves as many blocked channels as there are inputs and the
responder accepts, processBarrier passes the current checkpoint id to
TriggerCheckpoint exactly once, clears blocked, hands the whole buffer to output
in arrival order and leaves the buffer empty; when the number of blocked
channels differs from the input count after the transition, nothing is
triggered and nothing is flushed. With inputs A and B and the arrivals t1 on A,
barrier 1 on A, t2 on A, t3 on B, barrier 1 on B: t1 and t3 pass through, t2 is
buffered and is flushed after the trigger. -/
theorem aligner_completion {α : Type} (h : BarrierAligner α) (accept : Int → Bool)
    (b : Barrier) (hn : 2 ≤ h.inputCount) :
    ((h.transition b).proceed = true →
      ((h.transition b).aligner.blockedChannels.card : Int) = h.inputCount →
      accept b.CheckpointId = true →
      (h.processBarrier accept b).triggered =
          [(h.transition b).aligner.currentCheckpointId] ∧
        (h.processBarrier accept b).aligner.blockedChannels = ∅ ∧
        (h.processBarrier accept b).flushed = h.buffer ∧
        (h.processBarrier accept b).aligner.buffer = [] ∧
        (h.processBarrier accept b).aligner.currentCheckpointId =
          (h.transition b).aligner.currentCheckpointId ∧
        (h.processBarrier accept b).aligner.inputCount = h.inputCount) ∧
    (((h.transition b).aligner.blockedChannels.card : Int) ≠ h.inputCount →
      (h.processBarrier accept b).triggered = [] ∧
        (h.processBarrier accept b).flushed = [] ∧
        (h.processBarrier accept b).aligner = (h.transition b).aligner) ∧
    ((AlignerRun.run (fun _ _ => true) (AlignerRun.init 2)
        [(⟨.data "t1", "A"⟩ : BufferOrEvent String), ⟨.barrier ⟨1, "A"⟩, "A"⟩,
          ⟨.data "t2", "A"⟩, ⟨.data "t3", "B"⟩]) =
        { aligner := BarrierAligner.mk 2 1 {"A"} [⟨.data "t2", "A"⟩],
          triggered := [],
          downstream := [⟨.data "t1", "A"⟩, ⟨.data "t3", "B"⟩] } ∧
      (AlignerRun.run (fun _ _ => true) (AlignerRun.init 2)
        [(⟨.data "t1", "A"⟩ : BufferOrEvent String), ⟨.barrier ⟨1, "A"⟩, "A"⟩,
          ⟨.data "t2", "A"⟩, ⟨.data "t3", "B"⟩, ⟨.barrier ⟨1, "B"⟩, "B"⟩]) =
        { aligner := BarrierAligner.mk 2 1 ∅ [],
          triggered := [1],
          downstream := [⟨.data "t1", "A"⟩, ⟨.data "t3", "B"⟩, ⟨.data "t2", "A"⟩] }) := by
  have h1 : h.inputCount ≠ 1 := by omega
  obtain ⟨hbuf, hcnt⟩ := transition_buffer h b
  have htr := transition_triggered_nil h b h1
  refine ⟨?_, ?_, ?_⟩
  · intro hp hcard hacc
    obtain ⟨hcur, _⟩ := transition_proceed_current h b hp
    have hcard2 : ((h.transition b).aligner.blockedChannels.card : Int) =
        (h.transition b).aligner.inputCount := by rw [hcnt]; exact hcard
    simp [BarrierAligner.processBarrier, BarrierAligner.complete, hp, hcard2, hacc, htr, hcur,
      hbuf, hcnt, BarrierAligner.releaseBlocksAndResetBarriers]
  · intro hcard
    have hcard2 : ¬ ((h.transition b).aligner.blockedChannels.card : Int) =
        (h.transition b).aligner.inputCount := by rw [hcnt]; exact hcard
    by_cases hp : (h.transition b).proceed = true
    · simp [BarrierAligner.processBarrier, BarrierAligner.complete, hp, hcard2, htr]
    · simp [BarrierAligner.processBarrier, hp, htr]
  · constructor <;> decide

/-- Witness of C6: two inputs, A blocked for checkpoint 1 with t2 buffered, and
the barrier for checkpoint 1 arrives from B. -/
theorem aligner_completion_witness :
    ((BarrierAligner.mk 2 1 {"A"} [(⟨.data "t2", "A"⟩ : BufferOrEvent String)]).processBarrier
        (fun _ => true) ⟨1, "B"⟩).flushed = [⟨.data "t2", "A"⟩] :=
  ((@aligner_completion String (BarrierAligner.mk 2 1 {"A"} [⟨.data "t2", "A"⟩])
    (fun _ => true) ⟨1, "B"⟩ (by decide)).1 (by decide) (by decide) rfl).2.2.1

/-- C7: on an envelope that is not a barrier, Process returns true if and only
if inputCount exceeds 1 and the channel of the envelope is blocked; when it
returns true the envelope is appended at the end of the buffer and nothing else
changes; when it returns false the aligner is unchanged and the caller passes
the envelope on. In both cases nothing is triggered or flushed. -/
theorem aligner_process_data {α : Type} (h : BarrierAligner α) (accept : Int → Bool)
    (x : α) (ch : String) :
    ((h.Process accept ⟨.data x, ch⟩).2 = true ↔
      (h.inputCount > 1 ∧ ch ∈ h.blockedChannels)) ∧
    ((h.Process accept ⟨.data x, ch⟩).2 = true →
      (h.Process accept ⟨.data x, ch⟩).1.aligner =
        { h with buffer := h.buffer ++ [⟨.data x, ch⟩] }) ∧
    ((h.Process accept ⟨.data x, ch⟩).2 = false →
      (h.Process accept ⟨.data x, ch⟩).1.aligner = h ∧
      ∀ (resp : List Int → Int → Bool) (log : List Int) (down : List (BufferOrEvent α)),
        AlignerRun.step resp { aligner := h, triggered := log, downstream := down }
            ⟨.data x, ch⟩ =
          { aligner := h, triggered := log, downstream := down ++ [⟨.data x, ch⟩] }) ∧
    (h.Process accept ⟨.data x, ch⟩).1.triggered = [] ∧
    (h.Process accept ⟨.data x, ch⟩).1.flushed = [] := by
  have hpos : ch ∈ h.blockedChannels → h.blockedChannels.card > 0 :=
    fun hm => Finset.card_pos.mpr ⟨ch, hm⟩
  by_cases hn : h.inputCount > 1
  · by_cases hm : ch ∈ h.blockedChannels
    · have hc := hpos hm
      simp [BarrierAligner.Process, hn, hm, hc]
    · by_cases hc : h.blockedChannels.card > 0
      · simp [BarrierAligner.Process, AlignerRun.step, hn, hm, hc]
      · simp [BarrierAligner.Process, AlignerRun.step, hn, hm, hc]
  · simp [BarrierAligner.Process, AlignerRun.step, hn]

/-- Witness of C7: two inputs, channel A blocked, a tuple arrives on A. -/
theorem aligner_process_data_witness :
    ((BarrierAligner.mk 2 1 {"A"} ([] : List (BufferOrEvent String))).Process (fun _ => true)
        ⟨.data "t2", "A"⟩).1.aligner =
      BarrierAligner.mk 2 1 {"A"} [⟨.data "t2", "A"⟩] :=
  (@aligner_process_data String (BarrierAligner.mk 2 1 {"A"} []) (fun _ => true) "t2" "A").2.1
    (by decide)

/-- C8 fails on the code: three inputs A, B, C and a responder that accepts.
Barrier 1 arrives from A and from B, tuple t1 on B is buffered, barrier 2 from A
supersedes checkpoint 1 and releases B without flushing the buffer, so tuple t2
on B passes through while t1 is still buffered; t1 is flushed only when
checkpoint 2 completes. Downstream receives t2 before t1. -/
theorem aligner_supersede_reorders :
    (AlignerRun.run (fun _ _ => true) (AlignerRun.init 3)
      [(⟨.barrier ⟨1, "A"⟩, "A"⟩ : BufferOrEvent String), ⟨.barrier ⟨1, "B"⟩, "B"⟩,
        ⟨.data "t1", "B"⟩, ⟨.barrier ⟨2, "A"⟩, "A"⟩, ⟨.data "t2", "B"⟩]) =
      { aligner := BarrierAligner.mk 3 2 {"A"} [⟨.data "t1", "B"⟩],
        triggered := [],
        downstream := [⟨.data "t2", "B"⟩] } ∧
    (AlignerRun.run (fun _ _ => true) (AlignerRun.init 3)
      [(⟨.barrier ⟨1, "A"⟩, "A"⟩ : BufferOrEvent String), ⟨.barrier ⟨1, "B"⟩, "B"⟩,
        ⟨.data "t1", "B"⟩, ⟨.barrier ⟨2, "A"⟩, "A"⟩, ⟨.data "t2", "B"⟩,
        ⟨.barrier ⟨1, "C"⟩, "C"⟩, ⟨.barrier ⟨2, "B"⟩, "B"⟩,
        ⟨.barrier ⟨2, "C"⟩, "C"⟩]).downstream =
      [⟨.data "t2", "B"⟩, ⟨.data "t1", "B"⟩] := by
  constructor <;> decide

/-- C9: with at least two inputs, a barrier with an id above the current one that
arrives while some channel is blocked abandons the alignment in flight: nothing
is triggered or flushed, blocked becomes the singleton of the barrier's op id,
current becomes the barrier's id, and the buffer and input count are as
before. -/
theorem aligner_supersede_keeps_buffer {α : Type} (h : BarrierAligner α)
    (accept : Int → Bool) (b : Barrier) (hn : 2 ≤ h.inputCount)
    (hB : h.blockedChannels.card > 0) (hk : b.CheckpointId > h.currentCheckpointId) :
    h.processBarrier accept b =
      { aligner := { inputCount := h.inputCount, currentCheckpointId := b.CheckpointId,
                     blockedChannels := {b.OpId}, buffer := h.buffer },
        triggered := [], flushed := [] } := by
  have h1 : ¬ h.inputCount = 1 := by omega
  have hne : ¬ b.CheckpointId = h.currentCheckpointId := by omega
  have hcard : ¬ ((1 : Int) = h.inputCount) := by omega
  simp [BarrierAligner.processBarrier, BarrierAligner.transition, BarrierAligner.complete, h1,
    hB, hk, hne, beginNewAlignment_released, hcard]

/-- Witness of C9: three inputs, A and B blocked for checkpoint 1 with t1
buffered, and barrier 2 arrives from A. -/
theorem aligner_supersede_keeps_buffer_witness :
    (BarrierAligner.mk 3 1 {"A", "B"} [(⟨.data "t1", "B"⟩ : BufferOrEvent String)]).processBarrier
        (fun _ => true) ⟨2, "A"⟩ =
      { aligner := BarrierAligner.mk 3 2 {"A"} [⟨.data "t1", "B"⟩],
        triggered := [], flushed := [] } :=
  @aligner_supersede_keeps_buffer String
    (BarrierAligner.mk 3 1 {"A", "B"} [⟨.data "t1", "B"⟩]) (fun _ => true) ⟨2, "A"⟩
    (by decide) (by decide) (by decide)

end Checkpoint

namespace Node

/-! # Properties of the window scan -/

theorem take_succ_set {β : Type} (l : List β) (i : Nat) (t : β) (hi : i < l.length) :
    (l.set i t).take (i + 1) = l.take i ++ [t] := by
  induction l generalizing i with
  | nil => simp at hi
  | cons a rest ih =>
    cases i with
    | zero => simp
    | succ i =>
      have hi2 : i < rest.length := by simpa using hi
      simp [List.set, ih i hi2]

theorem drop_set_lt {β : Type} (l : List β) (i m : Nat) (t : β) (h : i < m) :
    (l.set i t).drop m = l.drop m := by
  induction l generalizing i m with
  | nil => simp
  | cons a rest ih =>
    cases m with
    | zero => omega
    | succ m =>
      cases i with
      | zero => simp
      | succ i => simp [List.set, ih i m (by omega)]

theorem drop_of_get? {β : Type} (l : List β) (j : Nat) (t : β) (h : l.get? j = some t) :
    l.drop j = t :: l.drop (j + 1) := by
  induction l generalizing j with
  | nil => simp at h
  | cons a rest ih =>
    cases j with
    | zero => simp at h; simp [h]
    | succ j => simp at h; simpa using ih j (by simpa using h)

/-- The loop of scan, for any body that keeps a tuple when `keep` holds and adds
it to the results when `incl` holds: the first `i` cells of the array end up
holding the kept tuples in order, and the results the included ones. -/
theorem scanLoop_spec (o : WindowOperator) (triggerTime delta : Int)
    (keep incl : Tuple → Bool)
    (hbody : ∀ (st : ScanLoop) (t : Tuple), o.scanBody triggerTime delta st t =
      { inputs := if keep t then st.inputs.set st.i t else st.inputs,
        i := if keep t then st.i + 1 else st.i,
        results := if incl t then st.results.AddTuple t else st.results }) :
    ∀ (n j : Nat) (st : ScanLoop), j + n = st.inputs.length → st.i ≤ j →
      ((o.scanLoop triggerTime delta n j st).inputs.take
          (o.scanLoop triggerTime delta n j st).i =
        st.inputs.take st.i ++ (st.inputs.drop j).filter keep) ∧
      ((o.scanLoop triggerTime delta n j st).results.Content =
        st.results.Content ++ (st.inputs.drop j).filter incl) ∧
      ((o.scanLoop triggerTime delta n j st).results.WindowStart = st.results.WindowStart) ∧
      ((o.scanLoop triggerTime delta n j st).results.WindowEnd = st.results.WindowEnd) := by
  intro n
  induction n with
  | zero =>
    intro j st hlen _
    have hd : st.inputs.drop j = [] := List.drop_eq_nil_of_le (by omega)
    simp [WindowOperator.scanLoop, hd]
  | succ n ih =>
    intro j st hlen hij
    have hj : j < st.inputs.length := by omega
    obtain ⟨t, ht⟩ : ∃ t, st.inputs.get? j = some t := by
      refine ⟨st.inputs.get ⟨j, hj⟩, ?_⟩
      exact List.get?_eq_get hj
    have hdrop := drop_of_get? st.inputs j t ht
    simp only [WindowOperator.scanLoop, ht]
    rw [hbody st t]
    by_cases hk : keep t = true
    · have hi : st.i < st.inputs.length := by omega
      have hstep := ih (j + 1)
        { inputs := st.inputs.set st.i t, i := st.i + 1,
          results := if incl t then st.results.AddTuple t else st.results }
        (by simp; omega) (by simp; omega)
      simp only [hk, if_true]
      obtain ⟨h1, h2, h3, h4⟩ := hstep
      simp only [] at h1 h2 h3 h4
      rw [h1, h2, h3, h4, take_succ_set _ _ _ hi, drop_set_lt _ _ _ _ (by omega), hdrop]
      by_cases hin : incl t = true
      · simp [hk, hin, WindowTuplesSet.AddTuple, List.filter_cons]
      · simp [hk, hin, WindowTuplesSet.AddTuple, List.filter_cons]
    · have hstep := ih (j + 1)
        { inputs := st.inputs, i := st.i,
          results := if incl t then st.results.AddTuple t else st.results }
        (by simp; omega) (by simp; omega)
      have hk2 : keep t = false := by simpa using hk
      simp only [hk2, Bool.false_eq_true, if_false]
      obtain ⟨h1, h2, h3, h4⟩ := hstep
      simp only [] at h1 h2 h3 h4
      rw [h1, h2, h3, h4, hdrop]
      by_cases hin : incl t = true
      · simp [hk2, hin, WindowTuplesSet.AddTuple, List.filter_cons]
      · simp [hk2, hin, WindowTuplesSet.AddTuple, List.filter_cons]

/-- The body of the loop for the window types other than hopping and sliding. -/
theorem scanBody_plain (o : WindowOperator) (triggerTime delta : Int)
    (hw : o.window.WType ≠ .HOPPING_WINDOW ∧ o.window.WType ≠ .SLIDING_WINDOW)
    (st : ScanLoop) (t : Tuple) :
    o.scanBody triggerTime delta st t =
      { inputs := if (decide (t.Timestamp > triggerTime)) then st.inputs.set st.i t
          else st.inputs,
        i := if (decide (t.Timestamp > triggerTime)) then st.i + 1 else st.i,
        results := if (decide (t.Timestamp ≤ triggerTime)) then st.results.AddTuple t
          else st.results } := by
  unfold WindowOperator.scanBody
  have hne : ¬ (o.window.WType = .HOPPING_WINDOW ∨ o.window.WType = .SLIDING_WINDOW) := by
    rintro (h | h)
    · exact hw.1 h
    · exact hw.2 h
  simp only [hne, if_false]
  by_cases hgt : t.Timestamp > triggerTime
  · have hle : ¬ t.Timestamp ≤ triggerTime := by omega
    simp [hgt, hle]
  · have hle : t.Timestamp ≤ triggerTime := by omega
    simp [hgt, hle]

/-- The loop of scan on a window type other than hopping and sliding, from its
initial state. -/
theorem scanLoop_plain (o : WindowOperator) (inputs : List Tuple) (triggerTime delta : Int)
    (r0 : WindowTuplesSet)
    (hw : o.window.WType ≠ .HOPPING_WINDOW ∧ o.window.WType ≠ .SLIDING_WINDOW) :
    ((o.scanLoop triggerTime delta inputs.length 0
          { inputs := inputs, i := 0, results := r0 }).inputs.take
        (o.scanLoop triggerTime delta inputs.length 0
          { inputs := inputs, i := 0, results := r0 }).i =
      inputs.filter (fun t => decide (t.Timestamp > triggerTime))) ∧
    ((o.scanLoop triggerTime delta inputs.length 0
          { inputs := inputs, i := 0, results := r0 }).results.Content =
      r0.Content ++ inputs.filter (fun t => decide (t.Timestamp ≤ triggerTime))) := by
  have h := scanLoop_spec o triggerTime delta
    (fun t => decide (t.Timestamp > triggerTime)) (fun t => decide (t.Timestamp ≤ triggerTime))
    (fun st t => scanBody_plain o triggerTime delta hw st t)
    inputs.length 0 { inputs := inputs, i := 0, results := r0 } (by simp) (by simp)
  obtain ⟨h1, h2, _, _⟩ := h
  exact ⟨by simpa using h1, by simpa using h2⟩

theorem sort_content_perm (w : WindowTuplesSet) : w.Sort.Content.Perm w.Content := by
  unfold WindowTuplesSet.Sort
  exact List.perm_insertionSort _ _

/-- What scan returns and broadcasts on a window type other than hopping and
sliding, in terms of the two filters of the buffer. -/
theorem scan_plain (o : WindowOperator) (inputs : List Tuple) (triggerTime : Int)
    (hw : o.window.WType ≠ .HOPPING_WINDOW ∧ o.window.WType ≠ .SLIDING_WINDOW) :
    (o.scan inputs triggerTime).inputs =
      inputs.filter (fun t => decide (t.Timestamp > triggerTime)) ∧
    (inputs.filter (fun t => decide (t.Timestamp ≤ triggerTime)) = [] →
      (o.scan inputs triggerTime).broadcast = []) ∧
    (inputs.filter (fun t => decide (t.Timestamp ≤ triggerTime)) ≠ [] →
      ∃ w, (o.scan inputs triggerTime).broadcast = [w] ∧
        w.Content.Perm (inputs.filter (fun t => decide (t.Timestamp ≤ triggerTime))) ∧
        (o.isEventTime = false →
          w.Content = inputs.filter (fun t => decide (t.Timestamp ≤ triggerTime)))) := by
  have hne : ¬ (o.window.WType = .HOPPING_WINDOW ∨ o.window.WType = .SLIDING_WINDOW) := by
    rintro (h | h)
    · exact hw.1 h
    · exact hw.2 h
  obtain ⟨h1, h2⟩ := scanLoop_plain o inputs triggerTime 0
    { Content := [], WindowStart := 0, WindowEnd := triggerTime } hw
  simp only [List.nil_append] at h2
  refine ⟨?_, ?_, ?_⟩
  · unfold WindowOperator.scan
    simp only [hne, if_false]
    split_ifs <;> exact h1
  · intro hnil
    unfold WindowOperator.scan
    simp only [hne, if_false, h2, hnil, List.length_nil, gt_iff_lt, lt_irrefl]
  · intro hnn
    have hpos : (inputs.filter (fun t => decide (t.Timestamp ≤ triggerTime))).length > 0 :=
      List.length_pos.mpr hnn
    unfold WindowOperator.scan
    simp only [hne, if_false, h2, hpos, if_true]
    by_cases he : o.isEventTime = true
    · refine ⟨_, rfl, ?_, ?_⟩
      · simp only [he, if_true]
        refine (sort_content_perm _).trans ?_
        cases o.window.WType <;> simp [h2]
      · intro hf; rw [hf] at he; exact absurd he (by decide)
    · have he2 : o.isEventTime = false := by simpa using he
      refine ⟨_, rfl, ?_, ?_⟩
      · simp only [he2, Bool.false_eq_true, if_false]
        cases o.window.WType <;> simp [h2]
      · intro _
        simp only [he2, Bool.false_eq_true, if_false]
        cases o.window.WType <;> simp [h2]

/-- C10: for a window type other than hopping and sliding, scan splits the
buffer in two. The returned buffer is exactly the tuples with timestamp above
the trigger time, in their original order; at most one window is broadcast, it
is broadcast when some tuple has a timestamp at or below the trigger time, and
its content is those tuples (in their original order in processing time, sorted
in event time); the window and the returned buffer together are a rearrangement
of the buffer and share no tuple. For a tumbling window with tuples at 1, 3, 7,
11, 13 scanned at 10 the window holds the tuples at 1, 3, 7 and the returned
buffer those at 11, 13. -/
theorem scan_splits_buffer (o : WindowOperator) (inputs : List Tuple) (triggerTime : Int)
    (hw : o.window.WType ≠ .HOPPING_WINDOW ∧ o.window.WType ≠ .SLIDING_WINDOW) :
    (o.scan inputs triggerTime).inputs =
      inputs.filter (fun t => decide (t.Timestamp > triggerTime)) ∧
    (o.scan inputs triggerTime).broadcast.length ≤ 1 ∧
    ((∃ t ∈ inputs, t.Timestamp ≤ triggerTime) →
      (o.scan inputs triggerTime).broadcast.length = 1) ∧
    ((o.scan inputs triggerTime).broadcast = [] →
      (o.scan inputs triggerTime).inputs = inputs) ∧
    (∀ w ∈ (o.scan inputs triggerTime).broadcast,
      w.Content.Perm (inputs.filter (fun t => decide (t.Timestamp ≤ triggerTime))) ∧
      (o.isEventTime = false →
        w.Content = inputs.filter (fun t => decide (t.Timestamp ≤ triggerTime))) ∧
      (w.Content ++ (o.scan inputs triggerTime).inputs).Perm inputs ∧
      ∀ t, ¬ (t ∈ w.Content ∧ t ∈ (o.scan inputs triggerTime).inputs)) ∧
    (WindowOperator.mk ⟨.TUMBLING_WINDOW, 10, 10⟩ false 0 0 0).scan
        [⟨"demo", "a", 1⟩, ⟨"demo", "b", 3⟩, ⟨"demo", "c", 7⟩, ⟨"demo", "d", 11⟩,
          ⟨"demo", "e", 13⟩] 10 =
      { inputs := [⟨"demo", "d", 11⟩, ⟨"demo", "e", 13⟩],
        triggered := true,
        op := WindowOperator.mk ⟨.TUMBLING_WINDOW, 10, 10⟩ false 10 0 1,
        broadcast := [{ Content := [⟨"demo", "a", 1⟩, ⟨"demo", "b", 3⟩, ⟨"demo", "c", 7⟩],
                        WindowStart := 0, WindowEnd := 10 }] } := by
  obtain ⟨hin, hnil, hcons⟩ := scan_plain o inputs triggerTime hw
  have hgt : inputs.filter (fun t => decide (t.Timestamp > triggerTime)) =
      inputs.filter (fun t => !decide (t.Timestamp ≤ triggerTime)) := by
    apply List.filter_congr
    intro t _
    by_cases h : t.Timestamp ≤ triggerTime
    · have h2 : ¬ t.Timestamp > triggerTime := by omega
      simp [h, h2]
    · have h2 : t.Timestamp > triggerTime := by omega
      simp [h, h2]
  refine ⟨hin, ?_, ?_, ?_, ?_, ?_⟩
  · by_cases hf : inputs.filter (fun t => decide (t.Timestamp ≤ triggerTime)) = []
    · rw [hnil hf]; simp
    · obtain ⟨w, hw1, _⟩ := hcons hf
      rw [hw1]; simp
  · rintro ⟨t, htm, htle⟩
    have hf : inputs.filter (fun t => decide (t.Timestamp ≤ triggerTime)) ≠ [] := by
      intro he
      have : t ∈ inputs.filter (fun t => decide (t.Timestamp ≤ triggerTime)) :=
        List.mem_filter.mpr ⟨htm, by simpa using htle⟩
      rw [he] at this
      exact absurd this (List.not_mem_nil _)
    obtain ⟨w, hw1, _⟩ := hcons hf
    rw [hw1]; simp
  · intro hb
    rw [hin]
    apply List.filter_eq_self.mpr
    intro t htm
    by_contra hgt2
    have htle : t.Timestamp ≤ triggerTime := by simpa using hgt2
    have hf : inputs.filter (fun t => decide (t.Timestamp ≤ triggerTime)) ≠ [] := by
      intro he
      have : t ∈ inputs.filter (fun t => decide (t.Timestamp ≤ triggerTime)) :=
        List.mem_filter.mpr ⟨htm, by simpa using htle⟩
      rw [he] at this
      exact absurd this (List.not_mem_nil _)
    obtain ⟨w, hw1, _⟩ := hcons hf
    rw [hw1] at hb
    exact absurd hb (List.cons_ne_nil _ _)
  · intro w hwm
    by_cases hf : inputs.filter (fun t => decide (t.Timestamp ≤ triggerTime)) = []
    · rw [hnil hf] at hwm
      exact absurd hwm (List.not_mem_nil _)
    · obtain ⟨w2, hw1, hperm, heq⟩ := hcons hf
      rw [hw1] at hwm
      have hww : w = w2 := by simpa using hwm
      subst hww
      refine ⟨hperm, heq, ?_, ?_⟩
      · rw [hin, hgt]
        exact (List.Perm.append_right _ hperm).trans (List.filter_append_perm _ _)
      · rintro t ⟨ht1, ht2⟩
        have h1 := (List.mem_filter.mp (hperm.mem_iff.mp ht1)).2
        rw [hin] at ht2
        have h2 := (List.mem_filter.mp ht2).2
        simp only [decide_eq_true_eq] at h1 h2
        omega
  · decide

/-- Witness of C10: a session window with tuples at 4 and 9 scanned at 5. -/
theorem scan_splits_buffer_witness :
    ((WindowOperator.mk ⟨.SESSION_WINDOW, 5, 1⟩ false 1 0 0).scan
        [⟨"demo", "a", 4⟩, ⟨"demo", "b", 9⟩] 5).inputs =
      [(⟨"demo", "a", 4⟩ : Tuple), ⟨"demo", "b", 9⟩].filter
        (fun t => decide (t.Timestamp > 5)) :=
  (scan_splits_buffer (WindowOperator.mk ⟨.SESSION_WINDOW, 5, 1⟩ false 1 0 0)
    [⟨"demo", "a", 4⟩, ⟨"demo", "b", 9⟩] 5 (by decide)).1

/-! ## The scan of every window type -/

/-- The body of the loop in terms of the two path conditions. -/
theorem scanBody_eq (o : WindowOperator) (triggerTime delta : Int) (st : ScanLoop) (t : Tuple) :
    o.scanBody triggerTime delta st t =
      { inputs := if o.retained triggerTime delta t then st.inputs.set st.i t else st.inputs,
        i := if o.retained triggerTime delta t then st.i + 1 else st.i,
        results := if o.included triggerTime delta t then st.results.AddTuple t
          else st.results } := by
  unfold WindowOperator.scanBody WindowOperator.retained WindowOperator.included
  by_cases hw : o.window.WType = .HOPPING_WINDOW ∨ o.window.WType = .SLIDING_WINDOW
  · simp only [hw, if_true]
    by_cases hx : wrap64 (triggerTime - t.Timestamp) > wrap64 (o.window.Length + delta)
    · simp [hx]
    · by_cases hle : t.Timestamp ≤ triggerTime
      · simp [hx, hle]
      · simp [hx, hle]
  · simp only [hw, if_false]
    by_cases hgt : t.Timestamp > triggerTime
    · have hle : ¬ t.Timestamp ≤ triggerTime := by omega
      simp [hgt, hle]
    · have hle : t.Timestamp ≤ triggerTime := by omega
      simp [hgt, hle]

/-- The loop of scan from its initial state, for every window type. -/
theorem scanLoop_eq (o : WindowOperator) (inputs : List Tuple) (triggerTime delta : Int) :
    ((o.scanLoop triggerTime delta inputs.length 0
          { inputs := inputs, i := 0,
            results := { Content := [], WindowStart := 0, WindowEnd := triggerTime } }).inputs.take
        (o.scanLoop triggerTime delta inputs.length 0
          { inputs := inputs, i := 0,
            results := { Content := [], WindowStart := 0, WindowEnd := triggerTime } }).i =
      inputs.filter (o.retained triggerTime delta)) ∧
    ((o.scanLoop triggerTime delta inputs.length 0
          { inputs := inputs, i := 0,
            results := { Content := [], WindowStart := 0, WindowEnd := triggerTime } }).results =
      { Content := inputs.filter (o.included triggerTime delta), WindowStart := 0,
        WindowEnd := triggerTime }) := by
  have h := scanLoop_spec o triggerTime delta
    (o.retained triggerTime delta) (o.included triggerTime delta)
    (fun st t => scanBody_eq o triggerTime delta st t)
    inputs.length 0
    { inputs := inputs, i := 0,
      results := { Content := [], WindowStart := 0, WindowEnd := triggerTime } }
    (by simp) (by simp)
  obtain ⟨h1, h2, h3, h4⟩ := h
  refine ⟨by simpa using h1, ?_⟩
  generalize (o.scanLoop triggerTime delta inputs.length 0
    { inputs := inputs, i := 0,
      results := { Content := [], WindowStart := 0, WindowEnd := triggerTime } }).results = r
    at h2 h3 h4
  obtain ⟨c, ws, we⟩ := r
  simp only [List.nil_append, List.drop_zero] at h2 h3 h4
  simp [h2, h3, h4]

/-- The whole of scan as one equation: the returned buffer is the filter of the
buffer by the first path condition; nothing else happens when no tuple meets the
second one; otherwise one result set is broadcast, the trigger time is set and
the counter is incremented. -/
theorem scan_eq (o : WindowOperator) (inputs : List Tuple) (triggerTime : Int) :
    o.scan inputs triggerTime =
      if inputs.filter (o.included triggerTime (o.scanDelta triggerTime)) = [] then
        { inputs := inputs.filter (o.retained triggerTime (o.scanDelta triggerTime)),
          triggered := false, op := o, broadcast := [] }
      else
        { inputs := inputs.filter (o.retained triggerTime (o.scanDelta triggerTime)),
          triggered := true,
          op := { o with triggerTime := triggerTime, recordsOut := o.recordsOut + 1 },
          broadcast :=
            [if o.isEventTime then
              WindowTuplesSet.Sort
                { Content := inputs.filter (o.included triggerTime (o.scanDelta triggerTime)),
                  WindowStart := o.windowStart triggerTime, WindowEnd := triggerTime }
            else
              { Content := inputs.filter (o.included triggerTime (o.scanDelta triggerTime)),
                WindowStart := o.windowStart triggerTime, WindowEnd := triggerTime }] } := by
  obtain ⟨h1, h2⟩ := scanLoop_eq o inputs triggerTime (o.scanDelta triggerTime)
  unfold WindowOperator.scan
  have hd : (if o.window.WType = .HOPPING_WINDOW ∨ o.window.WType = .SLIDING_WINDOW then
      o.calDelta triggerTime 0 else 0) = o.scanDelta triggerTime := rfl
  simp only [hd, h1, h2]
  by_cases hnil : inputs.filter (o.included triggerTime (o.scanDelta triggerTime)) = []
  · simp [hnil]
  · have hpos : (inputs.filter (o.included triggerTime (o.scanDelta triggerTime))).length > 0 :=
      List.length_pos.mpr hnil
    simp only [hpos, hnil, if_true, if_false]
    unfold WindowOperator.windowStart
    cases o.window.WType <;> rfl

theorem wrap64_of_range (x : Int) (h1 : -9223372036854775808 ≤ x)
    (h2 : x < 9223372036854775808) : wrap64 x = x := by
  unfold wrap64
  rw [Int.emod_eq_of_lt (by omega) (by omega)]
  omega

theorem included_iff (o : WindowOperator) (triggerTime : Int) (t : Tuple) :
    o.included triggerTime (o.scanDelta triggerTime) t = true ↔
      (t.Timestamp ≤ triggerTime ∧
        ((o.window.WType = .HOPPING_WINDOW ∨ o.window.WType = .SLIDING_WINDOW) →
          wrap64 (triggerTime - t.Timestamp) ≤
            wrap64 (o.window.Length + o.calDelta triggerTime 0))) := by
  unfold WindowOperator.included WindowOperator.scanDelta
  by_cases hw : o.window.WType = .HOPPING_WINDOW ∨ o.window.WType = .SLIDING_WINDOW
  · simp only [hw, if_true, Bool.and_eq_true, decide_eq_true_eq, forall_true_left, not_lt,
      gt_iff_lt]
    constructor
    · rintro ⟨a, b⟩; exact ⟨b, a⟩
    · rintro ⟨a, b⟩; exact ⟨b, a⟩
  · simp [hw]

theorem retained_iff (o : WindowOperator) (triggerTime : Int) (t : Tuple) :
    o.retained triggerTime (o.scanDelta triggerTime) t = true ↔
      (((o.window.WType = .HOPPING_WINDOW ∨ o.window.WType = .SLIDING_WINDOW) →
          wrap64 (triggerTime - t.Timestamp) ≤
            wrap64 (o.window.Length + o.calDelta triggerTime 0)) ∧
        (¬ (o.window.WType = .HOPPING_WINDOW ∨ o.window.WType = .SLIDING_WINDOW) →
          t.Timestamp > triggerTime)) := by
  unfold WindowOperator.retained WindowOperator.scanDelta
  by_cases hw : o.window.WType = .HOPPING_WINDOW ∨ o.window.WType = .SLIDING_WINDOW
  · simp [hw]
  · simp [hw]

/-- The result sets that scan broadcasts: none, or the one built from the
included tuples. -/
theorem scan_broadcast (o : WindowOperator) (inputs : List Tuple) (triggerTime : Int) :
    (inputs.filter (o.included triggerTime (o.scanDelta triggerTime)) = [] →
      o.scan inputs triggerTime =
        { inputs := inputs.filter (o.retained triggerTime (o.scanDelta triggerTime)),
          triggered := false, op := o, broadcast := [] }) ∧
    (inputs.filter (o.included triggerTime (o.scanDelta triggerTime)) ≠ [] →
      ∃ w, o.scan inputs triggerTime =
          { inputs := inputs.filter (o.retained triggerTime (o.scanDelta triggerTime)),
            triggered := true,
            op := { o with triggerTime := triggerTime, recordsOut := o.recordsOut + 1 },
            broadcast := [w] } ∧
        w.WindowStart = o.windowStart triggerTime ∧ w.WindowEnd = triggerTime ∧
        w.Content.Perm (inputs.filter (o.included triggerTime (o.scanDelta triggerTime))) ∧
        (o.isEventTime = false →
          w.Content = inputs.filter (o.included triggerTime (o.scanDelta triggerTime)))) := by
  constructor
  · intro hnil
    rw [scan_eq, if_pos hnil]
  · intro hne
    rw [scan_eq, if_neg hne]
    by_cases he : o.isEventTime = true
    · refine ⟨_, rfl, ?_, ?_, ?_, ?_⟩
      · simp [he, WindowTuplesSet.Sort]
      · simp [he, WindowTuplesSet.Sort]
      · simp only [he, if_true]
        exact sort_content_perm _
      · intro hf; rw [hf] at he; exact absurd he (by decide)
    · have he2 : o.isEventTime = false := by simpa using he
      refine ⟨_, rfl, ?_, ?_, ?_, ?_⟩ <;> simp [he2]

theorem filter_ne_nil_iff {β : Type} (p : β → Bool) (l : List β) :
    l.filter p ≠ [] ↔ ∃ t ∈ l, p t = true := by
  constructor
  · intro h
    obtain ⟨t, ht⟩ := List.exists_mem_of_ne_nil _ h
    exact ⟨t, (List.mem_filter.mp ht).1, (List.mem_filter.mp ht).2⟩
  · rintro ⟨t, ht, hp⟩ he
    have : t ∈ l.filter p := List.mem_filter.mpr ⟨ht, hp⟩
    rw [he] at this
    exact absurd this (List.not_mem_nil _)

theorem filter_included_eq (o : WindowOperator) (inputs : List Tuple) (triggerTime : Int) :
    inputs.filter (o.included triggerTime (o.scanDelta triggerTime)) =
      inputs.filter (fun t => decide (t.Timestamp ≤ triggerTime ∧
        ((o.window.WType = .HOPPING_WINDOW ∨ o.window.WType = .SLIDING_WINDOW) →
          wrap64 (triggerTime - t.Timestamp) ≤
            wrap64 (o.window.Length + o.calDelta triggerTime 0)))) := by
  apply List.filter_congr
  intro t _
  have h := included_iff o triggerTime t
  by_cases hc : o.included triggerTime (o.scanDelta triggerTime) t = true
  · rw [hc]; exact (decide_eq_true (h.mp hc)).symm
  · have hc2 : o.included triggerTime (o.scanDelta triggerTime) t = false := by simpa using hc
    rw [hc2]; exact (decide_eq_false (fun hp => hc (h.mpr hp))).symm

/-- C11 as stated fails: a hopping window of length 10 and interval 5 whose
previous trigger time is 100, scanned at 105 with tuples at 90 and 101 in the
buffer, emits a window that holds only the tuple at 101, although both
timestamps are at most 105; with only the tuple at 90 in the buffer it emits no
window at all. -/
theorem scan_hopping_drops_expired :
    ((WindowOperator.mk ⟨.HOPPING_WINDOW, 10, 5⟩ false 100 0 0).scan
        [⟨"demo", "a", 90⟩, ⟨"demo", "b", 101⟩] 105).broadcast =
      [{ Content := [⟨"demo", "b", 101⟩], WindowStart := 95, WindowEnd := 105 }] ∧
    [(⟨"demo", "a", 90⟩ : Tuple), ⟨"demo", "b", 101⟩].filter
        (fun t => decide (t.Timestamp ≤ 105)) =
      [⟨"demo", "a", 90⟩, ⟨"demo", "b", 101⟩] ∧
    ((WindowOperator.mk ⟨.HOPPING_WINDOW, 10, 5⟩ false 100 0 0).scan
        [⟨"demo", "a", 90⟩] 105).broadcast = [] ∧
    (⟨"demo", "a", 90⟩ : Tuple).Timestamp ≤ 105 := by
  decide

/-- C11, amended: for every window type, buffer and trigger time, the window
that scan emits consists of exactly the buffered tuples with timestamp at most
the trigger time that, for a hopping or sliding window, are not expired
(trigger time minus timestamp at most length plus delta, in int64 arithmetic,
delta being what calDelta returns); scan emits a window, and only one, if and
only if the buffer holds such a tuple. The content is in buffer order in
processing time and a rearrangement of it in event time. For the other window
types the condition is the timestamp alone. -/
theorem scan_window_content (o : WindowOperator) (inputs : List Tuple) (triggerTime : Int) :
    (∀ w ∈ (o.scan inputs triggerTime).broadcast,
      w.Content.Perm (inputs.filter (fun t => decide (t.Timestamp ≤ triggerTime ∧
        ((o.window.WType = .HOPPING_WINDOW ∨ o.window.WType = .SLIDING_WINDOW) →
          wrap64 (triggerTime - t.Timestamp) ≤
            wrap64 (o.window.Length + o.calDelta triggerTime 0))))) ∧
      (o.isEventTime = false →
        w.Content = inputs.filter (fun t => decide (t.Timestamp ≤ triggerTime ∧
          ((o.window.WType = .HOPPING_WINDOW ∨ o.window.WType = .SLIDING_WINDOW) →
            wrap64 (triggerTime - t.Timestamp) ≤
              wrap64 (o.window.Length + o.calDelta triggerTime 0)))))) ∧
    ((o.scan inputs triggerTime).broadcast ≠ [] ↔
      ∃ t ∈ inputs, t.Timestamp ≤ triggerTime ∧
        ((o.window.WType = .HOPPING_WINDOW ∨ o.window.WType = .SLIDING_WINDOW) →
          wrap64 (triggerTime - t.Timestamp) ≤
            wrap64 (o.window.Length + o.calDelta triggerTime 0))) ∧
    (o.scan inputs triggerTime).broadcast.length ≤ 1 ∧
    (¬ (o.window.WType = .HOPPING_WINDOW ∨ o.window.WType = .SLIDING_WINDOW) →
      (∀ w ∈ (o.scan inputs triggerTime).broadcast,
        w.Content.Perm (inputs.filter (fun t => decide (t.Timestamp ≤ triggerTime)))) ∧
      ((o.scan inputs triggerTime).broadcast ≠ [] ↔
        ∃ t ∈ inputs, t.Timestamp ≤ triggerTime)) := by
  obtain ⟨hnil, hcons⟩ := scan_broadcast o inputs triggerTime
  have hfe := filter_included_eq o inputs triggerTime
  have hex : inputs.filter (o.included triggerTime (o.scanDelta triggerTime)) ≠ [] ↔
      ∃ t ∈ inputs, t.Timestamp ≤ triggerTime ∧
        ((o.window.WType = .HOPPING_WINDOW ∨ o.window.WType = .SLIDING_WINDOW) →
          wrap64 (triggerTime - t.Timestamp) ≤
            wrap64 (o.window.Length + o.calDelta triggerTime 0)) := by
    rw [filter_ne_nil_iff]
    constructor
    · rintro ⟨t, ht, hp⟩; exact ⟨t, ht, (included_iff o triggerTime t).mp hp⟩
    · rintro ⟨t, ht, hp⟩; exact ⟨t, ht, (included_iff o triggerTime t).mpr hp⟩
  have hmain : (∀ w ∈ (o.scan inputs triggerTime).broadcast,
      w.Content.Perm (inputs.filter (o.included triggerTime (o.scanDelta triggerTime))) ∧
      (o.isEventTime = false →
        w.Content = inputs.filter (o.included triggerTime (o.scanDelta triggerTime)))) ∧
      ((o.scan inputs triggerTime).broadcast ≠ [] ↔
        inputs.filter (o.included triggerTime (o.scanDelta triggerTime)) ≠ []) ∧
      (o.scan inputs triggerTime).broadcast.length ≤ 1 := by
    by_cases hf : inputs.filter (o.included triggerTime (o.scanDelta triggerTime)) = []
    · rw [hnil hf]
      simp [hf]
    · obtain ⟨w, hw, _, _, hperm, heq⟩ := hcons hf
      rw [hw]
      simp only [List.mem_singleton, forall_eq, ne_eq, List.cons_ne_nil, not_false_eq_true,
        List.length_singleton, le_refl, true_iff, and_true]
      exact ⟨⟨hperm, heq⟩, hf⟩
  obtain ⟨hA, hB, hC⟩ := hmain
  refine ⟨?_, ?_, hC, ?_⟩
  · intro w hw
    rw [← hfe]
    exact hA w hw
  · exact hB.trans hex
  · intro hplain
    have hfp : inputs.filter (o.included triggerTime (o.scanDelta triggerTime)) =
        inputs.filter (fun t => decide (t.Timestamp ≤ triggerTime)) := by
      apply List.filter_congr
      intro t _
      simp [WindowOperator.included, hplain]
    refine ⟨fun w hw => ?_, ?_⟩
    · rw [← hfp]; exact (hA w hw).1
    · rw [hB, hfp, filter_ne_nil_iff]
      simp

/-- Witness of amended C11: a tumbling window with tuples at 1 and 11 scanned
at 10. -/
theorem scan_window_content_witness :
    ((WindowOperator.mk ⟨.TUMBLING_WINDOW, 10, 10⟩ false 0 0 0).scan
        [⟨"demo", "a", 1⟩, ⟨"demo", "b", 11⟩] 10).broadcast ≠ [] :=
  ((scan_window_content (WindowOperator.mk ⟨.TUMBLING_WINDOW, 10, 10⟩ false 0 0 0)
    [⟨"demo", "a", 1⟩, ⟨"demo", "b", 11⟩] 10).2.2.2 (by decide)).2.mpr
    ⟨⟨"demo", "a", 1⟩, by decide, by decide⟩

/-- C12: for a hopping or sliding window the buffer that scan returns is exactly
the input tuples with trigger time minus timestamp at most length plus delta, in
their original order, delta being the value calDelta returns for this scan. The
two sides of the comparison are the int64 values the code computes; when neither
wraps they are the mathematical difference and sum. -/
theorem scan_hopping_sliding_buffer (o : WindowOperator) (inputs : List Tuple)
    (triggerTime : Int)
    (hw : o.window.WType = .HOPPING_WINDOW ∨ o.window.WType = .SLIDING_WINDOW) :
    (o.scan inputs triggerTime).inputs =
      inputs.filter (fun t => decide (wrap64 (triggerTime - t.Timestamp) ≤
        wrap64 (o.window.Length + o.calDelta triggerTime 0))) ∧
    ((∀ t ∈ inputs, -9223372036854775808 ≤ triggerTime - t.Timestamp ∧
        triggerTime - t.Timestamp < 9223372036854775808) →
      -9223372036854775808 ≤ o.window.Length + o.calDelta triggerTime 0 →
      o.window.Length + o.calDelta triggerTime 0 < 9223372036854775808 →
      (o.scan inputs triggerTime).inputs =
        inputs.filter (fun t => decide (triggerTime - t.Timestamp ≤
          o.window.Length + o.calDelta triggerTime 0))) := by
  have hin : (o.scan inputs triggerTime).inputs =
      inputs.filter (o.retained triggerTime (o.scanDelta triggerTime)) := by
    rw [scan_eq]; split_ifs <;> rfl
  have hfirst : (o.scan inputs triggerTime).inputs =
      inputs.filter (fun t => decide (wrap64 (triggerTime - t.Timestamp) ≤
        wrap64 (o.window.Length + o.calDelta triggerTime 0))) := by
    rw [hin]
    apply List.filter_congr
    intro t _
    simp [WindowOperator.retained, WindowOperator.scanDelta, hw]
  refine ⟨hfirst, ?_⟩
  intro hr h1 h2
  rw [hfirst]
  apply List.filter_congr
  intro t ht
  rw [wrap64_of_range _ (hr t ht).1 (hr t ht).2, wrap64_of_range _ h1 h2]

/-- Witness of C12: a hopping window of length 10 and interval 5, previous
trigger time 100, scanned at 105 with tuples at 90 and 101. -/
theorem scan_hopping_sliding_buffer_witness :
    ((WindowOperator.mk ⟨.HOPPING_WINDOW, 10, 5⟩ false 100 0 0).scan
        [⟨"demo", "a", 90⟩, ⟨"demo", "b", 101⟩] 105).inputs =
      [(⟨"demo", "a", 90⟩ : Tuple), ⟨"demo", "b", 101⟩].filter
        (fun t => decide (105 - t.Timestamp ≤
          10 + (WindowOperator.mk ⟨.HOPPING_WINDOW, 10, 5⟩ false 100 0 0).calDelta 105 0)) :=
  (scan_hopping_sliding_buffer (WindowOperator.mk ⟨.HOPPING_WINDOW, 10, 5⟩ false 100 0 0)
    [⟨"demo", "a", 90⟩, ⟨"demo", "b", 101⟩] 105 (by decide)).2
    (by decide) (by decide) (by decide)

/-- C13 as stated fails: a hopping window of length 10 and interval 5 whose
previous trigger time is 100, scanned at 105, emits a window whose start is 95,
the previous trigger time minus the interval, and not 105 - 5. -/
theorem scan_hopping_start_from_previous :
    ((WindowOperator.mk ⟨.HOPPING_WINDOW, 10, 5⟩ false 100 0 0).scan
        [⟨"demo", "b", 101⟩] 105).broadcast =
      [{ Content := [⟨"demo", "b", 101⟩], WindowStart := 95, WindowEnd := 105 }] ∧
    (95 : Int) ≠ 105 - 5 := by
  decide

/-- C13, amended: whenever a hopping-window scan emits a window, its start is
the trigger time the operator held before this scan minus the interval (an
int64 subtraction, the mathematical one when it does not wrap), and its end is
the trigger time of the scan. -/
theorem scan_hopping_window_start (o : WindowOperator) (inputs : List Tuple)
    (triggerTime : Int) (hw : o.window.WType = .HOPPING_WINDOW) :
    ∀ w ∈ (o.scan inputs triggerTime).broadcast,
      w.WindowStart = wrap64 (o.triggerTime - o.window.Interval) ∧
      w.WindowEnd = triggerTime ∧
      (-9223372036854775808 ≤ o.triggerTime - o.window.Interval →
        o.triggerTime - o.window.Interval < 9223372036854775808 →
        w.WindowStart = o.triggerTime - o.window.Interval) := by
  obtain ⟨hnil, hcons⟩ := scan_broadcast o inputs triggerTime
  intro w hwm
  by_cases hf : inputs.filter (o.included triggerTime (o.scanDelta triggerTime)) = []
  · rw [hnil hf] at hwm
    exact absurd hwm (List.not_mem_nil _)
  · obtain ⟨w2, hw2, hs, he, _, _⟩ := hcons hf
    rw [hw2] at hwm
    have hww : w = w2 := by simpa using hwm
    subst hww
    have hstart : w.WindowStart = wrap64 (o.triggerTime - o.window.Interval) := by
      rw [hs]; simp [WindowOperator.windowStart, hw]
    refine ⟨hstart, he, fun h1 h2 => ?_⟩
    rw [hstart, wrap64_of_range _ h1 h2]

/-- Witness of amended C13: the hopping window of the counterexample. -/
theorem scan_hopping_window_start_witness :
    ({ Content := [⟨"demo", "b", 101⟩], WindowStart := 95, WindowEnd := 105 } : WindowTuplesSet) ∈
      ((WindowOperator.mk ⟨.HOPPING_WINDOW, 10, 5⟩ false 100 0 0).scan
        [⟨"demo", "b", 101⟩] 105).broadcast ∧
    ({ Content := [⟨"demo", "b", 101⟩], WindowStart := 95, WindowEnd := 105 } :
      WindowTuplesSet).WindowStart = wrap64 (100 - 5) :=
  ⟨by decide,
    (scan_hopping_window_start (WindowOperator.mk ⟨.HOPPING_WINDOW, 10, 5⟩ false 100 0 0)
      [⟨"demo", "b", 101⟩] 105 rfl
      { Content := [⟨"demo", "b", 101⟩], WindowStart := 95, WindowEnd := 105 }
      (by decide)).1⟩

/-- C14: whenever scan emits a window, its end is the trigger time of the scan;
its start is the trigger time the operator held before the scan for tumbling and
session windows, and the scan's trigger time minus the length for sliding
windows (an int64 subtraction, the mathematical one when it does not wrap). A
tumbling window with previous trigger time 0 scanned at 10 has start 0 and end
10. -/
theorem scan_window_range (o : WindowOperator) (inputs : List Tuple) (triggerTime : Int) :
    (∀ w ∈ (o.scan inputs triggerTime).broadcast,
      w.WindowEnd = triggerTime ∧
      (o.window.WType = .TUMBLING_WINDOW ∨ o.window.WType = .SESSION_WINDOW →
        w.WindowStart = o.triggerTime) ∧
      (o.window.WType = .SLIDING_WINDOW →
        w.WindowStart = wrap64 (triggerTime - o.window.Length) ∧
        (-9223372036854775808 ≤ triggerTime - o.window.Length →
          triggerTime - o.window.Length < 9223372036854775808 →
          w.WindowStart = triggerTime - o.window.Length))) ∧
    ((WindowOperator.mk ⟨.TUMBLING_WINDOW, 10, 10⟩ false 0 0 0).scan
        [⟨"demo", "a", 1⟩, ⟨"demo", "b", 3⟩, ⟨"demo", "c", 7⟩, ⟨"demo", "d", 11⟩,
          ⟨"demo", "e", 13⟩] 10).broadcast =
      [{ Content := [⟨"demo", "a", 1⟩, ⟨"demo", "b", 3⟩, ⟨"demo", "c", 7⟩],
         WindowStart := 0, WindowEnd := 10 }] := by
  obtain ⟨hnil, hcons⟩ := scan_broadcast o inputs triggerTime
  refine ⟨?_, by decide⟩
  intro w hwm
  by_cases hf : inputs.filter (o.included triggerTime (o.scanDelta triggerTime)) = []
  · rw [hnil hf] at hwm
    exact absurd hwm (List.not_mem_nil _)
  · obtain ⟨w2, hw2, hs, he, _, _⟩ := hcons hf
    rw [hw2] at hwm
    have hww : w = w2 := by simpa using hwm
    subst hww
    refine ⟨he, ?_, ?_⟩
    · rintro (ht | ht)
      · rw [hs]; simp [WindowOperator.windowStart, ht]
      · rw [hs]; simp [WindowOperator.windowStart, ht]
    · intro ht
      have hstart : w.WindowStart = wrap64 (triggerTime - o.window.Length) := by
        rw [hs]; simp [WindowOperator.windowStart, ht]
      refine ⟨hstart, fun h1 h2 => ?_⟩
      rw [hstart, wrap64_of_range _ h1 h2]

/-- Witness of C14: a session window whose previous trigger time is 1, with a
tuple at 4, scanned at 5. -/
theorem scan_window_range_witness :
    ({ Content := [⟨"demo", "a", 4⟩], WindowStart := 1, WindowEnd := 5 } : WindowTuplesSet) ∈
      ((WindowOperator.mk ⟨.SESSION_WINDOW, 5, 1⟩ false 1 0 0).scan
        [⟨"demo", "a", 4⟩] 5).broadcast ∧
    ({ Content := [⟨"demo", "a", 4⟩], WindowStart := 1, WindowEnd := 5 } :
      WindowTuplesSet).WindowStart =
      (WindowOperator.mk ⟨.SESSION_WINDOW, 5, 1⟩ false 1 0 0).triggerTime :=
  ⟨by decide,
    ((scan_window_range (WindowOperator.mk ⟨.SESSION_WINDOW, 5, 1⟩ false 1 0 0)
      [⟨"demo", "a", 4⟩] 5).1
      { Content := [⟨"demo", "a", 4⟩], WindowStart := 1, WindowEnd := 5 }
      (by decide)).2.1 (Or.inr rfl)⟩

/-- C15: scan returns triggered = true, broadcasts exactly one result set, adds
one to the records-out counter and sets the trigger time of the operator to the
trigger time of the scan if and only if at least one tuple was included in the
window (timestamp at most the trigger time and, for a hopping or sliding window,
not expired); otherwise it returns false, broadcasts nothing and leaves the
operator, trigger time and counter included, as it was. -/
theorem scan_trigger_effects (o : WindowOperator) (inputs : List Tuple) (triggerTime : Int) :
    ((o.scan inputs triggerTime).triggered = true ↔
      ∃ t ∈ inputs, t.Timestamp ≤ triggerTime ∧
        ((o.window.WType = .HOPPING_WINDOW ∨ o.window.WType = .SLIDING_WINDOW) →
          wrap64 (triggerTime - t.Timestamp) ≤
            wrap64 (o.window.Length + o.calDelta triggerTime 0))) ∧
    ((o.scan inputs triggerTime).triggered = true →
      (o.scan inputs triggerTime).broadcast.length = 1 ∧
      (o.scan inputs triggerTime).op =
        { o with triggerTime := triggerTime, recordsOut := o.recordsOut + 1 }) ∧
    ((o.scan inputs triggerTime).triggered = false →
      (o.scan inputs triggerTime).broadcast = [] ∧
      (o.scan inputs triggerTime).op = o) := by
  obtain ⟨hnil, hcons⟩ := scan_broadcast o inputs triggerTime
  have hex : inputs.filter (o.included triggerTime (o.scanDelta triggerTime)) ≠ [] ↔
      ∃ t ∈ inputs, t.Timestamp ≤ triggerTime ∧
        ((o.window.WType = .HOPPING_WINDOW ∨ o.window.WType = .SLIDING_WINDOW) →
          wrap64 (triggerTime - t.Timestamp) ≤
            wrap64 (o.window.Length + o.calDelta triggerTime 0)) := by
    rw [filter_ne_nil_iff]
    constructor
    · rintro ⟨t, ht, hp⟩; exact ⟨t, ht, (included_iff o triggerTime t).mp hp⟩
    · rintro ⟨t, ht, hp⟩; exact ⟨t, ht, (included_iff o triggerTime t).mpr hp⟩
  by_cases hf : inputs.filter (o.included triggerTime (o.scanDelta triggerTime)) = []
  · have hno : ¬ ∃ t ∈ inputs, t.Timestamp ≤ triggerTime ∧
        ((o.window.WType = .HOPPING_WINDOW ∨ o.window.WType = .SLIDING_WINDOW) →
          wrap64 (triggerTime - t.Timestamp) ≤
            wrap64 (o.window.Length + o.calDelta triggerTime 0)) :=
      fun h => (hex.mpr h) hf
    rw [hnil hf]
    simp [hno]
  · obtain ⟨w, hw, _⟩ := hcons hf
    rw [hw]
    simp [hex.mp hf]

/-- Witness of C15: a tumbling window with a tuple at 1 scanned at 10. -/
theorem scan_trigger_effects_witness :
    ((WindowOperator.mk ⟨.TUMBLING_WINDOW, 10, 10⟩ false 0 0 0).scan
        [⟨"demo", "a", 1⟩] 10).triggered = true ∧
    ((WindowOperator.mk ⟨.TUMBLING_WINDOW, 10, 10⟩ false 0 0 0).scan
        [⟨"demo", "a", 1⟩] 10).op = WindowOperator.mk ⟨.TUMBLING_WINDOW, 10, 10⟩ false 10 0 1 :=
  ⟨by decide,
    ((scan_trigger_effects (WindowOperator.mk ⟨.TUMBLING_WINDOW, 10, 10⟩ false 0 0 0)
      [⟨"demo", "a", 1⟩] 10).2.1 (by decide)).2⟩

/-! # Properties of the count window -/

theorem foldl_AddTuple (xs : List Tuple) (w : WindowTuplesSet) :
    xs.foldl WindowTuplesSet.AddTuple w = { w with Content := w.Content ++ xs } := by
  induction xs generalizing w with
  | nil => simp
  | cons x rest ih => simp [List.foldl, ih, WindowTuplesSet.AddTuple]

/-- A list that holds at least `s` tuples yields one window, the last `s`
tuples, whatever bound of at least one iteration the loop is given. -/
theorem drain_ready (B : List Tuple) (s : Nat) (hlen : s ≤ B.length)
    (fuel : Nat) (hf : 1 ≤ fuel) :
    TupleList.drain fuel { tuples := B, index := 0, size := (s : Int) } =
      some ([{ Content := B.drop (B.length - s), WindowStart := 0, WindowEnd := 0 }],
        { tuples := B, index := 1, size := (s : Int) }) := by
  obtain ⟨f, rfl⟩ : ∃ f, fuel = f + 1 := ⟨fuel - 1, by omega⟩
  have h1 : ¬ ((B.length : Int) < (s : Int)) := by omega
  have hsub : ((B.length : Int) - (s : Int)).toNat = B.length - s := by omega
  have hmore : (TupleList.mk B 0 (s : Int)).hasMoreCountWindow = true := by
    simp [TupleList.hasMoreCountWindow, h1]
  have hnext : (TupleList.mk B 0 (s : Int)).nextCountWindow =
      ({ Content := B.drop (B.length - s), WindowStart := 0, WindowEnd := 0 },
        { tuples := B, index := 1, size := (s : Int) }) := by
    simp [TupleList.nextCountWindow, foldl_AddTuple, hsub]
  have hstop : (TupleList.mk B 1 (s : Int)).hasMoreCountWindow = false := by
    simp [TupleList.hasMoreCountWindow]
  have hrest : TupleList.drain f { tuples := B, index := 1, size := (s : Int) } =
      some ([], { tuples := B, index := 1, size := (s : Int) }) := by
    cases f with
    | zero => simp [TupleList.drain, hstop]
    | succ f => simp [TupleList.drain, hstop]
  simp [TupleList.drain, hmore, hnext, hrest]

/-- A list that holds fewer than `s` tuples yields no window. -/
theorem drain_short (B : List Tuple) (s : Nat) (hlen : B.length < s) (fuel : Nat) :
    TupleList.drain fuel { tuples := B, index := 0, size := (s : Int) } =
      some ([], { tuples := B, index := 0, size := (s : Int) }) := by
  have h1 : (B.length : Int) < (s : Int) := by omega
  have hstop : (TupleList.mk B 0 (s : Int)).hasMoreCountWindow = false := by
    simp [TupleList.hasMoreCountWindow, h1]
  cases fuel with
  | zero => simp [TupleList.drain, hstop]
  | succ f => simp [TupleList.drain, hstop]

theorem getRestTuples_ready (B : List Tuple) (s : Nat) (hlen : s ≤ B.length) (ix : Int) :
    (TupleList.mk B ix (s : Int)).getRestTuples = B.drop (B.length - s + 1) := by
  have h1 : ¬ ((B.length : Int) < (s : Int)) := by omega
  have hsub : ((B.length : Int) - (s : Int) + 1).toNat = B.length - s + 1 := by omega
  simp [TupleList.getRestTuples, h1, hsub]

theorem getRestTuples_short (B : List Tuple) (s : Nat) (hlen : B.length < s) (ix : Int) :
    (TupleList.mk B ix (s : Int)).getRestTuples = B := by
  have h1 : (B.length : Int) < (s : Int) := by omega
  simp [TupleList.getRestTuples, h1]

/-- C18: for a TupleList built from a non-empty buffer and a size s of at least
one: when the buffer holds at least s tuples, the loop that calls
nextCountWindow while hasMoreCountWindow holds ends after one iteration and
yields exactly one window, the last s tuples in order, however many tuples the
buffer holds beyond s, and getRestTuples returns the last s - 1 tuples; when the
buffer holds fewer than s tuples no window is yielded and getRestTuples returns
the whole buffer. A buffer of seven tuples and size 3 yields the window of the
last three. -/
theorem tupleList_drain_once (B : List Tuple) (s : Nat) (hB : B ≠ []) (hs : 1 ≤ s) :
    NewTupleList B (s : Int) = some { tuples := B, index := 0, size := (s : Int) } ∧
    (s ≤ B.length →
      (∀ fuel, 1 ≤ fuel →
        TupleList.drain fuel { tuples := B, index := 0, size := (s : Int) } =
          some ([{ Content := B.drop (B.length - s), WindowStart := 0, WindowEnd := 0 }],
            { tuples := B, index := 1, size := (s : Int) })) ∧
      (B.drop (B.length - s)).length = s ∧
      B.take (B.length - s) ++ B.drop (B.length - s) = B ∧
      (TupleList.mk B 1 (s : Int)).getRestTuples = B.drop (B.length - s + 1) ∧
      (B.drop (B.length - s + 1)).length = s - 1) ∧
    (B.length < s →
      (∀ fuel, TupleList.drain fuel { tuples := B, index := 0, size := (s : Int) } =
        some ([], { tuples := B, index := 0, size := (s : Int) })) ∧
      (TupleList.mk B 0 (s : Int)).getRestTuples = B) ∧
    ((NewTupleList [⟨"demo", "a", 1⟩, ⟨"demo", "b", 2⟩, ⟨"demo", "c", 3⟩, ⟨"demo", "d", 4⟩,
          ⟨"demo", "e", 5⟩, ⟨"demo", "f", 6⟩, ⟨"demo", "g", 7⟩] 3).bind
        (fun tl => (tl.drain 8).map (fun r => (r.1, r.2.getRestTuples))) =
      some ([{ Content := [⟨"demo", "e", 5⟩, ⟨"demo", "f", 6⟩, ⟨"demo", "g", 7⟩],
               WindowStart := 0, WindowEnd := 0 }],
        [⟨"demo", "f", 6⟩, ⟨"demo", "g", 7⟩])) := by
  refine ⟨?_, ?_, ?_, by decide⟩
  · have h1 : ¬ ((s : Int) ≤ 0) := by omega
    have h2 : ¬ B.length = 0 := fun h => hB (List.length_eq_zero.mp h)
    simp [NewTupleList, h1, h2]
  · intro hlen
    refine ⟨fun fuel hf => drain_ready B s hlen fuel hf, ?_, ?_, ?_, ?_⟩
    · simp only [List.length_drop]; omega
    · exact List.take_append_drop _ _
    · exact getRestTuples_ready B s hlen 1
    · simp only [List.length_drop]; omega
  · intro hlen
    exact ⟨fun fuel => drain_short B s hlen fuel, getRestTuples_short B s hlen 0⟩

/-- Witness of C18: a buffer of four tuples and size 3. -/
theorem tupleList_drain_once_witness :
    TupleList.drain 5 { tuples := [⟨"demo", "a", 1⟩, ⟨"demo", "b", 2⟩, ⟨"demo", "c", 3⟩,
        ⟨"demo", "d", 4⟩], index := 0, size := ((3 : Nat) : Int) } =
      some ([{ Content := ([⟨"demo", "a", 1⟩, ⟨"demo", "b", 2⟩, ⟨"demo", "c", 3⟩,
                  ⟨"demo", "d", 4⟩] : List Tuple).drop
                ([(⟨"demo", "a", 1⟩ : Tuple), ⟨"demo", "b", 2⟩, ⟨"demo", "c", 3⟩,
                  ⟨"demo", "d", 4⟩].length - 3),
               WindowStart := 0, WindowEnd := 0 }],
        { tuples := [⟨"demo", "a", 1⟩, ⟨"demo", "b", 2⟩, ⟨"demo", "c", 3⟩, ⟨"demo", "d", 4⟩],
          index := 1, size := ((3 : Nat) : Int) }) :=
  ((tupleList_drain_once [⟨"demo", "a", 1⟩, ⟨"demo", "b", 2⟩, ⟨"demo", "c", 3⟩,
      ⟨"demo", "d", 4⟩] 3 (by decide) (by decide)).2.1 (by decide)).1 5 (by decide)

theorem goRem_nat (a i : Nat) (hi : 1 ≤ i) :
    goRem ((a : Int)) (i : Int) = some (((a % i : Nat) : Int)) := by
  have h0 : ¬ ((i : Int) = 0) := by omega
  simp only [goRem, h0, if_false, Option.some.injEq]
  rw [Int.tmod_eq_emod (Int.ofNat_nonneg a) (Int.ofNat_nonneg i)]
  exact Int.ofNat_mod_ofNat a i

/-- The arrival of a tuple at a count window of length `l` and interval `i`,
with `c` messages counted since the last multiple of `i`. -/
theorem countArrival_spec (o : WindowOperator) (inputs : List Tuple) (d : Tuple)
    (l i c : Nat) (hl : 1 ≤ l) (hi : 1 ≤ i)
    (hL : o.window.Length = (l : Int)) (hI : o.window.Interval = (i : Int))
    (hM : o.msgCount = (c : Int)) :
    (c + 1 < i →
      o.countArrival inputs d =
        some { inputs := inputs ++ [d], op := { o with msgCount := ((c + 1 : Nat) : Int) },
               broadcast := [], failed := false, putState := none }) ∧
    (c + 1 = i → (inputs ++ [d]).length < l →
      o.countArrival inputs d =
        some { inputs := inputs ++ [d], op := { o with msgCount := 0 },
               broadcast := [], failed := false, putState := some (inputs ++ [d], 0) }) ∧
    (c + 1 = i → l ≤ (inputs ++ [d]).length →
      o.countArrival inputs d =
        some { inputs := (inputs ++ [d]).drop ((inputs ++ [d]).length - l + 1),
               op := { o with msgCount := 0, recordsOut := o.recordsOut + 1 },
               broadcast := [{ Content := (inputs ++ [d]).drop ((inputs ++ [d]).length - l),
                               WindowStart := 0, WindowEnd := 0 }],
               failed := false,
               putState := some ((inputs ++ [d]).drop ((inputs ++ [d]).length - l + 1), 0) }) := by
  have hrem : goRem (o.msgCount + 1) o.window.Interval = some ((((c + 1) % i : Nat) : Int)) := by
    rw [hM, hI]
    have := goRem_nat (c + 1) i hi
    simpa using this
  have hnew : NewTupleList (inputs ++ [d]) o.window.Length =
      some { tuples := inputs ++ [d], index := 0, size := (l : Int) } := by
    have h1 : ¬ ((l : Int) ≤ 0) := by omega
    simp [NewTupleList, hL, h1]
  refine ⟨?_, ?_, ?_⟩
  · intro hlt
    have hmod : (c + 1) % i = c + 1 := Nat.mod_eq_of_lt hlt
    have hne : ¬ (((c + 1 : Nat) : Int) = 0) := by omega
    simp only [WindowOperator.countArrival, hrem, hmod]
    rw [if_pos (by simpa using hne)]
    simp [hM]
  · intro heq hshort
    have hmod : (c + 1) % i = 0 := by rw [heq]; exact Nat.mod_self i
    simp only [WindowOperator.countArrival, hrem, hmod, hnew]
    have hd := drain_short (inputs ++ [d]) l hshort ((inputs ++ [d]).length + 1)
    simp only [List.length_append, List.length_singleton] at hd
    simp [hd, getRestTuples_short _ _ hshort]
  · intro heq hready
    have hmod : (c + 1) % i = 0 := by rw [heq]; exact Nat.mod_self i
    simp only [WindowOperator.countArrival, hrem, hmod, hnew]
    have hd := drain_ready (inputs ++ [d]) l hready ((inputs ++ [d]).length + 1) (by omega)
    have hr := getRestTuples_ready (inputs ++ [d]) l hready 1
    simp only [List.length_append, List.length_singleton] at hd hr
    simp [hd, hr]

theorem succ_mod_of_lt (m i : Nat) (h : m % i + 1 < i) : (m + 1) % i = m % i + 1 := by
  rw [Nat.add_mod]
  have h1 : 1 % i = 1 := Nat.mod_eq_of_lt (by omega)
  rw [h1]
  exact Nat.mod_eq_of_lt h

theorem succ_mod_of_eq (m i : Nat) (h : m % i + 1 = i) : (m + 1) % i = 0 := by
  by_cases h1 : i = 1
  · subst h1; exact Nat.mod_one _
  · rw [Nat.add_mod]
    have h2 : 1 % i = 1 := Nat.mod_eq_of_lt (by omega)
    rw [h2, h]
    exact Nat.mod_self i

theorem dvd_succ_iff (m i : Nat) (hi : 1 ≤ i) : i ∣ m + 1 ↔ m % i + 1 = i := by
  have hlt : m % i < i := Nat.mod_lt m (by omega)
  constructor
  · intro hd
    by_contra hne
    have h2 : m % i + 1 < i := by omega
    have h3 := succ_mod_of_lt m i h2
    have h4 := Nat.mod_eq_zero_of_dvd hd
    omega
  · intro he
    exact Nat.dvd_of_mod_eq_zero (succ_mod_of_eq m i he)

theorem countBufferStart_le (l i m : Nat) (hl : 1 ≤ l) : countBufferStart l i m ≤ m := by
  unfold countBufferStart
  have hc : m % i ≤ m := Nat.mod_le m i
  split_ifs <;> omega

/-- The invariant is kept by the arrival of a tuple, which emits the last `l`
tuples of the stream when the number of arrivals is a multiple of `i` and at
least `l`, and nothing otherwise; the state is put in the store exactly at the
multiples of `i`. -/
theorem countInv_step (l i : Nat) (hl : 1 ≤ l) (hi : 1 ≤ i) (P inputs : List Tuple)
    (op : WindowOperator) (t : Tuple) (hinv : CountInv l i P inputs op) :
    ∃ a, op.countArrival inputs t = some a ∧
      CountInv l i (P ++ [t]) a.inputs a.op ∧
      a.broadcast =
        (if i ∣ P.length + 1 ∧ l ≤ P.length + 1 then
          [{ Content := (P ++ [t]).drop (P.length + 1 - l), WindowStart := 0, WindowEnd := 0 }]
        else []) ∧
      a.putState = (if i ∣ P.length + 1 then some (a.inputs, a.op.msgCount) else none) ∧
      a.failed = false ∧
      a.op.window = op.window ∧ a.op.isEventTime = op.isEventTime := by
  obtain ⟨hL, hI, hM, hB⟩ := hinv
  have hclt : P.length % i < i := Nat.mod_lt _ (by omega)
  have hcle : P.length % i ≤ P.length := Nat.mod_le _ _
  have hk := countBufferStart_le l i P.length hl
  have hspec := countArrival_spec op inputs t l i (P.length % i) hl hi hL hI hM
  have hbuf : inputs ++ [t] = (P ++ [t]).drop (countBufferStart l i P.length) := by
    rw [hB, List.drop_append_of_le_length hk]
  have hblen : (inputs ++ [t]).length = P.length - countBufferStart l i P.length + 1 := by
    rw [hB]; simp
  have hlen1 : (P ++ [t]).length = P.length + 1 := by simp
  by_cases hlt : P.length % i + 1 < i
  · have hmod := succ_mod_of_lt P.length i hlt
    have hnd : ¬ i ∣ P.length + 1 := by
      rw [dvd_succ_iff _ _ hi]; omega
    have hks : countBufferStart l i (P.length + 1) = countBufferStart l i P.length := by
      unfold countBufferStart
      rw [hmod]
      have e : P.length + 1 - (P.length % i + 1) = P.length - P.length % i := by omega
      rw [e]
    refine ⟨_, hspec.1 hlt, ⟨hL, hI, ?_, ?_⟩, ?_, ?_, rfl, rfl, rfl⟩
    · rw [hlen1, hmod]
    · rw [hlen1, hks]; exact hbuf
    · simp [hnd]
    · simp [hnd]
  · have heq : P.length % i + 1 = i := by omega
    have hmod := succ_mod_of_eq P.length i heq
    have hd : i ∣ P.length + 1 := (dvd_succ_iff _ _ hi).mpr heq
    by_cases hshort : (inputs ++ [t]).length < l
    · have hk0 : countBufferStart l i P.length = 0 := by
        by_contra hne
        unfold countBufferStart at hne hblen
        split_ifs at hne hblen with h1
        · omega
        · exact hne rfl
      have hml : ¬ l ≤ P.length + 1 := by
        rw [hk0] at hblen; omega
      have hks : countBufferStart l i (P.length + 1) = 0 := by
        unfold countBufferStart
        rw [hmod]
        have h2 : ¬ l ≤ P.length + 1 - 0 := by omega
        rw [if_neg h2]
      refine ⟨_, hspec.2.1 heq hshort, ⟨hL, hI, ?_, ?_⟩, ?_, ?_, rfl, rfl, rfl⟩
      · rw [hlen1, hmod]; rfl
      · rw [hlen1, hks, hbuf, hk0]
      · simp [hml]
      · simp [hd]
    · have hready : l ≤ (inputs ++ [t]).length := by omega
      have hml : l ≤ P.length + 1 := by omega
      have hks : countBufferStart l i (P.length + 1) = P.length + 1 - l + 1 := by
        unfold countBufferStart
        rw [hmod]
        have h2 : l ≤ P.length + 1 - 0 := by omega
        rw [if_pos h2]
        omega
      have hdrop1 : (inputs ++ [t]).drop ((inputs ++ [t]).length - l + 1) =
          (P ++ [t]).drop (P.length + 1 - l + 1) := by
        rw [hbuf, List.drop_drop, ← hbuf, hblen]
        congr 1
        omega
      have hdrop2 : (inputs ++ [t]).drop ((inputs ++ [t]).length - l) =
          (P ++ [t]).drop (P.length + 1 - l) := by
        rw [hbuf, List.drop_drop, ← hbuf, hblen]
        congr 1
        omega
      refine ⟨_, hspec.2.2 heq hready, ⟨hL, hI, ?_, ?_⟩, ?_, ?_, rfl, rfl, rfl⟩
      · rw [hlen1, hmod]; rfl
      · rw [hlen1, hks]; exact hdrop1
      · simp only [hd, hml, and_self, if_true]
        rw [hdrop2]
      · simp [hd]

theorem run_snoc (P : List Tuple) (t : Tuple) :
    ∀ r0 : CountRun, r0.run (P ++ [t]) = (r0.run P).bind (fun r => r.arrive t) := by
  induction P with
  | nil =>
    intro r0
    simp only [List.nil_append, CountRun.run, Option.some_bind]
    cases r0.arrive t <;> rfl
  | cons d ds ih =>
    intro r0
    simp only [List.cons_append, CountRun.run]
    cases h : r0.arrive d with
    | none => rfl
    | some r1 => exact ih r1

theorem arrive_of_countArrival (r : CountRun) (t : Tuple) (a : Arrival)
    (ha : r.op.countArrival r.inputs t = some a) :
    ∃ r1, r.arrive t = some r1 ∧ r1.inputs = a.inputs ∧ r1.op = a.op ∧
      r1.emitted = r.emitted ++ a.broadcast ∧
      r1.store = (match a.putState with
        | none => r.store
        | some p => (r.store.put WINDOW_INPUTS_KEY (.tuples p.1)).put MSG_COUNT_KEY (.int p.2)) := by
  simp [CountRun.arrive, ha]

/-- A count window of length `l` and interval `i` started with an empty buffer
and a zero message count never stops on a stream, and the invariant holds after
every prefix. -/
theorem countRun_inv (l i : Nat) (hl : 1 ≤ l) (hi : 1 ≤ i) (r0 : CountRun)
    (h0 : CountInv l i [] r0.inputs r0.op) (P : List Tuple) :
    ∃ r, r0.run P = some r ∧ CountInv l i P r.inputs r.op := by
  induction P using List.reverseRecOn with
  | nil => exact ⟨r0, rfl, h0⟩
  | append_singleton P t ih =>
    obtain ⟨r, hr, hinv⟩ := ih
    obtain ⟨a, ha, hinv2, _⟩ := countInv_step l i hl hi P r.inputs r.op t hinv
    obtain ⟨r1, hr1, hi1, ho1, _⟩ := arrive_of_countArrival r t a ha
    refine ⟨r1, ?_, ?_⟩
    · rw [run_snoc, hr]
      exact hr1
    · rw [hi1, ho1]; exact hinv2

theorem start_inv (l i : Nat) (now : Int) :
    CountInv l i [] (CountRun.start ⟨.COUNT_WINDOW, (l : Int), (i : Int)⟩ Store.empty now).inputs
      (CountRun.start ⟨.COUNT_WINDOW, (l : Int), (i : Int)⟩ Store.empty now).op := by
  refine ⟨rfl, rfl, ?_, ?_⟩
  · simp [CountRun.start, restoreState, Store.getState, Store.empty]
  · simp [CountRun.start, restoreState, Store.getState, Store.empty]

/-- C16: a processing-time count window with length l >= 1 and interval
i >= 1, started with an empty buffer and a zero message count, runs through
every stream; when the tuples of P have arrived, the arrival of the next tuple
t, the m-th with m = |P| + 1, emits a window if and only if i divides m and
m >= l, and then exactly one, holding the last l tuples of the stream in arrival
order. With l = 3 and i = 2 nothing is emitted after t2, the tuples t2, t3, t4
after t4 and t4, t5, t6 after t6. -/
theorem count_window_emission (l i : Nat) (hl : 1 ≤ l) (hi : 1 ≤ i) (now : Int)
    (P : List Tuple) (t : Tuple) :
    (((CountRun.start ⟨.COUNT_WINDOW, (l : Int), (i : Int)⟩ Store.empty now).run P).bind
        (fun r => (r.op.countArrival r.inputs t).map (fun a => a.broadcast)) =
      some (if i ∣ P.length + 1 ∧ l ≤ P.length + 1 then
        [{ Content := (P ++ [t]).drop (P.length + 1 - l), WindowStart := 0, WindowEnd := 0 }]
      else [])) ∧
    (l ≤ P.length + 1 → ((P ++ [t]).drop (P.length + 1 - l)).length = l) ∧
    ((((CountRun.start ⟨.COUNT_WINDOW, 3, 2⟩ Store.empty 0).run
          [⟨"demo", "t1", 1⟩, ⟨"demo", "t2", 2⟩]).map (fun r => r.emitted) = some []) ∧
      (((CountRun.start ⟨.COUNT_WINDOW, 3, 2⟩ Store.empty 0).run
          [⟨"demo", "t1", 1⟩, ⟨"demo", "t2", 2⟩, ⟨"demo", "t3", 3⟩, ⟨"demo", "t4", 4⟩]).map
          (fun r => (r.emitted, r.inputs)) =
        some ([{ Content := [⟨"demo", "t2", 2⟩, ⟨"demo", "t3", 3⟩, ⟨"demo", "t4", 4⟩],
                 WindowStart := 0, WindowEnd := 0 }],
          [⟨"demo", "t3", 3⟩, ⟨"demo", "t4", 4⟩])) ∧
      (((CountRun.start ⟨.COUNT_WINDOW, 3, 2⟩ Store.empty 0).run
          [⟨"demo", "t1", 1⟩, ⟨"demo", "t2", 2⟩, ⟨"demo", "t3", 3⟩, ⟨"demo", "t4", 4⟩,
            ⟨"demo", "t5", 5⟩, ⟨"demo", "t6", 6⟩]).map (fun r => r.emitted) =
        some [{ Content := [⟨"demo", "t2", 2⟩, ⟨"demo", "t3", 3⟩, ⟨"demo", "t4", 4⟩],
                WindowStart := 0, WindowEnd := 0 },
              { Content := [⟨"demo", "t4", 4⟩, ⟨"demo", "t5", 5⟩, ⟨"demo", "t6", 6⟩],
                WindowStart := 0, WindowEnd := 0 }])) := by
  refine ⟨?_, ?_, by decide, by decide, by decide⟩
  · obtain ⟨r, hr, hinv⟩ := countRun_inv l i hl hi _ (start_inv l i now) P
    obtain ⟨a, ha, _, hb, _⟩ := countInv_step l i hl hi P r.inputs r.op t hinv
    rw [hr]
    simp only [Option.some_bind, ha, Option.map_some', hb]
  · intro hc
    simp only [List.length_drop, List.length_append, List.length_singleton]
    omega

/-- Witness of C16: length 3, interval 2, the fourth tuple arrives and the
window of t2, t3, t4 is emitted. -/
theorem count_window_emission_witness :
    (1 ≤ 3 ∧ 1 ≤ 2) ∧
    ((CountRun.start ⟨.COUNT_WINDOW, ((3 : Nat) : Int), ((2 : Nat) : Int)⟩ Store.empty 0).run
        [⟨"demo", "t1", 1⟩, ⟨"demo", "t2", 2⟩, ⟨"demo", "t3", 3⟩]).bind
        (fun r => (r.op.countArrival r.inputs ⟨"demo", "t4", 4⟩).map (fun a => a.broadcast)) =
      some [{ Content := [⟨"demo", "t2", 2⟩, ⟨"demo", "t3", 3⟩, ⟨"demo", "t4", 4⟩],
              WindowStart := 0, WindowEnd := 0 }] :=
  ⟨by decide,
    (count_window_emission 3 2 (by decide) (by decide) 0
      [⟨"demo", "t1", 1⟩, ⟨"demo", "t2", 2⟩, ⟨"demo", "t3", 3⟩] ⟨"demo", "t4", 4⟩).1⟩

/-- The consecutive blocks of `n` tuples of a stream to which one tuple is
added: one more block when `n` divides the new number of tuples. -/
theorem blocks_snoc (n : Nat) (P : List Tuple) (t : Tuple) :
    (List.range ((P.length + 1) / n)).map
        (fun j => WindowTuplesSet.mk (((P ++ [t]).take ((j + 1) * n)).drop (j * n)) 0 0) =
      (List.range (P.length / n)).map
          (fun j => WindowTuplesSet.mk ((P.take ((j + 1) * n)).drop (j * n)) 0 0) ++
        (if n ∣ P.length + 1 then
          [WindowTuplesSet.mk ((P ++ [t]).drop (P.length + 1 - n)) 0 0]
        else []) := by
  have hold : ∀ j ∈ List.range (P.length / n),
      WindowTuplesSet.mk (((P ++ [t]).take ((j + 1) * n)).drop (j * n)) 0 0 =
        WindowTuplesSet.mk ((P.take ((j + 1) * n)).drop (j * n)) 0 0 := by
    intro j hj
    have hj2 : j + 1 ≤ P.length / n := by
      have := List.mem_range.mp hj
      omega
    have h1 : (j + 1) * n ≤ P.length / n * n := Nat.mul_le_mul_right n hj2
    have h2 : P.length / n * n ≤ P.length := Nat.div_mul_le_self _ _
    rw [List.take_append_of_le_length (le_trans h1 h2)]
  rw [Nat.succ_div]
  by_cases hd : n ∣ P.length + 1
  · rw [if_pos hd, if_pos hd, List.range_succ, List.map_append, List.map_singleton,
      List.map_congr_left hold]
    have h3 : (P.length + 1) / n * n = P.length + 1 := Nat.div_mul_cancel hd
    have h4 : (P.length + 1) / n = P.length / n + 1 := by
      rw [Nat.succ_div, if_pos hd]
    rw [h4] at h3
    have h5 : (P.length / n + 1) * n = P.length / n * n + n := Nat.succ_mul _ _
    have h6 : P.length / n * n = P.length + 1 - n := by omega
    have h7 : (P ++ [t]).take ((P.length / n + 1) * n) = P ++ [t] := by
      apply List.take_of_length_le
      simp only [List.length_append, List.length_singleton]
      omega
    rw [h7, h6]
  · rw [if_neg hd, if_neg hd, Nat.add_zero, List.append_nil, List.map_congr_left hold]

/-- The first `q` blocks of `n` tuples of a stream, put end to end, are its
first `q * n` tuples. -/
theorem blocks_flatten (n : Nat) (S : List Tuple) (q : Nat) :
    (((List.range q).map
        (fun j => WindowTuplesSet.mk ((S.take ((j + 1) * n)).drop (j * n)) 0 0)).map
        (fun w => w.Content)).flatten = S.take (q * n) := by
  induction q with
  | zero => simp
  | succ q ih =>
    rw [List.range_succ, List.map_append, List.map_append, List.flatten_append, ih]
    simp only [List.map_singleton, List.flatten_cons, List.flatten_nil, List.append_nil]
    have h1 : S.take (q * n) = (S.take ((q + 1) * n)).take (q * n) := by
      rw [List.take_take]
      congr 1
      have : q * n ≤ (q + 1) * n := Nat.mul_le_mul_right n (Nat.le_succ q)
      omega
    rw [h1]
    exact List.take_append_drop _ _

/-- A count window whose interval equals its length `n`, started empty, has
emitted the consecutive blocks of `n` tuples of the stream after every prefix. -/
theorem countRun_tumbling (n : Nat) (hn : 1 ≤ n) (now : Int) (S : List Tuple) :
    ∃ r, (CountRun.start ⟨.COUNT_WINDOW, (n : Int), (n : Int)⟩ Store.empty now).run S = some r ∧
      CountInv n n S r.inputs r.op ∧
      r.emitted = (List.range (S.length / n)).map
        (fun j => WindowTuplesSet.mk ((S.take ((j + 1) * n)).drop (j * n)) 0 0) := by
  induction S using List.reverseRecOn with
  | nil =>
    refine ⟨_, rfl, start_inv n n now, ?_⟩
    simp [CountRun.start]
  | append_singleton P t ih =>
    obtain ⟨r, hr, hinv, hem⟩ := ih
    obtain ⟨a, ha, hinv2, hb, _⟩ := countInv_step n n hn hn P r.inputs r.op t hinv
    obtain ⟨r1, hr1, hi1, ho1, he1, _⟩ := arrive_of_countArrival r t a ha
    refine ⟨r1, ?_, ?_, ?_⟩
    · rw [run_snoc, hr]
      exact hr1
    · rw [hi1, ho1]; exact hinv2
    · have hlen : (P ++ [t]).length = P.length + 1 := by simp
      rw [he1, hem, hb, hlen, blocks_snoc]
      congr 1
      by_cases hd : n ∣ P.length + 1
      · have hle : n ≤ P.length + 1 := Nat.le_of_dvd (by omega) hd
        rw [if_pos ⟨hd, hle⟩, if_pos hd]
      · rw [if_neg hd, if_neg (fun h => hd h.1)]

/-- C17: a count window whose interval equals its length n >= 1, started with
an empty buffer, runs through every stream S and emits exactly the consecutive
blocks of n tuples: the windows emitted are, in order, the blocks
(t_(jn+1), ..., t_((j+1)n)) for j = 0, ..., |S| / n - 1, each of n tuples, and
put end to end they are the stream up to its last multiple of n, so no tuple is
in two windows and none is skipped; after an emission the buffer nevertheless
holds the last n - 1 tuples. With n = 2 and five tuples the windows are
(t1, t2) and (t3, t4), and the buffer is (t4) after t4. -/
theorem count_window_tumbling_partition (n : Nat) (hn : 1 ≤ n) (now : Int) (S : List Tuple) :
    (((CountRun.start ⟨.COUNT_WINDOW, (n : Int), (n : Int)⟩ Store.empty now).run S).map
        (fun r => r.emitted) =
      some ((List.range (S.length / n)).map
        (fun j => WindowTuplesSet.mk ((S.take ((j + 1) * n)).drop (j * n)) 0 0))) ∧
    (∀ j, j < S.length / n → ((S.take ((j + 1) * n)).drop (j * n)).length = n) ∧
    (((CountRun.start ⟨.COUNT_WINDOW, (n : Int), (n : Int)⟩ Store.empty now).run S).map
        (fun r => (r.emitted.map (fun w => w.Content)).flatten) =
      some (S.take (S.length - S.length % n))) ∧
    (n ∣ S.length → 1 ≤ S.length →
      ((CountRun.start ⟨.COUNT_WINDOW, (n : Int), (n : Int)⟩ Store.empty now).run S).map
          (fun r => r.inputs) = some (S.drop (S.length - n + 1)) ∧
        (S.drop (S.length - n + 1)).length = n - 1) ∧
    (((CountRun.start ⟨.COUNT_WINDOW, 2, 2⟩ Store.empty 0).run
          [⟨"demo", "t1", 1⟩, ⟨"demo", "t2", 2⟩, ⟨"demo", "t3", 3⟩, ⟨"demo", "t4", 4⟩,
            ⟨"demo", "t5", 5⟩]).map (fun r => r.emitted) =
        some [WindowTuplesSet.mk [⟨"demo", "t1", 1⟩, ⟨"demo", "t2", 2⟩] 0 0,
              WindowTuplesSet.mk [⟨"demo", "t3", 3⟩, ⟨"demo", "t4", 4⟩] 0 0]) ∧
    (((CountRun.start ⟨.COUNT_WINDOW, 2, 2⟩ Store.empty 0).run
          [⟨"demo", "t1", 1⟩, ⟨"demo", "t2", 2⟩, ⟨"demo", "t3", 3⟩, ⟨"demo", "t4", 4⟩]).map
          (fun r => r.inputs) = some [⟨"demo", "t4", 4⟩]) := by
  obtain ⟨r, hr, hinv, hem⟩ := countRun_tumbling n hn now S
  have hdm : S.length / n * n ≤ S.length := Nat.div_mul_le_self _ _
  have hdm2 : S.length / n * n = S.length - S.length % n := by
    have h := Nat.div_add_mod S.length n
    rw [Nat.mul_comm] at h
    omega
  refine ⟨?_, ?_, ?_, ?_, by decide, by decide⟩
  · rw [hr, Option.map_some', hem]
  · intro j hj
    have h1 : (j + 1) * n ≤ S.length / n * n := Nat.mul_le_mul_right n hj
    have h2 : (j + 1) * n = j * n + n := Nat.succ_mul _ _
    simp only [List.length_drop, List.length_take]
    omega
  · rw [hr, Option.map_some', hem, blocks_flatten, hdm2]
  · intro hd hpos
    have hle : n ≤ S.length := Nat.le_of_dvd (by omega) hd
    have hmod : S.length % n = 0 := Nat.mod_eq_zero_of_dvd hd
    refine ⟨?_, ?_⟩
    · rw [hr, Option.map_some', hinv.2.2.2]
      congr 2
      unfold countBufferStart
      rw [hmod, if_pos (by omega)]
      omega
    · simp only [List.length_drop]
      omega

/-- Witness of C17: length and interval 2, four tuples. -/
theorem count_window_tumbling_partition_witness :
    1 ≤ 2 ∧
    ((CountRun.start ⟨.COUNT_WINDOW, ((2 : Nat) : Int), ((2 : Nat) : Int)⟩ Store.empty 7).run
        [⟨"demo", "t1", 1⟩, ⟨"demo", "t2", 2⟩, ⟨"demo", "t3", 3⟩, ⟨"demo", "t4", 4⟩]).map
        (fun r => (r.emitted.map (fun w => w.Content)).flatten) =
      some (([⟨"demo", "t1", 1⟩, ⟨"demo", "t2", 2⟩, ⟨"demo", "t3", 3⟩, ⟨"demo", "t4", 4⟩] :
          List Tuple).take
        (([⟨"demo", "t1", 1⟩, ⟨"demo", "t2", 2⟩, ⟨"demo", "t3", 3⟩, ⟨"demo", "t4", 4⟩] :
            List Tuple).length -
          ([⟨"demo", "t1", 1⟩, ⟨"demo", "t2", 2⟩, ⟨"demo", "t3", 3⟩, ⟨"demo", "t4", 4⟩] :
            List Tuple).length % 2)) :=
  ⟨by decide,
    (count_window_tumbling_partition 2 (by decide) 7
      [⟨"demo", "t1", 1⟩, ⟨"demo", "t2", 2⟩, ⟨"demo", "t3", 3⟩, ⟨"demo", "t4", 4⟩]).2.2.1⟩

/-- C19: a count window of length 3 and interval 2 that receives t1, ..., t5
without interruption emits the window (t2, t3, t4). Stopped after t1 it has put
nothing in the store (the iteration ends before the state is put when the
message count is not a multiple of the interval); started again from that store
and given t2, ..., t5 it emits (t3, t4, t5) and never (t2, t3, t4). Stopped
after t2, where the state was put, it emits the same window as the
uninterrupted run. -/
theorem count_window_crash_changes_windows :
    (((CountRun.start ⟨.COUNT_WINDOW, 3, 2⟩ Store.empty 0).run
          [⟨"demo", "t1", 1⟩, ⟨"demo", "t2", 2⟩, ⟨"demo", "t3", 3⟩, ⟨"demo", "t4", 4⟩,
            ⟨"demo", "t5", 5⟩]).map (fun r => r.emitted) =
        some [WindowTuplesSet.mk
          [⟨"demo", "t2", 2⟩, ⟨"demo", "t3", 3⟩, ⟨"demo", "t4", 4⟩] 0 0]) ∧
    (((CountRun.start ⟨.COUNT_WINDOW, 3, 2⟩ Store.empty 0).run [⟨"demo", "t1", 1⟩]).map
        (fun r => (r.inputs, r.op.msgCount, r.store.get WINDOW_INPUTS_KEY,
          r.store.get MSG_COUNT_KEY)) =
        some ([⟨"demo", "t1", 1⟩], 1, none, none)) ∧
    (CountRun.crashRestart ⟨.COUNT_WINDOW, 3, 2⟩ 0 0 [⟨"demo", "t1", 1⟩]
        [⟨"demo", "t2", 2⟩, ⟨"demo", "t3", 3⟩, ⟨"demo", "t4", 4⟩, ⟨"demo", "t5", 5⟩] =
      some [WindowTuplesSet.mk
        [⟨"demo", "t3", 3⟩, ⟨"demo", "t4", 4⟩, ⟨"demo", "t5", 5⟩] 0 0]) ∧
    (CountRun.crashRestart ⟨.COUNT_WINDOW, 3, 2⟩ 0 0 [⟨"demo", "t1", 1⟩, ⟨"demo", "t2", 2⟩]
        [⟨"demo", "t3", 3⟩, ⟨"demo", "t4", 4⟩, ⟨"demo", "t5", 5⟩] =
      some [WindowTuplesSet.mk
        [⟨"demo", "t2", 2⟩, ⟨"demo", "t3", 3⟩, ⟨"demo", "t4", 4⟩] 0 0]) := by
  refine ⟨by decide, by decide, by decide, by decide⟩

/-- C20: the three state keys are pairwise distinct, and the restore of Exec on
a state in which a buffer, a trigger time and a message count are held under
them, as a tuple slice, an int64 and an int, yields exactly that buffer, trigger
time and message count and no error; this is so of every store in which the
three were put, in whatever order, whatever it held before. -/
theorem restore_after_persist (getState : String → Except String (Option StateValue))
    (inputs : List Tuple) (tt mc now : Int)
    (h1 : getState WINDOW_INPUTS_KEY = .ok (some (.tuples inputs)))
    (h2 : getState TRIGGER_TIME_KEY = .ok (some (.int64 tt)))
    (h3 : getState MSG_COUNT_KEY = .ok (some (.int mc))) :
    restoreState getState now =
      { inputs := inputs, triggerTime := tt, msgCount := mc, errors := [] } ∧
    (WINDOW_INPUTS_KEY = "$$windowInputs" ∧ TRIGGER_TIME_KEY = "$$triggerTime" ∧
      MSG_COUNT_KEY = "$$msgCount") ∧
    (WINDOW_INPUTS_KEY ≠ TRIGGER_TIME_KEY ∧ WINDOW_INPUTS_KEY ≠ MSG_COUNT_KEY ∧
      TRIGGER_TIME_KEY ≠ MSG_COUNT_KEY) ∧
    (∀ s : Store,
      restoreState (((s.put WINDOW_INPUTS_KEY (.tuples inputs)).put TRIGGER_TIME_KEY
          (.int64 tt)).put MSG_COUNT_KEY (.int mc)).getState now =
        { inputs := inputs, triggerTime := tt, msgCount := mc, errors := [] } ∧
      restoreState (((s.put MSG_COUNT_KEY (.int mc)).put TRIGGER_TIME_KEY
          (.int64 tt)).put WINDOW_INPUTS_KEY (.tuples inputs)).getState now =
        { inputs := inputs, triggerTime := tt, msgCount := mc, errors := [] }) := by
  have k12 : WINDOW_INPUTS_KEY ≠ TRIGGER_TIME_KEY := by decide
  have k13 : WINDOW_INPUTS_KEY ≠ MSG_COUNT_KEY := by decide
  have k23 : TRIGGER_TIME_KEY ≠ MSG_COUNT_KEY := by decide
  refine ⟨?_, ⟨rfl, rfl, rfl⟩, ⟨k12, k13, k23⟩, ?_⟩
  · simp [restoreState, h1, h2, h3]
  · intro s
    constructor
    · simp [restoreState, Store.getState, Store.put, k12, k13, k23, k12.symm, k13.symm,
        k23.symm]
    · simp [restoreState, Store.getState, Store.put, k12, k13, k23, k12.symm, k13.symm,
        k23.symm]

/-- Witness of C20: a buffer of two tuples, trigger time 1000 and message
count 1, put in the empty store. -/
theorem restore_after_persist_witness :
    restoreState (((Store.empty.put WINDOW_INPUTS_KEY
        (.tuples [⟨"demo", "a", 1⟩, ⟨"demo", "b", 2⟩])).put TRIGGER_TIME_KEY
        (.int64 1000)).put MSG_COUNT_KEY (.int 1)).getState 5 =
      { inputs := [⟨"demo", "a", 1⟩, ⟨"demo", "b", 2⟩], triggerTime := 1000, msgCount := 1,
        errors := [] } :=
  (restore_after_persist
    (((Store.empty.put WINDOW_INPUTS_KEY
        (.tuples [⟨"demo", "a", 1⟩, ⟨"demo", "b", 2⟩])).put TRIGGER_TIME_KEY
        (.int64 1000)).put MSG_COUNT_KEY (.int 1)).getState
    [⟨"demo", "a", 1⟩, ⟨"demo", "b", 2⟩] 1000 1 5 (by rfl) (by rfl) (by rfl)).1

/-! # Properties of the resume block and of the timers -/

/-- The periodic replay loop entered with `next = c` calls scan at
`c + p, ..., c + k * p` when these are the trigger times up to `nextTick`, and
is then left, whatever bound above `k` its iterations are given. -/
theorem replayPeriodic_spec (p N : Int) (hp : 0 < p) (k : Nat) :
    ∀ r : Replay,
      -9223372036854775808 ≤ r.next →
      r.next + ((k : Int) + 1) * p < 9223372036854775808 →
      (k = 0 ∨ r.next + (k : Int) * p ≤ N) → N < r.next + ((k : Int) + 1) * p →
      ∃ r1, (∀ fuel, k + 1 ≤ fuel → replayPeriodic p N fuel r = .done r1) ∧
        r1.scans =
          r.scans ++ (List.range k).map (fun (j : Nat) => r.next + ((j : Int) + 1) * p) := by
  induction k with
  | zero =>
    intro r hlo hhi _ hN
    have hw : wrap64 (r.next + p) = r.next + p :=
      wrap64_of_range _ (by linarith) (by simpa using hhi)
    refine ⟨{ r with next := r.next + p }, ?_, by simp⟩
    intro fuel hf
    obtain ⟨f, rfl⟩ : ∃ f, fuel = f + 1 := ⟨fuel - 1, by omega⟩
    have hgt : r.next + p > N := by simpa using hN
    simp only [replayPeriodic, hw, hgt, if_true]
  | succ k ih =>
    intro r hlo hhi hle hN
    have hkp : 0 ≤ (k : Int) * p := mul_nonneg (Int.ofNat_nonneg k) (le_of_lt hp)
    have hcast : ((k + 1 : Nat) : Int) = (k : Int) + 1 := by push_cast; rfl
    rw [hcast] at hhi hle hN
    have hle2 : r.next + ((k : Int) + 1) * p ≤ N := by
      rcases hle with h | h
      · exact absurd h (Nat.succ_ne_zero k)
      · exact h
    have hw : wrap64 (r.next + p) = r.next + p :=
      wrap64_of_range _ (by linarith) (by nlinarith)
    have hng : ¬ r.next + p > N := by
      have : r.next + p ≤ N := by nlinarith
      exact not_lt.mpr this
    obtain ⟨r1, hr1, hs1⟩ := ih
      { inputs := (r.op.scan r.inputs (r.next + p)).inputs,
        op := (r.op.scan r.inputs (r.next + p)).op, next := r.next + p,
        scans := r.scans ++ [r.next + p],
        broadcast := r.broadcast ++ (r.op.scan r.inputs (r.next + p)).broadcast }
      (by show -9223372036854775808 ≤ r.next + p; linarith)
      (by show r.next + p + ((k : Int) + 1) * p < 9223372036854775808; linarith)
      (Or.inr (by show r.next + p + (k : Int) * p ≤ N; linarith))
      (by show N < r.next + p + ((k : Int) + 1) * p; linarith)
    refine ⟨r1, ?_, ?_⟩
    · intro fuel hf
      obtain ⟨f, rfl⟩ : ∃ f, fuel = f + 1 := ⟨fuel - 1, by omega⟩
      simp only [replayPeriodic, hw, hng, if_false]
      exact hr1 f (by omega)
    · rw [hs1, List.range_succ_eq_map, List.map_cons, List.map_map, List.append_assoc]
      congr 1
      simp only [List.singleton_append, Nat.cast_zero, zero_add, one_mul]
      congr 1
      apply List.map_congr_left
      intro j _
      simp only [Function.comp, Nat.cast_succ]
      ring

/-- The number of trigger times `T + p, T + 2 p, ...` up to `N`. -/
theorem replay_count_iff (T p N : Int) (hp : 0 < p) (j : Nat) :
    j < ((N - T) / p).toNat ↔ T + ((j : Int) + 1) * p ≤ N := by
  have h1 : (j : Int) + 1 ≤ (N - T) / p ↔ ((j : Int) + 1) * p ≤ N - T :=
    Int.le_ediv_iff_mul_le hp
  constructor
  · intro h
    have : (j : Int) + 1 ≤ (N - T) / p := by omega
    have := h1.mp this
    linarith
  · intro h
    have : (j : Int) + 1 ≤ (N - T) / p := h1.mpr (by linarith)
    omega

/-- C21: a tumbling or hopping window with period p > 0 (the length of a
tumbling window, the interval of a hopping one) that starts with a restored
non-empty buffer and trigger time T > 0 leaves the resume block after running
scan at the trigger times T + j * p, j = 1, 2, ..., that are at most now + p,
the time of the next tick, in increasing order, and at no other time: there are
K = max 0 ((now + p - T) / p) of them. The times are int64 values; now + 2 p and
T + p are taken to be in range. With T = 100, p = 10 and now = 125 the scans are
at 110, 120 and 130. -/
theorem resume_periodic_replay (o : WindowOperator) (inputs : List Tuple) (now : Int)
    (hty : o.window.WType = .TUMBLING_WINDOW ∨ o.window.WType = .HOPPING_WINDOW)
    (hin : inputs ≠ []) (hT : 0 < o.triggerTime) (hp : 0 < o.interval)
    (hnow : -9223372036854775808 ≤ now)
    (hr1 : now + 2 * o.interval < 9223372036854775808)
    (hr2 : o.triggerTime + o.interval < 9223372036854775808) :
    (∀ fuel, ((now + o.interval - o.triggerTime) / o.interval).toNat + 1 ≤ fuel →
      (o.resume inputs now fuel).scans =
        some ((List.range ((now + o.interval - o.triggerTime) / o.interval).toNat).map
          (fun (j : Nat) => o.triggerTime + ((j : Int) + 1) * o.interval))) ∧
    (∀ j : Nat, j < ((now + o.interval - o.triggerTime) / o.interval).toNat ↔
      o.triggerTime + ((j : Int) + 1) * o.interval ≤ now + o.interval) ∧
    (∀ j : Nat, o.triggerTime + ((j : Int) + 1) * o.interval <
      o.triggerTime + (((j + 1 : Nat) : Int) + 1) * o.interval) ∧
    ((WindowOperator.resume ⟨⟨.TUMBLING_WINDOW, 10, 10⟩, false, 100, 0, 0⟩
        [⟨"demo", "a", 95⟩, ⟨"demo", "b", 115⟩] 125 9).scans = some [110, 120, 130]) := by
  have hiff := replay_count_iff o.triggerTime o.interval (now + o.interval) hp
  refine ⟨?_, hiff, ?_, by decide⟩
  · set K := ((now + o.interval - o.triggerTime) / o.interval).toNat with hK
    have hwN : wrap64 (now + o.interval) = now + o.interval :=
      wrap64_of_range _ (by linarith) (by linarith)
    have hlen : inputs.length > 0 := List.length_pos.mpr hin
    have hKle : K = 0 ∨ o.triggerTime + (K : Int) * o.interval ≤ now + o.interval := by
      rcases Nat.eq_zero_or_pos K with h0 | hpos
      · exact Or.inl h0
      · right
        have := (hiff (K - 1)).mp (by omega)
        have hc : ((K - 1 : Nat) : Int) + 1 = (K : Int) := by omega
        rw [hc] at this
        exact this
    have hKlt : now + o.interval < o.triggerTime + ((K : Int) + 1) * o.interval := by
      have := (hiff K).not.mp (lt_irrefl K)
      exact not_le.mp this
    have hhi : o.triggerTime + ((K : Int) + 1) * o.interval < 9223372036854775808 := by
      rcases hKle with h0 | h
      · rw [h0]; simpa using hr2
      · linarith
    obtain ⟨r1, hr, hs⟩ := replayPeriodic_spec o.interval (now + o.interval) hp K
      { inputs := inputs, op := o, next := o.triggerTime, scans := [], broadcast := [] }
      (by show -9223372036854775808 ≤ o.triggerTime; linarith) hhi hKle hKlt
    intro fuel hf
    have hrun : o.resume inputs now fuel = .done r1 := by
      have h := hr fuel hf
      unfold WindowOperator.resume
      rcases hty with ht | ht
      · simp only [WindowOperator.tickerPeriod, ht, hlen, hT, hwN, gt_iff_lt, and_self, if_true]
        exact h
      · simp only [WindowOperator.tickerPeriod, ht, hlen, hT, hwN, gt_iff_lt, and_self, if_true]
        exact h
    rw [hrun]
    simp only [Resume.scans, hs, List.nil_append]
  · intro j
    have : ((j + 1 : Nat) : Int) = (j : Int) + 1 := by push_cast; rfl
    rw [this]
    linarith

/-- Witness of C21: a hopping window of interval 10 restored with trigger time
100 at time 105 scans at 110. -/
theorem resume_periodic_replay_witness :
    (WindowOperator.resume ⟨⟨.HOPPING_WINDOW, 30, 10⟩, false, 100, 0, 0⟩
        [⟨"demo", "a", 95⟩] 105 2).scans =
      some ((List.range ((105 + (WindowOperator.mk ⟨.HOPPING_WINDOW, 30, 10⟩ false 100 0
          0).interval - 100) / 10).toNat).map
        (fun (j : Nat) => (WindowOperator.mk ⟨.HOPPING_WINDOW, 30, 10⟩ false 100 0 0).triggerTime +
          ((j : Int) + 1) *
            (WindowOperator.mk ⟨.HOPPING_WINDOW, 30, 10⟩ false 100 0 0).interval)) :=
  (resume_periodic_replay ⟨⟨.HOPPING_WINDOW, 30, 10⟩, false, 100, 0, 0⟩
    [⟨"demo", "a", 95⟩] 105 (by decide) (by decide) (by decide) (by decide) (by decide)
    (by decide) (by decide)).1 2 (by decide)

/-- C21, as stated, fails: a tumbling window of length 10 restored with trigger
time 100 and started at time 105 runs scan at 110, a trigger time that is not
at most now; started at time 100 it does the same. -/
theorem resume_replays_beyond_now :
    (WindowOperator.resume ⟨⟨.TUMBLING_WINDOW, 10, 10⟩, false, 100, 0, 0⟩
        [⟨"demo", "a", 95⟩] 105 5).scans = some [110] ∧
    ¬ ((110 : Int) ≤ 105) ∧
    (WindowOperator.resume ⟨⟨.TUMBLING_WINDOW, 10, 10⟩, false, 100, 0, 0⟩
        [⟨"demo", "a", 95⟩] 100 5).scans = some [110] := by
  refine ⟨by decide, by decide, by decide⟩

/-- C22: a session window of length 10000 and interval 1000 that is restored
with the buffer (t1), t1 of timestamp 1000, and trigger time 1000, the state it
put in the store after its first tuple, and started at time 5000, stops in a
run-time panic whatever bound its replay loop is given beyond one iteration:
the first iteration runs scan at 1000, which emits t1 and empties the buffer,
and the second reads `inputs[0]` of the empty buffer. -/
theorem resume_session_panics :
    (∀ fuel, WindowOperator.resume ⟨⟨.SESSION_WINDOW, 10000, 1000⟩, false, 1000, 0, 0⟩
        [⟨"demo", "t1", 1000⟩] 5000 (fuel + 2) = .panic) ∧
    ((WindowOperator.mk ⟨.SESSION_WINDOW, 10000, 1000⟩ false 1000 0 0).scan
        [⟨"demo", "t1", 1000⟩] 1000).inputs = [] ∧
    ((WindowOperator.mk ⟨.SESSION_WINDOW, 10000, 1000⟩ false 0 0 0).tupleArrival []
        none ⟨"demo", "t1", 1000⟩ 1000).map (fun s => s.puts) =
      some [(TRIGGER_TIME_KEY, .int64 1000),
        (WINDOW_INPUTS_KEY, .tuples [⟨"demo", "t1", 1000⟩]), (MSG_COUNT_KEY, .int 0)] := by
  refine ⟨?_, by decide, by decide⟩
  intro fuel
  rfl

/-- C23: when the ticker fires with time n, scan runs, once and with trigger
time n, exactly when the buffer is not empty and, for a session window, the
int64 value n - length is not below the timestamp of the first buffered tuple;
the step is then that of scan(inputs, n) followed by the two state puts.
Otherwise nothing is scanned, broadcast or put and the buffer, the operator with
its trigger time and the timer are unchanged. The int64 value is n - length
when that is in range. -/
theorem ticker_scan_iff (o : WindowOperator) (inputs : List Tuple)
    (timeoutTicker : Option Timer) (n : Int) :
    ((o.onTicker inputs timeoutTicker n).scans = [n] ↔
      ∃ first rest, inputs = first :: rest ∧
        (o.window.WType = .SESSION_WINDOW → first.Timestamp ≤ wrap64 (n - o.window.Length))) ∧
    ((o.onTicker inputs timeoutTicker n).scans = [n] →
      o.onTicker inputs timeoutTicker n =
        { inputs := (o.scan inputs n).inputs, op := (o.scan inputs n).op,
          timeoutTicker := timeoutTicker, scans := [n],
          broadcast := (o.scan inputs n).broadcast,
          puts := [(WINDOW_INPUTS_KEY, .tuples (o.scan inputs n).inputs),
            (TRIGGER_TIME_KEY, .int64 (o.scan inputs n).op.triggerTime)] }) ∧
    ((o.onTicker inputs timeoutTicker n).scans ≠ [n] →
      o.onTicker inputs timeoutTicker n =
        { inputs := inputs, op := o, timeoutTicker := timeoutTicker, scans := [],
          broadcast := [], puts := [] }) ∧
    (-9223372036854775808 ≤ n - o.window.Length → n - o.window.Length < 9223372036854775808 →
      wrap64 (n - o.window.Length) = n - o.window.Length) := by
  refine ⟨?_, ?_, ?_, fun h1 h2 => wrap64_of_range _ h1 h2⟩
  · cases inputs with
    | nil =>
      by_cases hs : o.window.WType = .SESSION_WINDOW
      · simp [WindowOperator.onTicker, hs]
      · simp [WindowOperator.onTicker, hs]
    | cons first rest =>
      by_cases hs : o.window.WType = .SESSION_WINDOW
      · by_cases hc : wrap64 (n - o.window.Length) < first.Timestamp
        · simp [WindowOperator.onTicker, hs, hc]
        · simp [WindowOperator.onTicker, hs, hc, not_lt.mp hc]
      · simp [WindowOperator.onTicker, hs]
  · cases inputs with
    | nil =>
      by_cases hs : o.window.WType = .SESSION_WINDOW
      · simp [WindowOperator.onTicker, hs]
      · simp [WindowOperator.onTicker, hs]
    | cons first rest =>
      by_cases hs : o.window.WType = .SESSION_WINDOW
      · by_cases hc : wrap64 (n - o.window.Length) < first.Timestamp
        · simp [WindowOperator.onTicker, hs, hc]
        · simp [WindowOperator.onTicker, hs, hc]
      · simp [WindowOperator.onTicker, hs]
  · cases inputs with
    | nil =>
      by_cases hs : o.window.WType = .SESSION_WINDOW
      · simp [WindowOperator.onTicker, hs]
      · simp [WindowOperator.onTicker, hs]
    | cons first rest =>
      by_cases hs : o.window.WType = .SESSION_WINDOW
      · by_cases hc : wrap64 (n - o.window.Length) < first.Timestamp
        · simp [WindowOperator.onTicker, hs, hc]
        · simp [WindowOperator.onTicker, hs, hc]
      · simp [WindowOperator.onTicker, hs]

/-- Witness of C23: a session window of length 5000 whose first buffered tuple
has timestamp 1000 does not scan at the tick 5000 and scans at the tick 6000. -/
theorem ticker_scan_iff_witness :
    (WindowOperator.onTicker ⟨⟨.SESSION_WINDOW, 5000, 1000⟩, false, 1000, 0, 0⟩
        [⟨"demo", "a", 1000⟩] none 5000 =
      { inputs := [⟨"demo", "a", 1000⟩],
        op := ⟨⟨.SESSION_WINDOW, 5000, 1000⟩, false, 1000, 0, 0⟩, timeoutTicker := none,
        scans := [], broadcast := [], puts := [] }) ∧
    (WindowOperator.onTicker ⟨⟨.SESSION_WINDOW, 5000, 1000⟩, false, 1000, 0, 0⟩
        [⟨"demo", "a", 1000⟩] none 6000).scans = [6000] :=
  ⟨(ticker_scan_iff ⟨⟨.SESSION_WINDOW, 5000, 1000⟩, false, 1000, 0, 0⟩
      [⟨"demo", "a", 1000⟩] none 5000).2.2.1 (by decide),
    by decide⟩

/-- C24, as stated, fails: a session window of length 5000 and interval 1000
that receives tuples at 1000, 2000 and 3000 holds, after the third, a timeout
armed with a duration of 1000 milliseconds, not 5000, which fires at 4000, not
at 8000; with silence up to 8000 its emissions are at 2000, 3000 and 4000, one
tuple each, and none is at 8000. -/
theorem session_timeout_not_length :
    ((ProcRun.drive ⟨[], ⟨⟨.SESSION_WINDOW, 5000, 1000⟩, false, 0, 0, 0⟩, none, []⟩
        [.tuple ⟨"demo", "t1", 1000⟩ 1000, .tuple ⟨"demo", "t2", 2000⟩ 2000,
          .tuple ⟨"demo", "t3", 3000⟩ 3000]).map
        (fun r => r.timeoutTicker.map (fun t => (t.duration, t.firesAt)))) =
      some (some (1000, 4000)) ∧
    (1000 : Int) ≠ 5000 ∧ (4000 : Int) ≠ 8000 ∧
    ((ProcRun.driveUntil ⟨[], ⟨⟨.SESSION_WINDOW, 5000, 1000⟩, false, 0, 0, 0⟩, none, []⟩
        [.tuple ⟨"demo", "t1", 1000⟩ 1000, .tuple ⟨"demo", "t2", 2000⟩ 2000,
          .tuple ⟨"demo", "t3", 3000⟩ 3000, .tick 5000] 8000).map
        (fun r => r.emitted.map (fun w => (w.Content.map (fun t => t.Message), w.WindowEnd)))) =
      some [(["t1"], 2000), (["t2"], 3000), (["t3"], 4000)] := by
  refine ⟨by decide, by decide, by decide, by decide⟩

/-- C24: for a session window the interval is the session-gap timeout: the
arrival of a tuple at time clock arms the one-shot timeout with a duration of
interval milliseconds, whether a timeout was armed before or not, so that it is
due interval after the last tuple received; the tuple is added to the buffer and
nothing is scanned or broadcast at its arrival. An armed timeout leaves the loop
as it is up to the time at which it is due and then runs the timeout case with
that time. With length 5000 and interval 1000 and tuples at 1000, 2000 and 3000,
the timeout armed by a tuple is due when the next arrives and is served first:
the sessions (t1), (t2), (t3) are emitted at 2000, 3000 and 4000, and after
silence up to 8000 the buffer is empty and nothing else was emitted. With tuples
at 1000, 1900 and 2800, each within the gap, nothing is emitted up to 3799 and
the one session (t1, t2, t3) is emitted at 3800, with window start 1000. -/
theorem session_timeout_duration (o : WindowOperator) (l i : Int) (inputs : List Tuple)
    (timeoutTicker : Option Timer) (d : Tuple) (clock : Int) (r : ProcRun)
    (horizon armedAt : Int) :
    (({ o with window := ⟨.SESSION_WINDOW, l, i⟩ } : WindowOperator).tupleArrival inputs
        timeoutTicker d clock).map
        (fun s => (s.timeoutTicker, s.inputs, s.scans, s.broadcast)) =
      some (some { armedAt := clock, duration := i }, inputs ++ [d], [], []) ∧
    (Timer.mk clock i).firesAt = clock + i ∧
    (horizon < armedAt + i →
      ({ r with timeoutTicker := some ⟨armedAt, i⟩ } : ProcRun).fireDue horizon =
        some { r with timeoutTicker := some ⟨armedAt, i⟩ }) ∧
    (armedAt + i ≤ horizon →
      ({ r with timeoutTicker := some ⟨armedAt, i⟩ } : ProcRun).fireDue horizon =
        ({ r with timeoutTicker := some ⟨armedAt, i⟩ } : ProcRun).step
          (.timeout (armedAt + i))) ∧
    ((ProcRun.driveUntil ⟨[], ⟨⟨.SESSION_WINDOW, 5000, 1000⟩, false, 0, 0, 0⟩, none, []⟩
        [.tuple ⟨"demo", "t1", 1000⟩ 1000, .tuple ⟨"demo", "t2", 2000⟩ 2000,
          .tuple ⟨"demo", "t3", 3000⟩ 3000, .tick 5000] 8000).map
        (fun r => (r.emitted, r.inputs)) =
      some ([WindowTuplesSet.mk [⟨"demo", "t1", 1000⟩] 1000 2000,
          WindowTuplesSet.mk [⟨"demo", "t2", 2000⟩] 2000 3000,
          WindowTuplesSet.mk [⟨"demo", "t3", 3000⟩] 3000 4000],
        [])) ∧
    ((ProcRun.driveUntil ⟨[], ⟨⟨.SESSION_WINDOW, 5000, 1000⟩, false, 0, 0, 0⟩, none, []⟩
        [.tuple ⟨"demo", "t1", 1000⟩ 1000, .tuple ⟨"demo", "t2", 1900⟩ 1900,
          .tuple ⟨"demo", "t3", 2800⟩ 2800] 3799).map
        (fun r => (r.emitted, r.timeoutTicker.map Timer.firesAt)) = some ([], some 3800)) ∧
    ((ProcRun.driveUntil ⟨[], ⟨⟨.SESSION_WINDOW, 5000, 1000⟩, false, 0, 0, 0⟩, none, []⟩
        [.tuple ⟨"demo", "t1", 1000⟩ 1000, .tuple ⟨"demo", "t2", 1900⟩ 1900,
          .tuple ⟨"demo", "t3", 2800⟩ 2800, .tick 5000] 8000).map
        (fun r => (r.emitted, r.inputs)) =
      some ([WindowTuplesSet.mk
          [⟨"demo", "t1", 1000⟩, ⟨"demo", "t2", 1900⟩, ⟨"demo", "t3", 2800⟩] 1000 3800],
        [])) := by
  refine ⟨?_, rfl, ?_, ?_, by decide, by decide, by decide⟩
  · cases timeoutTicker with
    | none => simp [WindowOperator.tupleArrival]
    | some t => simp [WindowOperator.tupleArrival]
  · intro h
    have hn : ¬ armedAt + i ≤ horizon := not_le.mpr h
    simp [ProcRun.fireDue, Timer.firesAt, hn]
  · intro h
    simp [ProcRun.fireDue, Timer.firesAt, h]

/-- Witness of C24: a session window of interval 1000 whose timeout was armed at
1000 by the tuple t1 is left as it is by silence up to 1999, and at 2000 the
timeout case runs and emits the session (t1). -/
theorem session_timeout_duration_witness :
    (ProcRun.mk [⟨"demo", "t1", 1000⟩] ⟨⟨.SESSION_WINDOW, 5000, 1000⟩, false, 1000, 0, 0⟩
        (some ⟨1000, 1000⟩) []).fireDue 1999 =
      some (ProcRun.mk [⟨"demo", "t1", 1000⟩] ⟨⟨.SESSION_WINDOW, 5000, 1000⟩, false, 1000, 0, 0⟩
        (some ⟨1000, 1000⟩) []) ∧
    ((ProcRun.mk [⟨"demo", "t1", 1000⟩] ⟨⟨.SESSION_WINDOW, 5000, 1000⟩, false, 1000, 0, 0⟩
        (some ⟨1000, 1000⟩) []).fireDue 2000).map (fun r => (r.emitted, r.inputs)) =
      some ([WindowTuplesSet.mk [⟨"demo", "t1", 1000⟩] 1000 2000], []) :=
  ⟨(session_timeout_duration ⟨⟨.SESSION_WINDOW, 5000, 1000⟩, false, 1000, 0, 0⟩ 5000 1000 []
      none ⟨"demo", "t1", 1000⟩ 1000
      (ProcRun.mk [⟨"demo", "t1", 1000⟩] ⟨⟨.SESSION_WINDOW, 5000, 1000⟩, false, 1000, 0, 0⟩
        none []) 1999 1000).2.2.1 (by decide),
    by decide⟩

/-- C25: the timers of the processing-time loop by window type. A tumbling
window has a ticker of period length, a hopping window a ticker of period
interval, a session window a ticker of period length; sliding and count windows
(and no window) have no ticker. At the arrival of a tuple a session window
arms the one-shot timeout with a duration of interval milliseconds, whether it
was armed before or not, and does not scan; a sliding window scans the buffer
with the tuple added at the timestamp of that tuple; tumbling and hopping
windows add the tuple to the buffer and do not scan. -/
theorem window_timers_by_type (o : WindowOperator) (l i : Int) (inputs : List Tuple)
    (timeoutTicker : Option Timer) (d : Tuple) (clock : Int) :
    ({ o with window := ⟨.TUMBLING_WINDOW, l, i⟩ } : WindowOperator).tickerPeriod = some l ∧
    ({ o with window := ⟨.HOPPING_WINDOW, l, i⟩ } : WindowOperator).tickerPeriod = some i ∧
    ({ o with window := ⟨.SESSION_WINDOW, l, i⟩ } : WindowOperator).tickerPeriod = some l ∧
    ({ o with window := ⟨.SLIDING_WINDOW, l, i⟩ } : WindowOperator).tickerPeriod = none ∧
    ({ o with window := ⟨.COUNT_WINDOW, l, i⟩ } : WindowOperator).tickerPeriod = none ∧
    ({ o with window := ⟨.NOT_WINDOW, l, i⟩ } : WindowOperator).tickerPeriod = none ∧
    (({ o with window := ⟨.SESSION_WINDOW, l, i⟩ } : WindowOperator).tupleArrival inputs
        timeoutTicker d clock).map (fun s => (s.timeoutTicker, s.scans)) =
      some (some { armedAt := clock, duration := i }, []) ∧
    (({ o with window := ⟨.SLIDING_WINDOW, l, i⟩ } : WindowOperator).tupleArrival inputs
        timeoutTicker d clock).map
        (fun s => (s.scans, s.inputs, s.op, s.broadcast, s.timeoutTicker)) =
      some ([d.Timestamp],
        (({ o with window := ⟨.SLIDING_WINDOW, l, i⟩ } : WindowOperator).scan (inputs ++ [d])
          d.Timestamp).inputs,
        (({ o with window := ⟨.SLIDING_WINDOW, l, i⟩ } : WindowOperator).scan (inputs ++ [d])
          d.Timestamp).op,
        (({ o with window := ⟨.SLIDING_WINDOW, l, i⟩ } : WindowOperator).scan (inputs ++ [d])
          d.Timestamp).broadcast,
        timeoutTicker) ∧
    (({ o with window := ⟨.TUMBLING_WINDOW, l, i⟩ } : WindowOperator).tupleArrival inputs
        timeoutTicker d clock).map (fun s => (s.scans, s.inputs, s.timeoutTicker)) =
      some ([], inputs ++ [d], timeoutTicker) ∧
    (({ o with window := ⟨.HOPPING_WINDOW, l, i⟩ } : WindowOperator).tupleArrival inputs
        timeoutTicker d clock).map (fun s => (s.scans, s.inputs, s.timeoutTicker)) =
      some ([], inputs ++ [d], timeoutTicker) := by
  refine ⟨rfl, rfl, rfl, rfl, rfl, rfl, ?_, rfl, rfl, rfl⟩
  cases timeoutTicker with
  | none => simp [WindowOperator.tupleArrival]
  | some t => simp [WindowOperator.tupleArrival]

/-- C26, as stated, fails: on the first trigger (previous trigger time 0)
calDelta returns 32767, and scan expires the tuples older than length + 32767
milliseconds: a hopping window of length 10000 and interval 5000 whose buffer
holds tuples of timestamps 1000 and 30000 and which is scanned at 60000 returns
the buffer without the tuple of timestamp 1000, of age 59000, which is not in
the emitted window either; a sliding window of length 1000 scanned at 40000
drops the tuple of timestamp 1000 in the same way. -/
theorem scan_first_trigger_expires :
    (WindowOperator.mk ⟨.HOPPING_WINDOW, 10000, 5000⟩ false 0 0 0).calDelta 60000 0 = 32767 ∧
    ((WindowOperator.mk ⟨.HOPPING_WINDOW, 10000, 5000⟩ false 0 0 0).scan
        [⟨"demo", "a", 1000⟩, ⟨"demo", "b", 30000⟩] 60000).inputs = [⟨"demo", "b", 30000⟩] ∧
    ((WindowOperator.mk ⟨.HOPPING_WINDOW, 10000, 5000⟩ false 0 0 0).scan
        [⟨"demo", "a", 1000⟩, ⟨"demo", "b", 30000⟩] 60000).broadcast.map
        (fun w => w.Content) = [[⟨"demo", "b", 30000⟩]] ∧
    ((WindowOperator.mk ⟨.SLIDING_WINDOW, 1000, 0⟩ true 0 0 0).scan
        [⟨"demo", "a", 1000⟩, ⟨"demo", "b", 40000⟩] 40000).inputs = [⟨"demo", "b", 40000⟩] := by
  refine ⟨by decide, by decide, by decide, by decide⟩

/-- The buffer that scan returns on the first trigger of a hopping or sliding
window. -/
theorem scan_first_trigger_buffer (o : WindowOperator) (inputs : List Tuple)
    (triggerTime : Int)
    (hw : o.window.WType = .HOPPING_WINDOW ∨ o.window.WType = .SLIDING_WINDOW)
    (hT : o.triggerTime ≤ 0) :
    (o.scan inputs triggerTime).inputs =
      inputs.filter (fun t => decide (wrap64 (triggerTime - t.Timestamp) ≤
        wrap64 (o.window.Length + 32767))) := by
  have hin : (o.scan inputs triggerTime).inputs =
      inputs.filter (o.retained triggerTime (o.scanDelta triggerTime)) := by
    rw [scan_eq]; split_ifs <;> rfl
  rw [hin]
  apply List.filter_congr
  intro t _
  simp [WindowOperator.retained, WindowOperator.scanDelta, WindowOperator.calDelta, hw, hT]

/-- C26: on the first trigger of a hopping or sliding window (previous trigger
time at most 0) calDelta returns the sentinel 32767, and the buffer that scan
returns is the input tuples whose age, trigger time minus timestamp, is at most
length plus 32767 milliseconds, in their order. No tuple of such an age is
expired: when every buffered tuple has one, the returned buffer is the whole
input; a tuple of a greater age is not in the returned buffer. The two sides of
the comparison are the int64 values the code computes; when neither wraps they
are the mathematical difference and sum. In particular a window whose interval
is at most its length keeps, at its first trigger, every tuple stamped within
one interval before the trigger time. -/
theorem scan_first_trigger_scope (o : WindowOperator) (inputs : List Tuple)
    (triggerTime : Int)
    (hw : o.window.WType = .HOPPING_WINDOW ∨ o.window.WType = .SLIDING_WINDOW)
    (hT : o.triggerTime ≤ 0) :
    (∀ delta, o.calDelta triggerTime delta = 32767) ∧
    (o.scan inputs triggerTime).inputs =
      inputs.filter (fun t => decide (wrap64 (triggerTime - t.Timestamp) ≤
        wrap64 (o.window.Length + 32767))) ∧
    ((∀ t ∈ inputs, wrap64 (triggerTime - t.Timestamp) ≤ wrap64 (o.window.Length + 32767)) →
      (o.scan inputs triggerTime).inputs = inputs) ∧
    (-9223372036854775808 ≤ o.window.Length + 32767 →
      o.window.Length + 32767 < 9223372036854775808 →
      (∀ t ∈ inputs, -9223372036854775808 ≤ triggerTime - t.Timestamp ∧
        triggerTime - t.Timestamp ≤ o.window.Length + 32767) →
      (o.scan inputs triggerTime).inputs = inputs) ∧
    (∀ t ∈ inputs, wrap64 (triggerTime - t.Timestamp) > wrap64 (o.window.Length + 32767) →
      t ∉ (o.scan inputs triggerTime).inputs) ∧
    (o.window.Interval ≤ o.window.Length →
      o.window.Length + 32767 < 9223372036854775808 →
      (∀ t ∈ inputs, t.Timestamp ≤ triggerTime ∧
        triggerTime - t.Timestamp ≤ o.window.Interval) →
      (o.scan inputs triggerTime).inputs = inputs) := by
  have hb := scan_first_trigger_buffer o inputs triggerTime hw hT
  refine ⟨?_, hb, ?_, ?_, ?_, ?_⟩
  · intro delta
    simp [WindowOperator.calDelta, hT]
  · intro hall
    rw [hb]
    exact List.filter_eq_self.mpr (fun t ht => decide_eq_true (hall t ht))
  · intro h1 h2 hall
    rw [hb]
    apply List.filter_eq_self.mpr
    intro t ht
    apply decide_eq_true
    rw [wrap64_of_range _ (hall t ht).1 (by have := (hall t ht).2; omega),
      wrap64_of_range _ h1 h2]
    exact (hall t ht).2
  · intro t _ hgt hmem
    rw [hb] at hmem
    have := (List.mem_filter.mp hmem).2
    have hle : wrap64 (triggerTime - t.Timestamp) ≤ wrap64 (o.window.Length + 32767) :=
      of_decide_eq_true this
    exact absurd hgt (not_lt.mpr hle)
  · intro hil h2 hall
    rw [hb]
    apply List.filter_eq_self.mpr
    intro t ht
    apply decide_eq_true
    have h3 := (hall t ht).1
    have h4 := (hall t ht).2
    rw [wrap64_of_range _ (by omega) (by omega), wrap64_of_range _ (by omega) h2]
    omega

/-- Witness of C26: a hopping window of length 10000 and interval 5000 started
at time 0 and scanned for the first time at its first tick, 5000, with tuples
of timestamps 1000 and 4000 in the buffer, returns the whole buffer. -/
theorem scan_first_trigger_scope_witness :
    ((WindowOperator.mk ⟨.HOPPING_WINDOW, 10000, 5000⟩ false 0 0 0).scan
        [⟨"demo", "a", 1000⟩, ⟨"demo", "b", 4000⟩] 5000).inputs =
      [⟨"demo", "a", 1000⟩, ⟨"demo", "b", 4000⟩] :=
  (scan_first_trigger_scope (WindowOperator.mk ⟨.HOPPING_WINDOW, 10000, 5000⟩ false 0 0 0)
    [⟨"demo", "a", 1000⟩, ⟨"demo", "b", 4000⟩] 5000 (Or.inl rfl) (by decide)).2.2.1
    (by decide)

/-- C27, as stated, fails: for a sliding window with interval 0 and previous
trigger time 100, and for an event-time hopping window with interval 5 and
previous trigger time 100, calDelta returns 0, not the trigger time minus the
previous one minus the interval. -/
theorem calDelta_zero_without_interval :
    (WindowOperator.mk ⟨.SLIDING_WINDOW, 10, 0⟩ false 100 0 0).calDelta 150 0 = 0 ∧
    (150 : Int) - 100 - 0 ≠ 0 ∧
    (WindowOperator.mk ⟨.HOPPING_WINDOW, 10, 5⟩ true 100 0 0).calDelta 110 0 = 0 ∧
    (110 : Int) - 100 - 5 ≠ 0 := by
  refine ⟨by decide, by decide, by decide, by decide⟩

/-- C27: for every window whose previous trigger time is greater than 0,
calDelta returns, in processing time and with an interval greater than 0, the
int64 value of trigger_time - last_trigger_time - interval, which is that
difference when neither subtraction leaves the int64 range; in event time, or
with an interval that is not greater than 0, it returns 0. -/
theorem calDelta_after_first (o : WindowOperator) (triggerTime delta : Int)
    (hT : 0 < o.triggerTime) :
    (o.isEventTime = false → 0 < o.window.Interval →
      o.calDelta triggerTime delta =
        wrap64 (wrap64 (triggerTime - o.triggerTime) - o.window.Interval)) ∧
    (o.isEventTime = false → 0 < o.window.Interval →
      -9223372036854775808 ≤ triggerTime - o.triggerTime →
      triggerTime - o.triggerTime < 9223372036854775808 →
      -9223372036854775808 ≤ triggerTime - o.triggerTime - o.window.Interval →
      o.calDelta triggerTime delta = triggerTime - o.triggerTime - o.window.Interval) ∧
    (o.isEventTime = true ∨ o.window.Interval ≤ 0 → o.calDelta triggerTime delta = 0) := by
  have hlast : ¬ o.triggerTime ≤ 0 := not_le.mpr hT
  refine ⟨?_, ?_, ?_⟩
  · intro he hi
    simp [WindowOperator.calDelta, hlast, he, hi]
  · intro he hi h1 h2 h3
    have hw1 : wrap64 (triggerTime - o.triggerTime) = triggerTime - o.triggerTime :=
      wrap64_of_range _ h1 h2
    have hw2 : wrap64 (triggerTime - o.triggerTime - o.window.Interval) =
        triggerTime - o.triggerTime - o.window.Interval :=
      wrap64_of_range _ h3 (by linarith)
    simp [WindowOperator.calDelta, hlast, he, hi, hw1, hw2]
  · intro h
    rcases h with he | hi
    · simp [WindowOperator.calDelta, hlast, he]
    · have hni : ¬ o.window.Interval > 0 := not_lt.mpr hi
      simp only [WindowOperator.calDelta, hlast, if_false]
      rw [if_neg (fun hc => hni hc.2)]

/-- Witness of C27: a hopping window of interval 10 triggered at 100 and then
at 115 has a delta of 5. -/
theorem calDelta_after_first_witness :
    (WindowOperator.mk ⟨.HOPPING_WINDOW, 30, 10⟩ false 100 0 0).calDelta 115 0 =
      115 - (WindowOperator.mk ⟨.HOPPING_WINDOW, 30, 10⟩ false 100 0 0).triggerTime -
        (WindowOperator.mk ⟨.HOPPING_WINDOW, 30, 10⟩ false 100 0 0).window.Interval :=
  (calDelta_after_first (WindowOperator.mk ⟨.HOPPING_WINDOW, 30, 10⟩ false 100 0 0) 115 0
    (by decide)).2.1 rfl (by decide) (by decide) (by decide) (by decide)

/-- C28: NewWindowOp gives a count window whose configured interval is 0 an
interval equal to its length and leaves every other window as configured, the
type and the length always; the operator of a count window of length greater
than 0 has a non-zero interval, so that the remainder of the message count by
the interval is defined for every message count. In processing time NewWindowOp
always returns an operator. -/
theorem newWindowOp_interval (w : WindowConfig) (isEventTime watermark : Bool)
    (o : WindowOperator) (h : NewWindowOp w isEventTime watermark = some o) :
    (w.WType = .COUNT_WINDOW → w.Interval = 0 →
      o.window = { WType := .COUNT_WINDOW, Length := w.Length, Interval := w.Length }) ∧
    (¬ (w.WType = .COUNT_WINDOW ∧ w.Interval = 0) → o.window = w) ∧
    (o.window.WType = w.WType ∧ o.window.Length = w.Length) ∧
    (w.WType = .COUNT_WINDOW → 0 < w.Length →
      o.window.Interval ≠ 0 ∧
        ∀ m : Int, goRem m o.window.Interval = some (Int.tmod m o.window.Interval)) ∧
    (NewWindowOp w false watermark).isSome = true := by
  have hw : o.window =
      if w.Interval = 0 ∧ w.WType = .COUNT_WINDOW then { w with Interval := w.Length }
      else w := by
    unfold NewWindowOp at h
    by_cases he : isEventTime = true
    · by_cases hm : watermark = true
      · simp only [he, hm, if_true, Option.some.injEq] at h
        rw [← h]
      · simp [he, hm] at h
    · simp only [he, Bool.false_eq_true, if_false, Option.some.injEq] at h
      rw [← h]
  refine ⟨?_, ?_, ?_, ?_, ?_⟩
  · intro ht hi
    rw [hw, if_pos ⟨hi, ht⟩, ← ht]
  · intro hn
    rw [hw, if_neg (fun hc => hn ⟨hc.2, hc.1⟩)]
  · rw [hw]
    split_ifs <;> exact ⟨rfl, rfl⟩
  · intro ht hl
    have hne : o.window.Interval ≠ 0 := by
      rw [hw]
      by_cases hi : w.Interval = 0
      · rw [if_pos ⟨hi, ht⟩]
        show w.Length ≠ 0
        omega
      · rw [if_neg (fun hc => hi hc.1)]
        exact hi
    refine ⟨hne, fun m => ?_⟩
    simp [goRem, hne]
  · simp [NewWindowOp]

/-- Witness of C28: a count window of length 3 configured without interval. -/
theorem newWindowOp_interval_witness :
    NewWindowOp ⟨.COUNT_WINDOW, 3, 0⟩ false false =
      some (WindowOperator.mk ⟨.COUNT_WINDOW, 3, 3⟩ false 0 0 0) ∧
    (WindowOperator.mk ⟨.COUNT_WINDOW, 3, 3⟩ false 0 0 0).window =
      { WType := .COUNT_WINDOW, Length := (WindowConfig.mk .COUNT_WINDOW 3 0).Length,
        Interval := (WindowConfig.mk .COUNT_WINDOW 3 0).Length } :=
  ⟨by decide,
    (newWindowOp_interval ⟨.COUNT_WINDOW, 3, 0⟩ false false
      (WindowOperator.mk ⟨.COUNT_WINDOW, 3, 3⟩ false 0 0 0) (by decide)).1 rfl rfl⟩

/-- C29: for an item that preprocessing does not consume, one iteration of the
unary operator increments records-in and then: on a nil result broadcasts
nothing and leaves records-out and exceptions as they are; on an error result
broadcasts that error, once, and increments exceptions and not records-out; on
any other result broadcasts that value, once, and increments records-out and
not exceptions. An item that preprocessing consumes changes nothing. -/
theorem doOp_item_cases {α β : Type} (preprocess : α → Option α) (apply : α → ApplyResult β)
    (r : UnaryRun β) (item toApply : α) (hp : preprocess item = some toApply) :
    (doOpItem preprocess apply r item).stats.recordsIn = r.stats.recordsIn + 1 ∧
    (apply toApply = .nil →
      (doOpItem preprocess apply r item).sent = r.sent ∧
      (doOpItem preprocess apply r item).stats.recordsOut = r.stats.recordsOut ∧
      (doOpItem preprocess apply r item).stats.exceptions = r.stats.exceptions) ∧
    (∀ e, apply toApply = .error e →
      (doOpItem preprocess apply r item).sent = r.sent ++ [.error e] ∧
      (doOpItem preprocess apply r item).stats.recordsOut = r.stats.recordsOut ∧
      (doOpItem preprocess apply r item).stats.exceptions = r.stats.exceptions + 1) ∧
    (∀ v, apply toApply = .value v →
      (doOpItem preprocess apply r item).sent = r.sent ++ [.value v] ∧
      (doOpItem preprocess apply r item).stats.recordsOut = r.stats.recordsOut + 1 ∧
      (doOpItem preprocess apply r item).stats.exceptions = r.stats.exceptions) ∧
    (∀ consumed, preprocess consumed = none →
      doOpItem preprocess apply r consumed = r) := by
  refine ⟨?_, ?_, ?_, ?_, ?_⟩
  · cases ha : apply toApply <;> simp [doOpItem, hp, ha]
  · intro ha
    simp [doOpItem, hp, ha]
  · intro e ha
    simp [doOpItem, hp, ha]
  · intro v ha
    simp [doOpItem, hp, ha]
  · intro c hc
    simp [doOpItem, hc]

/-- Witness of C29: an operation that fails on 0, drops 1 and doubles the other
numbers, applied to 5 by a worker that has counted three items. -/
theorem doOp_item_cases_witness :
    (doOpItem (fun (x : Nat) => some x)
        (fun (x : Nat) => if x = 0 then ApplyResult.error "zero" else
          if x = 1 then ApplyResult.nil else ApplyResult.value (2 * x))
        ⟨⟨3, 2, 1⟩, [Sent.value 4]⟩ 5).sent = [Sent.value 4] ++ [Sent.value 10] ∧
    (doOpItem (fun (x : Nat) => some x)
        (fun (x : Nat) => if x = 0 then ApplyResult.error "zero" else
          if x = 1 then ApplyResult.nil else ApplyResult.value (2 * x))
        ⟨⟨3, 2, 1⟩, [Sent.value 4]⟩ 5).stats.recordsOut = 2 + 1 ∧
    (doOpItem (fun (x : Nat) => some x)
        (fun (x : Nat) => if x = 0 then ApplyResult.error "zero" else
          if x = 1 then ApplyResult.nil else ApplyResult.value (2 * x))
        ⟨⟨3, 2, 1⟩, [Sent.value 4]⟩ 5).stats.exceptions = 1 :=
  (doOp_item_cases (fun (x : Nat) => some x)
    (fun (x : Nat) => if x = 0 then ApplyResult.error "zero" else
      if x = 1 then ApplyResult.nil else ApplyResult.value (2 * x))
    ⟨⟨3, 2, 1⟩, [Sent.value 4]⟩ 5 5 rfl).2.2.2.1 10 rfl

/-- The session replay loop at the restored buffer (t4), t4 of timestamp 4200,
with `next` at the trigger time 4000 and the next tick at 5500: whatever the
bound on its iterations, the bound is used up while the loop still runs. -/
theorem replaySession_stuck (fuel : Nat) (scans : List Int) (bc : List WindowTuplesSet) :
    replaySession 1000 2000 5500 fuel
        ⟨[⟨"demo", "t4", 4200⟩], ⟨⟨.SESSION_WINDOW, 2000, 1000⟩, false, 4000, 0, 0⟩, 4000,
          scans, bc⟩ = .running := by
  induction fuel generalizing scans bc with
  | zero => rfl
  | succ n ih => exact ih (scans ++ [4000]) (bc ++ [])

/-- C31: a session window of length 2000 and interval 1000 receives t1 at 1500,
t2 at 2400 and t3 at 3300, scans at the tick 4000, which emits the three and
sets the trigger time to 4000, and then receives t4 at 4200: the buffer is (t4)
and the trigger time 4000, also when the timeout is made to fire when due (each
tuple arrives before the timeout armed by the one before is due). Restored with
that state and started at time 4500,
the replay loop of the session case never ends: for every bound on its
iterations the bound is used up while the loop still runs. Each iteration finds
no gap in the buffer, keeps `next` at 4000, which is not above the next tick
5500, and runs scan at 4000, which emits nothing and leaves the buffer and the
operator as they are. -/
theorem resume_session_never_ends :
    ((ProcRun.run ⟨[], ⟨⟨.SESSION_WINDOW, 2000, 1000⟩, false, 0, 0, 0⟩, none, []⟩
        [.tuple ⟨"demo", "t1", 1500⟩ 1500, .tick 2000, .tuple ⟨"demo", "t2", 2400⟩ 2400,
          .tuple ⟨"demo", "t3", 3300⟩ 3300, .tick 4000,
          .tuple ⟨"demo", "t4", 4200⟩ 4200]).map
      (fun r => (r.inputs, r.op.triggerTime))) = some ([⟨"demo", "t4", 4200⟩], 4000) ∧
    ((ProcRun.drive ⟨[], ⟨⟨.SESSION_WINDOW, 2000, 1000⟩, false, 0, 0, 0⟩, none, []⟩
        [.tuple ⟨"demo", "t1", 1500⟩ 1500, .tick 2000, .tuple ⟨"demo", "t2", 2400⟩ 2400,
          .tuple ⟨"demo", "t3", 3300⟩ 3300, .tick 4000,
          .tuple ⟨"demo", "t4", 4200⟩ 4200]).map
      (fun r => (r.inputs, r.op.triggerTime))) = some ([⟨"demo", "t4", 4200⟩], 4000) ∧
    (∀ fuel, WindowOperator.resume ⟨⟨.SESSION_WINDOW, 2000, 1000⟩, false, 4000, 0, 0⟩
        [⟨"demo", "t4", 4200⟩] 4500 fuel = .running) ∧
    sessionNext 1000 2000 4200 [⟨"demo", "t4", 4200⟩] 6000 0 = none ∧
    (WindowOperator.mk ⟨.SESSION_WINDOW, 2000, 1000⟩ false 4000 0 0).scan
        [⟨"demo", "t4", 4200⟩] 4000 =
      { inputs := [⟨"demo", "t4", 4200⟩], triggered := false,
        op := ⟨⟨.SESSION_WINDOW, 2000, 1000⟩, false, 4000, 0, 0⟩, broadcast := [] } := by
  refine ⟨by decide, by decide, ?_, by decide, by decide⟩
  intro fuel
  exact replaySession_stuck fuel [] []

end Node

namespace Checkpoint

/-- C30: BarrierTracker.Process returns true on every envelope whose payload is
a barrier and false on every other envelope, and on an envelope that is not a
barrier it leaves the tracker, its pending map included, as it is and passes
nothing to the checkpoint trigger. -/
theorem tracker_process_flag {α : Type} (h : BarrierTracker) (accept : Int → Bool) :
    (∀ (b : Barrier) (channel : String),
      (h.Process accept (BufferOrEvent.mk (Payload.barrier b : Payload α) channel)).2.1 = true) ∧
    (∀ (d : α) (channel : String),
      h.Process accept (BufferOrEvent.mk (Payload.data d) channel) = (h, false, [])) ∧
    (∀ data : BufferOrEvent α,
      (h.Process accept data).2.1 =
        (match data.Data with
          | .barrier _ => true
          | .data _ => false)) := by
  refine ⟨fun b channel => rfl, fun d channel => rfl, ?_⟩
  intro data
  cases hd : data.Data with
  | barrier b => simp [BarrierTracker.Process, hd]
  | data d => simp [BarrierTracker.Process, hd]

/-- C32: in a BarrierTracker with at least two inputs whose pending count for
checkpoint k is one below the input count, the next barrier for k passes k to
TriggerCheckpoint; when the responder rejects, Process returns true and the
tracker, its whole pending map included, is as before the call: the count of k
is still the input count minus one and every other entry, the older ones
included, is still there. A further barrier for k therefore passes k to
TriggerCheckpoint again, whatever the responder then answers. -/
theorem tracker_rejected_completion {α : Type} (h : BarrierTracker)
    (accept again : Int → Bool) (b b2 : Barrier) (channel channel2 : String)
    (hn : 2 ≤ h.inputCount)
    (hc : mapGet h.pendingCheckpoints b.CheckpointId = some (h.inputCount - 1))
    (hr : accept b.CheckpointId = false)
    (hk : b2.CheckpointId = b.CheckpointId) :
    h.Process accept (BufferOrEvent.mk (Payload.barrier b : Payload α) channel) =
      (h, true, [b.CheckpointId]) ∧
    (h.Process accept
      (BufferOrEvent.mk (Payload.barrier b : Payload α) channel)).1.pendingCheckpoints =
        h.pendingCheckpoints ∧
    mapGet (h.Process accept
      (BufferOrEvent.mk (Payload.barrier b : Payload α) channel)).1.pendingCheckpoints
        b.CheckpointId = some (h.inputCount - 1) ∧
    ((h.Process accept (BufferOrEvent.mk (Payload.barrier b : Payload α) channel)).1.Process
      again (BufferOrEvent.mk (Payload.barrier b2 : Payload α) channel2)).2 =
        (true, [b.CheckpointId]) := by
  have h1 : ¬ h.inputCount = 1 := by omega
  have first : h.Process accept (BufferOrEvent.mk (Payload.barrier b : Payload α) channel) =
      (h, true, [b.CheckpointId]) := by
    simp [BarrierTracker.Process, BarrierTracker.processBarrier, h1, hc, hr]
  refine ⟨first, ?_, ?_, ?_⟩
  · rw [first]
  · rw [first]
    exact hc
  · rw [first]
    cases ha : again b.CheckpointId <;>
      simp [BarrierTracker.Process, BarrierTracker.processBarrier, h1, hk, hc, ha]

/-- Witness of C32: a tracker with two inputs that holds one barrier of
checkpoint 1 and one of the older checkpoint 0, and a responder that rejects:
the second barrier of checkpoint 1 triggers it, the pending map keeps both
entries, and a third barrier of checkpoint 1 triggers it again. -/
theorem tracker_rejected_completion_witness :
    (BarrierTracker.mk 2 [(1, 1), (0, 1)]).Process (fun _ => false)
        (BufferOrEvent.mk (Payload.barrier ⟨1, "B"⟩ : Payload String) "B") =
      (BarrierTracker.mk 2 [(1, 1), (0, 1)], true, [1]) ∧
    ((BarrierTracker.mk 2 [(1, 1), (0, 1)]).Process (fun _ => false)
        (BufferOrEvent.mk (Payload.barrier ⟨1, "B"⟩ : Payload String) "B")).1.pendingCheckpoints =
      [(1, 1), (0, 1)] ∧
    mapGet ((BarrierTracker.mk 2 [(1, 1), (0, 1)]).Process (fun _ => false)
        (BufferOrEvent.mk (Payload.barrier ⟨1, "B"⟩ : Payload String) "B")).1.pendingCheckpoints
        1 = some (2 - 1) ∧
    (((BarrierTracker.mk 2 [(1, 1), (0, 1)]).Process (fun _ => false)
        (BufferOrEvent.mk (Payload.barrier ⟨1, "B"⟩ : Payload String) "B")).1.Process
      (fun _ => true) (BufferOrEvent.mk (Payload.barrier ⟨1, "A"⟩ : Payload String) "A")).2 =
        (true, [1]) :=
  @tracker_rejected_completion String (BarrierTracker.mk 2 [(1, 1), (0, 1)]) (fun _ => false)
    (fun _ => true) ⟨1, "B"⟩ ⟨1, "A"⟩ "B" "A" (by decide) (by decide) rfl rfl

/-! ## The trigger log and the consumed envelopes of the aligner -/

/-- The initial run has triggered nothing. -/
theorem init_increasing {α : Type} (n : Int) : (AlignerRun.init n : AlignerRun α).Increasing := by
  simp [AlignerRun.Increasing, AlignerRun.init, NewBarrierAligner]

/-- One envelope keeps the order of the trigger log when the responder accepts. -/
theorem step_increasing {α : Type} (r : AlignerRun α) (d : BufferOrEvent α)
    (hi : r.Increasing) : (r.step (fun _ _ => true) d).Increasing := by
  obtain ⟨hp, hle, hlt⟩ := hi
  cases hd : d.Data with
  | data x =>
    unfold AlignerRun.step BarrierAligner.Process
    simp only [hd]
    split_ifs <;> simp_all [AlignerRun.Increasing]
  | barrier b =>
    unfold AlignerRun.step BarrierAligner.Process
    simp only [hd]
    unfold BarrierAligner.processBarrier BarrierAligner.transition BarrierAligner.complete
    simp only [AlignerRun.Increasing]
    split_ifs <;>
      simp_all [List.pairwise_append, onBarrier_blocked, BarrierAligner.beginNewAlignment,
        BarrierAligner.releaseBlocksAndResetBarriers]
    all_goals first
      | (intro k hk
         rcases hk with hk | hk
         · exact hle k hk
         · omega)
      | (refine ⟨fun k hk => ?_, fun k hk => ?_⟩
         · have := hle k hk
           omega
         · rcases hk with hk | hk
           · have := hle k hk
             omega
           · omega)
      | (refine ⟨fun k hk => ?_, fun k hk => ?_⟩ <;>
         · have := hle k hk
           omega)

/-- A sequence of envelopes keeps the order of the trigger log when the responder
accepts. -/
theorem run_increasing {α : Type} (ds : List (BufferOrEvent α)) (r : AlignerRun α)
    (hi : r.Increasing) : (r.run (fun _ _ => true) ds).Increasing := by
  induction ds generalizing r with
  | nil => exact hi
  | cons d ds ih => exact ih (r.step (fun _ _ => true) d) (step_increasing r d hi)

/-- C33: for every input count and every sequence of envelopes that a
BarrierAligner processes from its initial state, with a responder that accepts
every trigger, the checkpoint ids passed to TriggerCheckpoint are in strictly
increasing order, so no id is passed twice. -/
theorem aligner_triggers_increasing {α : Type} (inputCount : Int)
    (ds : List (BufferOrEvent α)) :
    List.Pairwise (fun a b => a < b)
      (((AlignerRun.init inputCount).run (fun _ _ => true) ds).triggered) ∧
    (((AlignerRun.init inputCount).run (fun _ _ => true) ds).triggered).Nodup := by
  have h := (run_increasing ds (AlignerRun.init inputCount) (init_increasing inputCount)).1
  exact ⟨h, h.imp (fun hab => ne_of_lt hab)⟩

/-- One call of `Process`: the buffer followed by the envelope, when it is
consumed, is what the call hands to `output` followed by the buffer it leaves. -/
theorem process_consumed {α : Type} (h : BarrierAligner α) (accept : Int → Bool)
    (d : BufferOrEvent α) :
    h.buffer ++
        (match d.Data with
          | .barrier _ => []
          | .data _ => if (h.Process accept d).2 then [d] else []) =
      (h.Process accept d).1.flushed ++ (h.Process accept d).1.aligner.buffer := by
  cases hd : d.Data with
  | data x =>
    by_cases hc : h.inputCount > 1 ∧ h.blockedChannels.card > 0
    · by_cases hm : d.Channel ∈ h.blockedChannels
      · simp [BarrierAligner.Process, hd, hc, hm]
      · simp [BarrierAligner.Process, hd, hc, hm]
    · simp only [BarrierAligner.Process, hd, if_neg hc]
      simp
  | barrier b =>
    have hb := (transition_buffer h b).1
    by_cases hp : (h.transition b).proceed = true
    · by_cases hcard :
        ((h.transition b).aligner.blockedChannels.card : Int) = (h.transition b).aligner.inputCount
      · by_cases hacc : accept b.CheckpointId = true
        · simp [BarrierAligner.Process, hd, BarrierAligner.processBarrier,
            BarrierAligner.complete, hp, hcard, hacc, hb,
            BarrierAligner.releaseBlocksAndResetBarriers]
        · simp [BarrierAligner.Process, hd, BarrierAligner.processBarrier,
            BarrierAligner.complete, hp, hcard, hacc, hb]
      · simp [BarrierAligner.Process, hd, BarrierAligner.processBarrier,
          BarrierAligner.complete, hp, hcard, hb]
    · simp [BarrierAligner.Process, hd, BarrierAligner.processBarrier, hp, hb]

/-- One call of `Process` keeps the account of the consumed envelopes. -/
theorem trace_step_consumed {α : Type} (resp : List Int → Int → Bool) (r : AlignerTrace α)
    (d : BufferOrEvent α) (hi : r.consumed = r.flushed ++ r.aligner.buffer) :
    (r.step resp d).consumed = (r.step resp d).flushed ++ (r.step resp d).aligner.buffer := by
  have h := process_consumed r.aligner (resp r.triggered) d
  simp only [AlignerTrace.step, hi, List.append_assoc]
  rw [h]

/-- A sequence of calls of `Process` keeps the account of the consumed
envelopes. -/
theorem trace_run_consumed {α : Type} (resp : List Int → Int → Bool)
    (ds : List (BufferOrEvent α)) (r : AlignerTrace α)
    (hi : r.consumed = r.flushed ++ r.aligner.buffer) :
    (r.run resp ds).consumed = (r.run resp ds).flushed ++ (r.run resp ds).aligner.buffer := by
  induction ds generalizing r with
  | nil => exact hi
  | cons d ds ih => exact ih (r.step resp d) (trace_step_consumed resp r d hi)

/-- C34: whatever the input count, the sequence of calls of Process from the
initial state and the answers of the responder, the envelopes that are not
barriers and for which Process returned true are, in order of arrival, the
envelopes handed to output so far followed by the envelopes in the buffer: none
is lost and none is there twice. -/
theorem aligner_consumed_conserved {α : Type} (inputCount : Int)
    (resp : List Int → Int → Bool) (ds : List (BufferOrEvent α)) :
    ((AlignerTrace.init inputCount).run resp ds).consumed =
      ((AlignerTrace.init inputCount).run resp ds).flushed ++
        ((AlignerTrace.init inputCount).run resp ds).aligner.buffer :=
  trace_run_consumed resp ds (AlignerTrace.init inputCount) rfl

/-- Two inputs A and B and a responder that rejects its first call and accepts
the following ones: barrier 1 on A, t2 on A, barrier 1 on B (rejected), t3 on B,
barrier 1 on B again (accepted). The consumed envelopes are t2 and t3; after the
rejected trigger both are in the buffer, after the accepted one both have been
handed to output and the buffer is empty. -/
theorem aligner_consumed_example :
    (fun (r : AlignerTrace String) => (r.aligner.buffer, r.triggered, r.consumed, r.flushed))
      ((AlignerTrace.init 2).run (fun log _ => decide (1 ≤ log.length))
        [(⟨.barrier ⟨1, "A"⟩, "A"⟩ : BufferOrEvent String), ⟨.data "t2", "A"⟩,
          ⟨.barrier ⟨1, "B"⟩, "B"⟩, ⟨.data "t3", "B"⟩]) =
      ([⟨.data "t2", "A"⟩, ⟨.data "t3", "B"⟩], [1],
        [⟨.data "t2", "A"⟩, ⟨.data "t3", "B"⟩], []) ∧
    (fun (r : AlignerTrace String) => (r.aligner.buffer, r.triggered, r.consumed, r.flushed))
      ((AlignerTrace.init 2).run (fun log _ => decide (1 ≤ log.length))
        [(⟨.barrier ⟨1, "A"⟩, "A"⟩ : BufferOrEvent String), ⟨.data "t2", "A"⟩,
          ⟨.barrier ⟨1, "B"⟩, "B"⟩, ⟨.data "t3", "B"⟩, ⟨.barrier ⟨1, "B"⟩, "B"⟩]) =
      ([], [1, 1], [⟨.data "t2", "A"⟩, ⟨.data "t3", "B"⟩],
        [⟨.data "t2", "A"⟩, ⟨.data "t3", "B"⟩]) := by
  constructor <;> decide

/-- Two inputs A and B and a responder that accepts: after checkpoint 1 is
triggered a late barrier of checkpoint 1 is ignored, and checkpoint 2 is
triggered once both of its barriers have arrived. -/
theorem aligner_triggers_example :
    ((AlignerRun.init 2).run (fun _ _ => true)
      [(⟨.barrier ⟨1, "A"⟩, "A"⟩ : BufferOrEvent String), ⟨.barrier ⟨1, "B"⟩, "B"⟩,
        ⟨.barrier ⟨1, "A"⟩, "A"⟩, ⟨.barrier ⟨2, "B"⟩, "B"⟩, ⟨.barrier ⟨1, "B"⟩, "B"⟩,
        ⟨.barrier ⟨2, "A"⟩, "A"⟩]).triggered = [1, 2] := by
  decide

end Checkpoint
